import Mathlib

/-!
# Verification of the covtool drcov codec and CoverageSet algebra

This file gives a shallow embedding of the covtool repository
(`src/covtool/drcov.py`, `src/covtool/core.py`, and the standalone
`src/covtool.py`) and proves or refutes the frozen specification claims.

Text and binary file content is modelled uniformly as `List Nat` byte
strings (ASCII text; the Python sources read files in binary mode and
split them into text and binary regions themselves).  Python strings
occurring in the source (flavors, module paths, table markers) are
likewise byte strings.  Fallible Python code (raising `DrCovError`,
`ValueError`, `KeyError`, `IndexError` or `struct.error`) is modelled
with `Option`: `none` means the Python call raised.
-/

set_option maxRecDepth 10000

/-! ## Byte-string utilities (models of the Python `str`/`bytes` operations) -/

/-- ASCII bytes of a Lean string literal; used to transcribe the string
constants of the Python source. -/
def strBytes (s : String) : List Nat := s.data.map Char.toNat

/-- Python `str.strip()` whitespace class: space, tab, newline, carriage
return, vertical tab, form feed. -/
def isWSByte (b : Nat) : Bool := b == 32 || b == 9 || b == 10 || b == 13 || b == 11 || b == 12

/-- Drop trailing whitespace (the right half of Python `str.strip()`). -/
def dropTrailWS (l : List Nat) : List Nat := (l.reverse.dropWhile isWSByte).reverse

/-- Python `str.strip()` / `bytes.strip()` on a byte string. -/
def stripWS (l : List Nat) : List Nat := dropTrailWS (l.dropWhile isWSByte)

/-- Python `str.startswith(needle)` on byte strings (`startsWithB needle hay`). -/
def startsWithB : List Nat → List Nat → Bool
  | [], _ => true
  | _ :: _, [] => false
  | a :: as, b :: bs => a == b && startsWithB as bs

/-- Python `needle in hay` substring containment on byte strings. -/
def containsSub (needle : List Nat) : List Nat → Bool
  | [] => startsWithB needle []
  | b :: rest => startsWithB needle (b :: rest) || containsSub needle rest

/-- Python `hay.find(needle)`: index of the first occurrence, `none` for `-1`. -/
def findSub (needle : List Nat) : List Nat → Option Nat
  | [] => if startsWithB needle [] then some 0 else none
  | b :: rest =>
    if startsWithB needle (b :: rest) then some 0
    else (findSub needle rest).map (· + 1)

/-- Python `str.split(sep)` with a single-byte separator (no maxsplit). -/
def splitOnByte (sep : Nat) : List Nat → List (List Nat)
  | [] => [[]]
  | b :: rest =>
    if b == sep then [] :: splitOnByte sep rest
    else
      match splitOnByte sep rest with
      | h :: t => (b :: h) :: t
      | [] => [[b]]

/-- Python `str.split(sep, maxsplit)` with a single-byte separator. -/
def splitLimit (sep : Nat) : Nat → List Nat → List (List Nat)
  | _, [] => [[]]
  | 0, l => [l]
  | k + 1, b :: rest =>
    if b == sep then [] :: splitLimit sep k rest
    else
      match splitLimit sep (k + 1) rest with
      | h :: t => (b :: h) :: t
      | [] => [[b]]

/-- Python `stream.readline()` on a byte string: the first line including its
terminating newline (or the whole rest), plus the remainder. -/
def readLineB : List Nat → List Nat × List Nat
  | [] => ([], [])
  | b :: rest =>
    if b == 10 then ([10], rest)
    else
      match readLineB rest with
      | (l, r) => (b :: l, r)

/-- ASCII lowercasing of one byte (model of Python `str.lower()` per byte). -/
def toLowerByte (b : Nat) : Nat := if 65 ≤ b ∧ b ≤ 90 then b + 32 else b

/-- Python `s.lower()` on a byte string. -/
def lowerB (l : List Nat) : List Nat := l.map toLowerByte

/-- Python `", ".join(parts)`. -/
def joinCommaSpace : List (List Nat) → List Nat
  | [] => []
  | [p] => p
  | p :: q :: rest => p ++ [44, 32] ++ joinCommaSpace (q :: rest)

/-! ## Decimal / hexadecimal numerals

Models of Python `str(n)`, `f"{n:x}"`, `int(s)` and `int(s, 16)` as used by
the drcov writer and parser. -/

/-- ASCII byte of a decimal digit. -/
def digitByte (d : Nat) : Nat := 48 + d

/-- ASCII byte of a lowercase hexadecimal digit (as produced by `f"{n:x}"`). -/
def hexDigitByte (d : Nat) : Nat := if d < 10 then 48 + d else 87 + d

/-- Fuel-driven most-significant-first decimal digits of a positive number. -/
def natToDecAux : Nat → Nat → List Nat
  | 0, _ => []
  | _ + 1, 0 => []
  | fuel + 1, n + 1 => natToDecAux fuel ((n + 1) / 10) ++ [digitByte ((n + 1) % 10)]

/-- Python `str(n)` for a natural number. -/
def natToDec (n : Nat) : List Nat := if n = 0 then [48] else natToDecAux n n

/-- Fuel-driven most-significant-first lowercase hex digits of a positive number. -/
def natToHexAux : Nat → Nat → List Nat
  | 0, _ => []
  | _ + 1, 0 => []
  | fuel + 1, n + 1 => natToHexAux fuel ((n + 1) / 16) ++ [hexDigitByte ((n + 1) % 16)]

/-- Python `f"{n:x}"` for a natural number (no `0x` prefix). -/
def natToHex (n : Nat) : List Nat := if n = 0 then [48] else natToHexAux n n

/-- Python `str(z)` for an integer (the writer renders `containing_id` this way). -/
def intToDec : Int → List Nat
  | Int.ofNat n => natToDec n
  | Int.negSucc n => 45 :: natToDec (n + 1)

/-- Value of one ASCII decimal digit. -/
def decVal (b : Nat) : Option Nat := if 48 ≤ b ∧ b ≤ 57 then some (b - 48) else none

/-- Value of one ASCII hex digit (either case, as accepted by `int(s, 16)`). -/
def hexVal (b : Nat) : Option Nat :=
  if 48 ≤ b ∧ b ≤ 57 then some (b - 48)
  else if 97 ≤ b ∧ b ≤ 102 then some (b - 87)
  else if 65 ≤ b ∧ b ≤ 70 then some (b - 55)
  else none

/-- Left-to-right accumulation of decimal digits; fails on a non-digit byte. -/
def parseDecCore : List Nat → Nat → Option Nat
  | [], acc => some acc
  | b :: r, acc =>
    match decVal b with
    | some v => parseDecCore r (acc * 10 + v)
    | none => none

/-- Left-to-right accumulation of hex digits; fails on a non-digit byte. -/
def parseHexCore : List Nat → Nat → Option Nat
  | [], acc => some acc
  | b :: r, acc =>
    match hexVal b with
    | some v => parseHexCore r (acc * 16 + v)
    | none => none

/-- Python `int(s)` restricted to non-negative results (strips whitespace,
then requires a non-empty run of decimal digits). -/
def pyNatDec (s : List Nat) : Option Nat :=
  let t := stripWS s
  if t = [] then none else parseDecCore t 0

/-- Python `int(s)` for possibly-negative integers (strips whitespace, then
an optional minus sign and a non-empty run of decimal digits). -/
def pyIntDec (s : List Nat) : Option Int :=
  match stripWS s with
  | [] => none
  | b :: rest =>
    if b = 45 then
      if rest = [] then none else (parseDecCore rest 0).map (fun n => -(n : Int))
    else (parseDecCore (b :: rest) 0).map (fun n => (n : Int))

/-- Python `int(s, 16)` restricted to non-negative results: strips whitespace,
accepts an optional `0x`/`0X` prefix, then a non-empty run of hex digits. -/
def pyHexParse (s : List Nat) : Option Nat :=
  let t := stripWS s
  let t2 := if startsWithB [48, 120] t || startsWithB [48, 88] t then t.drop 2 else t
  if t2 = [] then none else parseHexCore t2 0

/-! ## drcov data model (`src/covtool/drcov.py`) -/

/-- Flavor and table-marker string constants of `drcov.py`. -/
def flavorStandard : List Nat := strBytes "drcov"

/-- The hit-count sentinel flavor `"drcov-hits"`. -/
def flavorWithHits : List Nat := strBytes "drcov-hits"

/-- `_VERSION_PREFIX = "DRCOV VERSION: "`. -/
def versionMarker : List Nat := strBytes "DRCOV VERSION: "

/-- `_FLAVOR_PREFIX = "DRCOV FLAVOR: "`. -/
def flavorMarker : List Nat := strBytes "DRCOV FLAVOR: "

/-- `_MODULE_TABLE_PREFIX = "Module Table: "`. -/
def modTableMarker : List Nat := strBytes "Module Table: "

/-- `_BB_TABLE_PREFIX = "BB Table: "`. -/
def bbTableMarker : List Nat := strBytes "BB Table: "

/-- `b"BB Table:"`, the marker `read` uses to split text from binary. -/
def bbFindMarker : List Nat := strBytes "BB Table:"

/-- `_HIT_COUNT_TABLE_PREFIX = "Hit Count Table: "`. -/
def hitTableMarker : List Nat := strBytes "Hit Count Table: "

/-- `_COLUMNS_PREFIX = "Columns: "`. -/
def columnsMarker : List Nat := strBytes "Columns: "

/-- `ModuleTableVersion` enum. -/
inductive ModuleTableVersion where
  | LEGACY
  | V2
  | V3
  | V4
deriving DecidableEq, Repr

/-- The numeric `.value` of a `ModuleTableVersion`. -/
def ModuleTableVersion.value : ModuleTableVersion → Nat
  | .LEGACY => 1
  | .V2 => 2
  | .V3 => 3
  | .V4 => 4

/-- `ModuleTableVersion(n)`: the enum member with value `n`, else `ValueError`. -/
def mtvOfNat (n : Nat) : Option ModuleTableVersion :=
  if n = 1 then some .LEGACY
  else if n = 2 then some .V2
  else if n = 3 then some .V3
  else if n = 4 then some .V4
  else none

/-- `FileHeader`: drcov file header. The flavor is a byte string. -/
structure FileHeader where
  version : Nat
  flavor : List Nat
deriving DecidableEq, Repr

/-- `FileHeader.supports_hit_counts`. -/
def FileHeader.supports_hit_counts (h : FileHeader) : Bool := h.flavor == flavorWithHits

/-- `ModuleEntry`: one row of the module table.  `end` is renamed `endAddr`
(reserved word).  Addresses are naturals; `containing_id` is an integer in
the source (the writer emits `-1`), so it is modelled as `Option Int`. -/
structure ModuleEntry where
  id : Nat
  base : Nat
  endAddr : Nat
  path : List Nat
  entry : Nat
  containing_id : Option Int
  offset : Option Nat
  checksum : Option Nat
  timestamp : Option Nat
deriving DecidableEq, Repr

/-- `BasicBlock`: a value type with by-value equality and hash. -/
structure BasicBlock where
  start : Nat
  size : Nat
  module_id : Nat
deriving DecidableEq, Repr

/-- `CoverageData`: the full in-memory coverage document. -/
structure CoverageData where
  header : FileHeader
  modules : List ModuleEntry
  basic_blocks : List BasicBlock
  module_version : ModuleTableVersion
  hit_counts : Option (List Nat)
deriving DecidableEq, Repr

instance : Inhabited CoverageData :=
  ⟨⟨⟨2, flavorStandard⟩, [], [], .V2, none⟩⟩

/-- `CoverageData.find_module`: position-based fast path, then first-match
linear scan. -/
def find_module (d : CoverageData) (module_id : Nat) : Option ModuleEntry :=
  match d.modules[module_id]? with
  | some m =>
    if m.id = module_id then some m
    else d.modules.find? (fun mm => mm.id == module_id)
  | none => d.modules.find? (fun mm => mm.id == module_id)

/-- `CoverageData.has_hit_counts`: `hit_counts is not None`. -/
def has_hit_counts (d : CoverageData) : Bool := d.hit_counts.isSome

/-- The permissive invalid-block filtering of `validate`: drops blocks whose
module id is unknown and the paired hit counts with them
(`valid_indices` in the source).  `none` models the `IndexError` Python
raises when a surviving block's index is outside the hit-count array; the
`hs ≠ []` test is the Python truthiness of `if self.hit_counts:`. -/
def dropInvalidBlocks (permissive : Bool) (d : CoverageData) (ids : List Nat)
    (invalid : List BasicBlock) : Option (List BasicBlock × Option (List Nat)) :=
  if permissive ∧ invalid ≠ [] then
    let validPairs := d.basic_blocks.enum.filter (fun p => ids.contains p.2.module_id)
    match d.hit_counts with
    | some hs =>
      if hs ≠ [] then
        if validPairs.all (fun p => p.1 < hs.length) then
          some (validPairs.map (fun p => p.2),
            some (validPairs.map (fun p => hs.getD p.1 0)))
        else none
      else some (validPairs.map (fun p => p.2), some hs)
    | none => some (validPairs.map (fun p => p.2), none)
  else some (d.basic_blocks, d.hit_counts)

/-- The hit-count / block length reconciliation of `validate`: strict error
on mismatch, permissive truncation or padding with the default count 1. -/
def alignHitCounts (permissive : Bool) (blocks2 : List BasicBlock) :
    Option (List Nat) → Option (Option (List Nat))
  | none => some none
  | some hs =>
    if hs.length = blocks2.length then some (some hs)
    else if permissive then
      if blocks2.length < hs.length then some (some (hs.take blocks2.length))
      else some (some (hs ++ List.replicate (blocks2.length - hs.length) 1))
    else none

/-- `CoverageData.validate(permissive)`.  `none` models an uncaught
exception (`DrCovError` in strict mode, or a permissive-path `IndexError`);
`some d'` is the (possibly repaired) document. -/
def validate (d : CoverageData) (permissive : Bool) : Option CoverageData :=
  let ids := d.modules.map (fun m => m.id)
  -- duplicate module ids: strict error, permissive warning
  if ¬permissive ∧ ids.dedup.length ≠ d.modules.length then none
  else
    -- non-sequential module ids: warning only, no effect in either mode
    -- basic blocks referencing unknown module ids: strict error, else filter
    let invalid := d.basic_blocks.filter (fun bb => ¬ ids.contains bb.module_id)
    if ¬permissive ∧ invalid ≠ [] then none
    else
      match dropInvalidBlocks permissive d ids invalid with
      | none => none
      | some (blocks2, hcur) =>
        match alignHitCounts permissive blocks2 hcur with
        | none => none
        | some hfinal => some ⟨d.header, d.modules, blocks2, d.module_version, hfinal⟩

/-! ## Document builder (`CoverageBuilder`) -/

/-- The builder's initial internal `CoverageData`. -/
def initBuilder : CoverageData := ⟨⟨2, flavorStandard⟩, [], [], .V2, none⟩

/-- `CoverageBuilder.set_flavor`. -/
def set_flavor (b : CoverageData) (flavor : List Nat) : CoverageData :=
  { b with header := { b.header with flavor := flavor } }

/-- `CoverageBuilder.add_module`: appends a module with the next sequential id. -/
def add_module (b : CoverageData) (path : List Nat) (base endAddr : Nat)
    (entry : Nat := 0) : CoverageData :=
  { b with modules :=
      b.modules ++ [⟨b.modules.length, base, endAddr, path, entry, none, none, none, none⟩] }

/-- `CoverageBuilder.add_coverage`: appends a block; on the first non-default
hit count, back-fills the hit-count array with 1s for the earlier blocks and
appends the new count.  The header flavor is not touched. -/
def add_coverage (b : CoverageData) (module_id offset size : Nat)
    (hit_count : Nat := 1) : CoverageData :=
  let bbs := b.basic_blocks ++ [⟨offset, size, module_id⟩]
  let hcs :=
    if b.hit_counts = none ∧ hit_count ≠ 1 then
      some (List.replicate (bbs.length - 1) 1)
    else b.hit_counts
  match hcs with
  | some l => { b with basic_blocks := bbs, hit_counts := some (l ++ [hit_count]) }
  | none => { b with basic_blocks := bbs, hit_counts := none }

/-- `CoverageBuilder.set_hit_counts`: requires an exact length match
(`ValueError` otherwise), then also switches the flavor to the sentinel. -/
def set_hit_counts (b : CoverageData) (hit_counts : List Nat) : Option CoverageData :=
  if hit_counts.length ≠ b.basic_blocks.length then none
  else some { b with hit_counts := some hit_counts,
                     header := { b.header with flavor := flavorWithHits } }

/-- `CoverageBuilder.enable_hit_counts`. -/
def enable_hit_counts (b : CoverageData) : CoverageData :=
  match b.hit_counts with
  | none =>
    { b with hit_counts := some (List.replicate b.basic_blocks.length 1),
             header := { b.header with flavor := flavorWithHits } }
  | some _ => b

/-! ## Writer (`_Writer.write_stream` and helpers) -/

/-- Python truthiness of `x or dflt` for an optional integer
(`mod.containing_id or -1`): `None` and `0` both fall back. -/
def pyOrIntD (o : Option Int) (dflt : Int) : Int :=
  match o with
  | some v => if v = 0 then dflt else v
  | none => dflt

/-- Python truthiness of `x or dflt` for an optional natural
(`mod.offset or 0`, `mod.checksum or 0`, `mod.timestamp or 0`). -/
def pyOrNatD (o : Option Nat) (dflt : Nat) : Nat :=
  match o with
  | some v => if v = 0 then dflt else v
  | none => dflt

/-- `has_windows_fields`: any module carries a checksum or timestamp. -/
def windowsFields (d : CoverageData) : Bool :=
  d.modules.any (fun m => m.checksum.isSome || m.timestamp.isSome)

/-- `_Writer._get_columns_string` (the legacy writer path uses a fixed column
list and never calls this; the `LEGACY` case is its default return). -/
def columnsStringFor (v : ModuleTableVersion) (hw : Bool) : List Nat :=
  match v with
  | .V2 =>
    if hw then strBytes "id, base, end, entry, checksum, timestamp, path"
    else strBytes "id, base, end, entry, path"
  | .V3 =>
    if hw then strBytes "id, containing_id, start, end, entry, checksum, timestamp, path"
    else strBytes "id, containing_id, start, end, entry, path"
  | .V4 =>
    if hw then strBytes "id, containing_id, start, end, entry, offset, checksum, timestamp, path"
    else strBytes "id, containing_id, start, end, entry, offset, path"
  | .LEGACY => strBytes "id, base, end, entry, path"

/-- The writer's per-row column list: fixed for legacy, otherwise the split of
the columns string (`[c.strip() for c in columns_str.split(",")]`). -/
def writerColumns (v : ModuleTableVersion) (hw : Bool) : List (List Nat) :=
  if v = .LEGACY then
    [strBytes "id", strBytes "base", strBytes "end", strBytes "entry", strBytes "path"]
  else (splitOnByte 44 (columnsStringFor v hw)).map stripWS

/-- One cell of a module row (the `for col in columns` dispatch in
`_write_module_table`); unknown column names append nothing. -/
def renderColOpt (m : ModuleEntry) (col : List Nat) : Option (List Nat) :=
  if col = strBytes "id" then some (natToDec m.id)
  else if col = strBytes "base" ∨ col = strBytes "start" then
    some (strBytes "0x" ++ natToHex m.base)
  else if col = strBytes "end" then some (strBytes "0x" ++ natToHex m.endAddr)
  else if col = strBytes "entry" then some (strBytes "0x" ++ natToHex m.entry)
  else if col = strBytes "path" then some m.path
  else if col = strBytes "containing_id" then some (intToDec (pyOrIntD m.containing_id (-1)))
  else if col = strBytes "offset" then some (strBytes "0x" ++ natToHex (pyOrNatD m.offset 0))
  else if col = strBytes "checksum" then some (strBytes "0x" ++ natToHex (pyOrNatD m.checksum 0))
  else if col = strBytes "timestamp" then some (strBytes "0x" ++ natToHex (pyOrNatD m.timestamp 0))
  else none

/-- One module-table row: `", ".join(parts) + "\n"`. -/
def moduleRow (cols : List (List Nat)) (m : ModuleEntry) : List Nat :=
  joinCommaSpace (cols.filterMap (renderColOpt m)) ++ [10]

/-- `_Writer._write_module_table`: declaration line (and `Columns:` line for
versioned tables) followed by the rows. -/
def modTableSection (d : CoverageData) : List Nat :=
  let cols := writerColumns d.module_version (windowsFields d)
  let decl :=
    if d.module_version = .LEGACY then
      modTableMarker ++ natToDec d.modules.length ++ [10]
    else
      modTableMarker ++ strBytes "version " ++ natToDec d.module_version.value
        ++ strBytes ", count " ++ natToDec d.modules.length ++ [10]
        ++ columnsMarker ++ columnsStringFor d.module_version (windowsFields d) ++ [10]
  decl ++ (d.modules.map (moduleRow cols)).flatten

/-- The text region emitted by `write_stream` before the BB table: header,
blank line, module table, blank line. -/
def textSection (d : CoverageData) : List Nat :=
  versionMarker ++ natToDec d.header.version ++ [10]
    ++ flavorMarker ++ d.header.flavor ++ [10]
    ++ [10]
    ++ modTableSection d
    ++ [10]

/-- `struct.pack("<I", n)`: four little-endian bytes, `struct.error` out of range. -/
def pack4 (n : Nat) : Option (List Nat) :=
  if n < 4294967296 then
    some [n % 256, n / 256 % 256, n / 65536 % 256, n / 16777216 % 256]
  else none

/-- `struct.pack("<IHH", start, size, module_id)`. -/
def pack8 (b : BasicBlock) : Option (List Nat) :=
  if b.size < 65536 ∧ b.module_id < 65536 then
    (pack4 b.start).map (fun s4 =>
      s4 ++ [b.size % 256, b.size / 256, b.module_id % 256, b.module_id / 256])
  else none

/-- The packed BB records of `_write_bb_table`. -/
def packBlocks (bs : List BasicBlock) : Option (List Nat) := (bs.mapM pack8).map List.flatten

/-- The packed hit counts of `_write_hit_count_table`. -/
def packHits (hs : List Nat) : Option (List Nat) := (hs.mapM pack4).map List.flatten

/-- `_Writer._write_bb_table`: `BB Table: {n} bbs\n` plus the packed records. -/
def bbSection (d : CoverageData) : Option (List Nat) :=
  (packBlocks d.basic_blocks).map (fun pb =>
    bbTableMarker ++ natToDec d.basic_blocks.length ++ strBytes " bbs" ++ [10] ++ pb)

/-- `_Writer._write_hit_count_table`, emitted only when `hit_counts is not None`. -/
def hitSection (d : CoverageData) : Option (List Nat) :=
  match d.hit_counts with
  | none => some []
  | some hs =>
    (packHits hs).map (fun ph =>
      hitTableMarker ++ strBytes "version 1, count " ++ natToDec hs.length ++ [10] ++ ph)

/-- Text region plus BB table: everything `write_stream` emits before the
optional hit-count table. -/
def coreBytes (d : CoverageData) : Option (List Nat) :=
  (bbSection d).map (fun bb => textSection d ++ bb)

/-- The full byte stream emitted by `_Writer.write_stream` (without its
leading `validate` call). -/
def serializeBytes (d : CoverageData) : Option (List Nat) :=
  match coreBytes d, hitSection d with
  | some c, some h => some (c ++ h)
  | _, _ => none

/-- `drcov.write` to a fresh file: strict validation, then serialization. -/
def writeBytes (d : CoverageData) : Option (List Nat) :=
  match validate d false with
  | some _ => serializeBytes d
  | none => none

/-! ## Parser (`_Parser` and `drcov.read`) -/

/-- `_Parser._parse_header` on the text region. -/
def parseHeaderB (s : List Nat) : Option (FileHeader × List Nat) :=
  let (vl, s1) := readLineB s
  if ¬ startsWithB versionMarker vl then none
  else
    match pyNatDec (vl.drop versionMarker.length) with
    | none => none
    | some v =>
      let (fl, s2) := readLineB s1
      if ¬ startsWithB flavorMarker fl then none
      else
        let flavor := stripWS (fl.drop flavorMarker.length)
        -- consume the blank line after the header if present, else rewind
        let (bl, s3) := readLineB s2
        let s4 := if stripWS bl = [] then s3 else s2
        some (⟨v, flavor⟩, s4)

/-- `col_map.get("base") or col_map.get("start", "0")` truthiness chain. -/
def pyOrStr (a : Option (List Nat)) (b : List Nat) : List Nat :=
  match a with
  | some v => if v = [] then b else v
  | none => b

/-- Dictionary lookup in the zipped column map (first binding wins). -/
def lookupCol (cm : List (List Nat × List Nat)) (key : List Nat) : Option (List Nat) :=
  (cm.find? (fun p => p.1 == key)).map (fun p => p.2)

/-- Construction of one `ModuleEntry` from the column map (the body of the
row loop of `_parse_module_table`); `none` models the `ValueError`/`KeyError`
path. -/
def buildModuleFromMap (cm : List (List Nat × List Nat)) : Option ModuleEntry := do
  let idv ← lookupCol cm (strBytes "id")
  let idn ← pyNatDec idv
  let startDefault := (lookupCol cm (strBytes "start")).getD (strBytes "0")
  let base ← pyHexParse (pyOrStr (lookupCol cm (strBytes "base")) startDefault)
  let endv ← lookupCol cm (strBytes "end")
  let endN ← pyHexParse endv
  let pathv ← lookupCol cm (strBytes "path")
  let entryN ← pyHexParse ((lookupCol cm (strBytes "entry")).getD (strBytes "0"))
  let cid ←
    match lookupCol cm (strBytes "containing_id") with
    | some v => (pyIntDec v).map some
    | none => some none
  let offv ←
    match lookupCol cm (strBytes "offset") with
    | some v => (pyHexParse v).map some
    | none => some none
  let cks ←
    match lookupCol cm (strBytes "checksum") with
    | some v => (pyHexParse v).map some
    | none => some none
  let ts ←
    match lookupCol cm (strBytes "timestamp") with
    | some v => (pyHexParse v).map some
    | none => some none
  pure ⟨idn, base, endN, pathv, entryN, cid, offv, cks, ts⟩

/-- The row loop of `_parse_module_table`: `count` lines, each split with
`maxsplit = len(columns) - 1`, stripped, zipped against the column names. -/
def parseModRowsB (cols : List (List Nat)) : Nat → List Nat → Option (List ModuleEntry × List Nat)
  | 0, s => some ([], s)
  | n + 1, s =>
    let (rl, s1) := readLineB s
    let line := stripWS rl
    if line = [] then none
    else
      let values := (splitLimit 44 (cols.length - 1) line).map stripWS
      if values.length = cols.length then
        match buildModuleFromMap (cols.zip values) with
        | none => none
        | some m =>
          match parseModRowsB cols n s1 with
          | none => none
          | some (ms, s2) => some (m :: ms, s2)
      else none

/-- `_Parser._parse_module_table`. -/
def parseModuleTableB (s : List Nat) :
    Option (List ModuleEntry × ModuleTableVersion × List Nat) :=
  let (l0, s1) := readLineB s
  let line := stripWS l0
  if ¬ startsWithB modTableMarker line then none
  else
    let content := line.drop modTableMarker.length
    if containsSub (strBytes "version") content then
      let parts := (splitOnByte 44 content).map stripWS
      match parts[0]? with
      | none => none
      | some p0 =>
        match parts[1]? with
        | none => none
        | some p1 =>
          match (splitOnByte 32 p0)[1]? with
          | none => none
          | some vstr =>
            match (splitOnByte 32 p1)[1]? with
            | none => none
            | some cstr =>
              match pyNatDec vstr with
              | none => none
              | some vnum =>
                match mtvOfNat vnum with
                | none => none
                | some ver =>
                  match pyNatDec cstr with
                  | none => none
                  | some count =>
                    let (cl0, s2) := readLineB s1
                    let cline := stripWS cl0
                    if ¬ startsWithB columnsMarker cline then none
                    else
                      let cols := (splitOnByte 44 (cline.drop columnsMarker.length)).map stripWS
                      match parseModRowsB cols count s2 with
                      | none => none
                      | some (ms, s3) =>
                        -- consume the blank line after the module table
                        let (_, s4) := readLineB s3
                        some (ms, ver, s4)
    else
      match pyNatDec content with
      | none => none
      | some count =>
        let legacyCols :=
          [strBytes "id", strBytes "base", strBytes "end", strBytes "entry", strBytes "path"]
        match parseModRowsB legacyCols count s1 with
        | none => none
        | some (ms, s3) =>
          let (_, s4) := readLineB s3
          some (ms, .LEGACY, s4)

/-- `struct.unpack("<IHH", ...)` of one 8-byte BB record. -/
def unpack8 (b0 b1 b2 b3 b4 b5 b6 b7 : Nat) : BasicBlock :=
  ⟨b0 + 256 * b1 + 65536 * b2 + 16777216 * b3, b4 + 256 * b5, b6 + 256 * b7⟩

/-- The BB-record decoding loop (count records over an exact-length buffer). -/
def decodeBBs : Nat → List Nat → Option (List BasicBlock)
  | 0, _ => some []
  | n + 1, b0 :: b1 :: b2 :: b3 :: b4 :: b5 :: b6 :: b7 :: rest =>
    (decodeBBs n rest).map (fun bs => unpack8 b0 b1 b2 b3 b4 b5 b6 b7 :: bs)
  | _ + 1, _ => none

/-- The hit-count decoding loop (`struct.unpack("<I", ...)` per entry). -/
def decode4s : Nat → List Nat → Option (List Nat)
  | 0, _ => some []
  | n + 1, b0 :: b1 :: b2 :: b3 :: rest =>
    (decode4s n rest).map (fun hs => (b0 + 256 * b1 + 65536 * b2 + 16777216 * b3) :: hs)
  | _ + 1, _ => none

/-- The header-line scan of `_parse_hit_count_table_from_binary`: first line
whose stripped form starts with the marker, paired with the byte offset just
past that line's newline (`len("\n".join(lines[:i+1])) + 1`). -/
def findHitHeaderLine : List (List Nat) → Option (List Nat × Nat)
  | [] => none
  | l :: rest =>
    if startsWithB hitTableMarker (stripWS l) then some (stripWS l, l.length + 1)
    else
      match findHitHeaderLine rest with
      | some (hl, p) => some (hl, l.length + 1 + p)
      | none => none

/-- `_Parser._parse_hit_count_table_from_binary`. -/
def parseHitFromBinary (data : List Nat) (expected : Nat) : Option (List Nat) :=
  match findHitHeaderLine (splitOnByte 10 data) with
  | none => none
  | some (hline, pos) =>
    let suffix := stripWS (hline.drop hitTableMarker.length)
    let parts := splitOnByte 44 suffix
    if parts.length ≠ 2 then none
    else
      match parts[1]? with
      | none => none
      | some p1 =>
        let p1s := stripWS p1
        if ¬ startsWithB (strBytes "count ") p1s then none
        else
          match pyNatDec (p1s.drop 6) with
          | none => none
          | some count =>
            if count ≠ expected then none
            else if count = 0 then some []
            else
              let bin := (data.drop pos).take (count * 4)
              if bin.length ≠ count * 4 then none
              else decode4s count bin

/-- `_Parser.parse_with_binary`: text region for header and module table, a
separate binary region for the BB table and optional trailing hit-count
table.  Hit-count parse failures are swallowed (`except Exception: pass`). -/
def parseWithBinary (text bbBytes : List Nat) (permissive : Bool) : Option CoverageData := do
  let (h, t1) ← parseHeaderB text
  if h.version ≠ 2 then none
  else do
    let (mods, mver, _t2) ← parseModuleTableB t1
    let (lineB, bbRest) := readLineB bbBytes
    let bbParsed : Option (List BasicBlock × List Nat) :=
      if lineB = [] then some ([], bbRest)
      else
        let line := stripWS lineB
        if ¬ startsWithB bbTableMarker line then none
        else
          match (splitOnByte 32 (line.drop bbTableMarker.length))[0]? with
          | none => none
          | some cs =>
            match pyNatDec cs with
            | none => none
            | some count =>
              if count = 0 then some ([], bbRest)
              else
                let bin := bbRest.take (count * 8)
                if bin.length ≠ count * 8 then none
                else (decodeBBs count bin).map (fun bs => (bs, bbRest.drop (count * 8)))
    let (blocks, remaining) ← bbParsed
    let hits : Option (List Nat) :=
      if remaining ≠ [] ∧ containsSub hitTableMarker remaining then
        parseHitFromBinary remaining blocks.length
      else none
    validate ⟨h, mods, blocks, mver, hits⟩ permissive

/-- `_Parser.parse_text_only` (no BB table found in the file). -/
def parseTextOnly (s : List Nat) (permissive : Bool) : Option CoverageData := do
  let (h, t1) ← parseHeaderB s
  if h.version ≠ 2 then none
  else do
    let (mods, mver, _t2) ← parseModuleTableB t1
    validate ⟨h, mods, [], mver, none⟩ permissive

/-- `drcov.read` on a whole file image: split at the first `b"BB Table:"`
occurrence, or fall back to the text-only parse. -/
def readBytes (file : List Nat) (permissive : Bool) : Option CoverageData :=
  match findSub bbFindMarker file with
  | none => parseTextOnly file permissive
  | some i => parseWithBinary (file.take i) (file.drop i) permissive

/-! ## CoverageSet algebra (`src/covtool/core.py`)

A `CoverageSet` wraps a `CoverageData` plus two derived views: the
`module_id -> ModuleEntry` dict and the deduplicated block set.  Both are
functions of the document, so operations are modelled directly on
`CoverageData`. -/

/-- One Python dict store/overwrite step (`dict[k] = v` insertion order). -/
def moduleMapInsert (mm : List (Nat × ModuleEntry)) (k : Nat) (v : ModuleEntry) :
    List (Nat × ModuleEntry) :=
  if mm.any (fun p => p.1 == k) then mm.map (fun p => if p.1 == k then (k, v) else p)
  else mm ++ [(k, v)]

/-- `self._module_map = {m.id: m for m in coverage_data.modules}`. -/
def moduleMapOf (ms : List ModuleEntry) : List (Nat × ModuleEntry) :=
  ms.foldl (fun acc m => moduleMapInsert acc m.id m) []

/-- `{**a, **b}`: merge of two dicts, `b` winning on key collisions. -/
def mergeMaps (a b : List (Nat × ModuleEntry)) : List (Nat × ModuleEntry) :=
  b.foldl (fun acc p => moduleMapInsert acc p.1 p.2) a

/-- `list(d.values())` of a module dict. -/
def mapValues (mm : List (Nat × ModuleEntry)) : List ModuleEntry := mm.map (fun p => p.2)

/-- `self._blocks_set = set(coverage_data.basic_blocks)`, enumerated as a
duplicate-free list (Python's set iteration order is arbitrary; only the
underlying set is semantically meaningful). -/
def blocksList (d : CoverageData) : List BasicBlock := d.basic_blocks.dedup

/-- The set underlying `blocksList`. -/
def blocksFinset (d : CoverageData) : Finset BasicBlock := d.basic_blocks.toFinset

/-- `CoverageSet._create_coverage_set`: a fresh document with default header
version, the given flavor, module table version 2 and no hit counts. -/
def createCoverageSetData (mods : List ModuleEntry) (blocks : List BasicBlock)
    (flavor : List Nat) : CoverageData :=
  ⟨⟨2, flavor⟩, mods, blocks, .V2, none⟩

/-- `CoverageSet.__or__`: `list(self._blocks_set | other._blocks_set)`. -/
def unionData (A B : CoverageData) : CoverageData :=
  createCoverageSetData
    (mapValues (mergeMaps (moduleMapOf A.modules) (moduleMapOf B.modules)))
    ((blocksList A ++ blocksList B).dedup)
    (strBytes "covtool_union")

/-- `CoverageSet.__and__`: `list(self._blocks_set & other._blocks_set)`. -/
def interData (A B : CoverageData) : CoverageData :=
  createCoverageSetData
    (mapValues (mergeMaps (moduleMapOf A.modules) (moduleMapOf B.modules)))
    ((blocksList A).filter (fun b => (blocksList B).contains b))
    (strBytes "covtool_intersect")

/-- `CoverageSet.__sub__` (module index is `A`'s own, unmerged). -/
def diffData (A B : CoverageData) : CoverageData :=
  createCoverageSetData
    (mapValues (moduleMapOf A.modules))
    ((blocksList A).filter (fun b => !(blocksList B).contains b))
    (strBytes "covtool_diff")

/-- `CoverageSet.__xor__`: blocks in exactly one operand. -/
def symdiffData (A B : CoverageData) : CoverageData :=
  createCoverageSetData
    (mapValues (mergeMaps (moduleMapOf A.modules) (moduleMapOf B.modules)))
    ((blocksList A).filter (fun b => !(blocksList B).contains b)
      ++ (blocksList B).filter (fun b => !(blocksList A).contains b))
    (strBytes "covtool_symdiff")

/-- A store of live documents; a `CoverageSet` object is an index into it.
Used to express that the set operations allocate a new document and leave
the operands' documents untouched. -/
abbrev CovStore := List CoverageData

/-- `A | B` at the object level: reads the operand documents, appends the
freshly built result document, and returns its index. -/
def unionOpS (st : CovStore) (a b : Nat) : CovStore × Nat :=
  (st ++ [unionData (st.getD a default) (st.getD b default)], st.length)

/-- `A & B` at the object level. -/
def interOpS (st : CovStore) (a b : Nat) : CovStore × Nat :=
  (st ++ [interData (st.getD a default) (st.getD b default)], st.length)

/-- `A - B` at the object level. -/
def diffOpS (st : CovStore) (a b : Nat) : CovStore × Nat :=
  (st ++ [diffData (st.getD a default) (st.getD b default)], st.length)

/-- `A ^ B` at the object level. -/
def symdiffOpS (st : CovStore) (a b : Nat) : CovStore × Nat :=
  (st ++ [symdiffData (st.getD a default) (st.getD b default)], st.length)

/-- Case-insensitive substring module match
(`module_filter.lower() in module.path.lower()`). -/
def matchesPat (pat path : List Nat) : Bool := containsSub (lowerB pat) (lowerB path)

/-- The modules surviving `filter_by_module`. -/
def matchingModulesF (d : CoverageData) (pat : List Nat) : List ModuleEntry :=
  d.modules.filter (fun m => matchesPat pat m.path)

/-- The block/hit-count filtering loop of `filter_by_module`
(`for i, block in enumerate(...)`); `none` models the `IndexError` Python
raises when a surviving block's index is outside the hit-count array. -/
def filterLoop (ids : List Nat) (hasH : Bool) (hs : List Nat) :
    List (Nat × BasicBlock) → Option (List BasicBlock × List Nat)
  | [] => some ([], [])
  | (i, b) :: rest => do
    let (bs, fh) ← filterLoop ids hasH hs rest
    if ids.contains b.module_id then
      if hasH then
        match hs[i]? with
        | some h => some (b :: bs, h :: fh)
        | none => none
      else some (b :: bs, fh)
    else some (bs, fh)

/-- The empty document returned when no module matches the filter. -/
def emptyFilteredData : CoverageData :=
  ⟨⟨2, strBytes "covtool_filtered"⟩, [], [], .V2, none⟩

/-- `CoverageSet.filter_by_module`. -/
def filterByModule (d : CoverageData) (pat : List Nat) : Option CoverageData :=
  let matching := matchingModulesF d pat
  if matching = [] then some emptyFilteredData
  else
    let ids := matching.map (fun m => m.id)
    match filterLoop ids (has_hit_counts d) (d.hit_counts.getD []) d.basic_blocks.enum with
    | none => none
    | some (fb, fh) =>
      some ⟨⟨2, strBytes "covtool_filtered"⟩, matching, fb, d.module_version,
            if fh = [] then none else some fh⟩

/-! ## Standalone tool codec (`src/covtool.py`, class `DrcovFormat`)

This is the single-file variant of the tool; its BB-table parser also
accepts the legacy ASCII block format. -/

/-- `src/covtool.py`'s `BasicBlock` (field `offset` instead of `start`). -/
structure CtBlock where
  offset : Nat
  size : Nat
  module_id : Nat
deriving DecidableEq, Repr

/-- The ASCII BB-table marker `b"module id, start, size:"`. -/
def ctAsciiMarker : List Nat := strBytes "module id, start, size:"

/-- One line of `DrcovFormat._parse_ascii_blocks`; `none` models both the
`continue` on non-block lines and the swallowed `ValueError`/`IndexError`. -/
def parseCtAsciiLine (l0 : List Nat) : Option CtBlock :=
  let line := stripWS l0
  if line = [] ∨ ¬ startsWithB (strBytes "module[") line then none
  else do
    let i1 ← findSub [91] line
    let i2 ← findSub [93] line
    let mid ← pyNatDec ((line.drop (i1 + 1)).take (i2 - (i1 + 1)))
    let j ← findSub (strBytes "]:") line
    let afterColon := stripWS (line.drop (j + 2))
    let parts := splitOnByte 44 afterColon
    let p0 ← parts[0]?
    let p0s := stripWS p0
    let off ← if startsWithB (strBytes "0x") p0s then pyHexParse p0s else pyNatDec p0s
    let p1 ← parts[1]?
    let sz ← pyNatDec (stripWS p1)
    pure ⟨off, sz, mid⟩

/-- `DrcovFormat._parse_ascii_blocks`: parse every line, collecting the
successfully parsed blocks into a set. -/
def parseCtAsciiBlocks (data : List Nat) : Finset CtBlock :=
  (splitOnByte 10 data).foldr
    (fun l acc =>
      match parseCtAsciiLine l with
      | some b => insert b acc
      | none => acc)
    ∅

/-- `DrcovFormat._parse_binary_blocks`: every full 8-byte record
(`range(0, len(data) - 7, 8)`), trailing bytes ignored. -/
def parseCtBinaryBlocks : List Nat → Finset CtBlock
  | b0 :: b1 :: b2 :: b3 :: b4 :: b5 :: b6 :: b7 :: rest =>
    insert ⟨b0 + 256 * b1 + 65536 * b2 + 16777216 * b3, b4 + 256 * b5, b6 + 256 * b7⟩
      (parseCtBinaryBlocks rest)
  | _ => ∅

/-- `DrcovFormat._parse_blocks`: ASCII dispatch on the marker line, else
binary. -/
def parseCtBlocks (bbData : List Nat) : Finset CtBlock :=
  if startsWithB ctAsciiMarker bbData then parseCtAsciiBlocks bbData
  else parseCtBinaryBlocks bbData

/-- The canonical legacy ASCII rendering of one block,
`module[ id]: 0xOFFSET, SIZE`. -/
def ctAsciiLine (b : CtBlock) : List Nat :=
  strBytes "module[ " ++ natToDec b.module_id ++ strBytes "]: 0x" ++ natToHex b.offset
    ++ strBytes ", " ++ natToDec b.size

/-- A whole legacy ASCII BB-table body: the marker line then one line per
block. -/
def ctAsciiData (bs : List CtBlock) : List Nat :=
  ctAsciiMarker ++ [10] ++ (bs.map (fun b => ctAsciiLine b ++ [10])).flatten

/-- The binary 8-byte-record encoding of the same blocks. -/
def ctPackBlocks (bs : List CtBlock) : Option (List Nat) :=
  ((bs.map (fun b => BasicBlock.mk b.offset b.size b.module_id)).mapM pack8).map List.flatten

/-! ## Claim-statement predicates and concrete documents -/

/-- Equality of documents up to the ordering of the module and basic-block
lists, with hit counts travelling with their block (index alignment), as in
the round-trip claim. -/
def docEquivUpToPerm (d d2 : CoverageData) : Bool :=
  (d2.header == d.header) && (d2.module_version == d.module_version) &&
  decide (List.Perm d2.modules d.modules) &&
  (match d.hit_counts, d2.hit_counts with
   | none, none => decide (List.Perm d2.basic_blocks d.basic_blocks)
   | some hs, some hs2 => decide (List.Perm (d2.basic_blocks.zip hs2) (d.basic_blocks.zip hs))
   | _, _ => false)

/-- The round-trip property exactly as claimed: `write` succeeds, reading
the bytes back succeeds, and the result equals the original up to list
ordering. -/
def roundTripUpToPerm (d : CoverageData) : Bool :=
  match writeBytes d with
  | some bs =>
    match readBytes bs false with
    | some d2 => docEquivUpToPerm d d2
    | none => false
  | none => false

/-- A byte string that is safe as one line fragment: no newline, and no
leading/trailing whitespace to be eaten by `strip()`. -/
def cleanStr (s : List Nat) : Bool := !s.contains 10 && stripWS s == s

/-- The optional module fields agree with what the writer can represent for
the document's module-table version: `containing_id` is written only by
v3/v4 (and `0` is garbled to `-1` by Python truthiness), `offset` only by
v4. -/
def fieldsConsistent (m : ModuleEntry) (v : ModuleTableVersion) : Bool :=
  (match v with
   | .V3 | .V4 => match m.containing_id with | some c => c ≠ 0 | none => false
   | _ => m.containing_id == none) &&
  (match v with
   | .V4 => m.offset.isSome
   | _ => m.offset == none)

/-- Checksum/timestamp columns are all-or-nothing across the module table,
and never representable in the legacy format. -/
def windowsConsistent (d : CoverageData) : Bool :=
  d.modules.all (fun m => m.checksum == none && m.timestamp == none) ||
  (decide (d.module_version ≠ .LEGACY) &&
    d.modules.all (fun m => m.checksum.isSome && m.timestamp.isSome))

/-- Writer-compatible documents: these are the documents whose serialized
form the parser can split and read back verbatim. -/
def writerFriendly (d : CoverageData) : Bool :=
  (d.header.version == 2) &&
  cleanStr d.header.flavor &&
  d.modules.all (fun m => cleanStr m.path && !(m.path == []) && fieldsConsistent m d.module_version) &&
  windowsConsistent d &&
  d.basic_blocks.all (fun b => b.start < 4294967296 && b.size < 65536 && b.module_id < 65536) &&
  (match d.hit_counts with
   | none => true
   | some hs => hs.all (fun h => h < 4294967296)) &&
  !containsSub bbFindMarker (textSection d)

/-- A strictly valid v3 document whose single module has no
`containing_id`; the writer emits `-1` for it. -/
def cexV3Doc : CoverageData :=
  ⟨⟨2, flavorStandard⟩,
   [⟨0, 4096, 8192, strBytes "/bin/a", 0, none, none, none, none⟩],
   [], .V3, none⟩

/-- A strictly valid document carrying hit counts while its flavor is the
plain `"drcov"`, not the hit-count sentinel. -/
def cexHitsDoc : CoverageData :=
  ⟨⟨2, flavorStandard⟩,
   [⟨0, 4096, 8192, strBytes "/bin/a", 0, none, none, none, none⟩],
   [⟨256, 32, 0⟩], .V2, some [7]⟩

/-- A well-formed one-block document used to build the mismatched-count file. -/
def cexC3Base : CoverageData :=
  ⟨⟨2, flavorStandard⟩,
   [⟨0, 4096, 8192, strBytes "/bin/a", 0, none, none, none, none⟩],
   [⟨256, 32, 0⟩], .V2, none⟩

/-- A file whose hit-count table declares `count 5` over a single-block BB
table. -/
def cexC3File : List Nat :=
  (writeBytes cexC3Base).getD []
    ++ hitTableMarker ++ strBytes "version 1, count 5" ++ [10] ++ [1, 0, 0, 0]

/-- A document whose block list contains the same block twice (as a parsed
file may: the parser does not deduplicate). -/
def cexDupBlocksDoc : CoverageData :=
  ⟨⟨2, flavorStandard⟩,
   [⟨0, 4096, 8192, strBytes "/bin/a", 0, none, none, none, none⟩],
   [⟨256, 32, 0⟩, ⟨256, 32, 0⟩], .V2, none⟩

/-- An empty document (no modules, no blocks). -/
def emptyDoc : CoverageData := ⟨⟨2, flavorStandard⟩, [], [], .V2, none⟩

/-- Two modules `a`, `b`; the single block and its hit count live in `b`. -/
def cexC8Doc : CoverageData :=
  ⟨⟨2, flavorStandard⟩,
   [⟨0, 4096, 8192, strBytes "/bin/a", 0, none, none, none, none⟩,
    ⟨1, 12288, 16384, strBytes "/lib/b.so", 0, none, none, none, none⟩],
   [⟨256, 32, 1⟩], .V2, some [7]⟩

/-- Two modules sharing id 1, with distinct paths. -/
def cexDupIdDoc : CoverageData :=
  ⟨⟨2, flavorStandard⟩,
   [⟨1, 4096, 8192, strBytes "/bin/first", 0, none, none, none, none⟩,
    ⟨1, 12288, 16384, strBytes "/bin/second", 0, none, none, none, none⟩],
   [], .V2, none⟩

/-- A one-module, one-block document whose BB table we render in the legacy
ASCII form. -/
def cexC6Base : CoverageData :=
  ⟨⟨2, flavorStandard⟩,
   [⟨0, 4096, 8192, strBytes "/bin/a", 0, none, none, none, none⟩],
   [⟨256, 32, 0⟩], .V2, none⟩

/-- The legacy ASCII BB-table body for that block. -/
def cexC6Ascii : List Nat := ctAsciiData [⟨256, 32, 0⟩]

/-- A complete drcov file whose BB table is in the legacy ASCII form
(`BB Table: 1 bbs` followed by the marker line and one ASCII block line). -/
def cexC6File : List Nat :=
  textSection cexC6Base ++ bbTableMarker ++ strBytes "1 bbs" ++ [10] ++ cexC6Ascii

/-! # Theorems

Helper lemmas first (byte strings and numerals), then the claim theorems. -/

/-! ## Generic list/byte lemmas -/

theorem dropWhile_eq_self_of (p : Nat → Bool) (l : List Nat)
    (h : ∀ b ∈ l, p b = false) : l.dropWhile p = l := by
  cases l with
  | nil => rfl
  | cons a t => simp [List.dropWhile, h a (by simp)]

theorem stripWS_eq_self_of (l : List Nat) (h : ∀ b ∈ l, isWSByte b = false) :
    stripWS l = l := by
  unfold stripWS dropTrailWS
  rw [dropWhile_eq_self_of _ l h,
    dropWhile_eq_self_of _ l.reverse (fun b hb => h b (List.mem_reverse.mp hb)),
    List.reverse_reverse]

theorem startsWithB_append (m r : List Nat) : startsWithB m (m ++ r) = true := by
  induction m with
  | nil => rfl
  | cons a t ih => simp [startsWithB, ih]

/-! ## Numeral round trips -/

theorem natToDecAux_digits (fuel : Nat) :
    ∀ n, ∀ b ∈ natToDecAux fuel n, 48 ≤ b ∧ b ≤ 57 := by
  induction fuel with
  | zero => intro n b hb; simp [natToDecAux] at hb
  | succ f ih =>
    intro n b hb
    cases n with
    | zero => simp [natToDecAux] at hb
    | succ m =>
      simp only [natToDecAux, List.mem_append, List.mem_singleton] at hb
      rcases hb with hb | hb
      · exact ih _ b hb
      · subst hb
        have : (m + 1) % 10 < 10 := Nat.mod_lt _ (by omega)
        unfold digitByte; omega

theorem natToDec_digits (n : Nat) : ∀ b ∈ natToDec n, 48 ≤ b ∧ b ≤ 57 := by
  intro b hb
  unfold natToDec at hb
  by_cases h : n = 0
  · simp [h] at hb; omega
  · simp [h] at hb; exact natToDecAux_digits n n b hb

theorem natToHexAux_digits (fuel : Nat) :
    ∀ n, ∀ b ∈ natToHexAux fuel n, (48 ≤ b ∧ b ≤ 57) ∨ (97 ≤ b ∧ b ≤ 102) := by
  induction fuel with
  | zero => intro n b hb; simp [natToHexAux] at hb
  | succ f ih =>
    intro n b hb
    cases n with
    | zero => simp [natToHexAux] at hb
    | succ m =>
      simp only [natToHexAux, List.mem_append, List.mem_singleton] at hb
      rcases hb with hb | hb
      · exact ih _ b hb
      · subst hb
        have : (m + 1) % 16 < 16 := Nat.mod_lt _ (by omega)
        unfold hexDigitByte
        by_cases hd : (m + 1) % 16 < 10 <;> simp [hd] <;> omega

theorem natToHex_digits (n : Nat) :
    ∀ b ∈ natToHex n, (48 ≤ b ∧ b ≤ 57) ∨ (97 ≤ b ∧ b ≤ 102) := by
  intro b hb
  unfold natToHex at hb
  by_cases h : n = 0
  · simp [h] at hb; omega
  · simp [h] at hb; exact natToHexAux_digits n n b hb

theorem natToDec_not_ws (n : Nat) : ∀ b ∈ natToDec n, isWSByte b = false := by
  intro b hb
  have := natToDec_digits n b hb
  unfold isWSByte
  simp only [Bool.or_eq_false_iff, beq_eq_false_iff_ne]
  omega

theorem natToHex_not_ws (n : Nat) : ∀ b ∈ natToHex n, isWSByte b = false := by
  intro b hb
  have := natToHex_digits n b hb
  unfold isWSByte
  simp only [Bool.or_eq_false_iff, beq_eq_false_iff_ne]
  omega

theorem natToDecAux_ne_nil (fuel n : Nat) (h1 : 1 ≤ n) (h2 : n ≤ fuel) :
    natToDecAux fuel n ≠ [] := by
  cases fuel with
  | zero => omega
  | succ f =>
    cases n with
    | zero => omega
    | succ m => simp [natToDecAux]

theorem natToHexAux_ne_nil (fuel n : Nat) (h1 : 1 ≤ n) (h2 : n ≤ fuel) :
    natToHexAux fuel n ≠ [] := by
  cases fuel with
  | zero => omega
  | succ f =>
    cases n with
    | zero => omega
    | succ m => simp [natToHexAux]

theorem parseDecCore_aux (fuel : Nat) :
    ∀ n acc rest, n ≤ fuel →
      parseDecCore (natToDecAux fuel n ++ rest) acc =
        parseDecCore rest (acc * 10 ^ (natToDecAux fuel n).length + n) := by
  induction fuel with
  | zero =>
    intro n acc rest h
    interval_cases n
    simp [natToDecAux]
  | succ f ih =>
    intro n acc rest h
    cases n with
    | zero => simp [natToDecAux]
    | succ m =>
      have hq : (m + 1) / 10 ≤ f := by
        have := Nat.div_lt_self (Nat.succ_pos m) (by omega : 1 < 10)
        omega
      have hr : (m + 1) % 10 < 10 := Nat.mod_lt _ (by omega)
      simp only [natToDecAux, List.append_assoc]
      rw [ih _ acc _ hq]
      have hdv : decVal (digitByte ((m + 1) % 10)) = some ((m + 1) % 10) := by
        unfold decVal digitByte
        rw [if_pos (by omega)]
        congr 1
        omega
      simp only [List.cons_append, List.nil_append, parseDecCore, hdv]
      have hmod : (m + 1) / 10 * 10 + (m + 1) % 10 = m + 1 := by omega
      congr 1
      simp only [List.length_append, List.length_cons, List.length_nil]
      ring_nf
      omega

theorem parseHexCore_aux (fuel : Nat) :
    ∀ n acc rest, n ≤ fuel →
      parseHexCore (natToHexAux fuel n ++ rest) acc =
        parseHexCore rest (acc * 16 ^ (natToHexAux fuel n).length + n) := by
  induction fuel with
  | zero =>
    intro n acc rest h
    interval_cases n
    simp [natToHexAux]
  | succ f ih =>
    intro n acc rest h
    cases n with
    | zero => simp [natToHexAux]
    | succ m =>
      have hq : (m + 1) / 16 ≤ f := by
        have := Nat.div_lt_self (Nat.succ_pos m) (by omega : 1 < 16)
        omega
      have hr : (m + 1) % 16 < 16 := Nat.mod_lt _ (by omega)
      simp only [natToHexAux, List.append_assoc]
      rw [ih _ acc _ hq]
      have hdv : hexVal (hexDigitByte ((m + 1) % 16)) = some ((m + 1) % 16) := by
        unfold hexVal hexDigitByte
        by_cases hd : (m + 1) % 16 < 10
        · rw [if_pos hd, if_pos (by omega)]
          congr 1
          omega
        · rw [if_neg hd, if_neg (by omega), if_pos (by omega)]
          congr 1
          omega
      simp only [List.cons_append, List.nil_append, parseHexCore, hdv]
      have hmod : (m + 1) / 16 * 16 + (m + 1) % 16 = m + 1 := by omega
      congr 1
      simp only [List.length_append, List.length_cons, List.length_nil]
      ring_nf
      omega

theorem parseDecCore_natToDec (n : Nat) : parseDecCore (natToDec n) 0 = some n := by
  by_cases h : n = 0
  · subst h; decide
  · unfold natToDec
    rw [if_neg h]
    have := parseDecCore_aux n n 0 [] (le_refl n)
    simpa [parseDecCore] using this

theorem pyNatDec_natToDec (n : Nat) : pyNatDec (natToDec n) = some n := by
  unfold pyNatDec
  rw [stripWS_eq_self_of _ (natToDec_not_ws n)]
  have hne : natToDec n ≠ [] := by
    unfold natToDec
    by_cases h : n = 0
    · simp [h]
    · rw [if_neg h]; exact natToDecAux_ne_nil n n (by omega) (le_refl n)
  rw [if_neg hne]
  exact parseDecCore_natToDec n

theorem parseHexCore_natToHex (n : Nat) : parseHexCore (natToHex n) 0 = some n := by
  by_cases h : n = 0
  · subst h; decide
  · unfold natToHex
    rw [if_neg h]
    have := parseHexCore_aux n n 0 [] (le_refl n)
    simpa [parseHexCore] using this

theorem natToDec_ne_nil (n : Nat) : natToDec n ≠ [] := by
  unfold natToDec
  by_cases h : n = 0
  · simp [h]
  · rw [if_neg h]; exact natToDecAux_ne_nil n n (by omega) (le_refl n)

theorem natToHex_ne_nil (n : Nat) : natToHex n ≠ [] := by
  unfold natToHex
  by_cases h : n = 0
  · simp [h]
  · rw [if_neg h]; exact natToHexAux_ne_nil n n (by omega) (le_refl n)

theorem pyHexParse_natToHex (n : Nat) :
    pyHexParse (strBytes "0x" ++ natToHex n) = some n := by
  have hs : strBytes "0x" ++ natToHex n = 48 :: 120 :: natToHex n := rfl
  rw [hs]
  unfold pyHexParse
  have hstrip : stripWS (48 :: 120 :: natToHex n) = 48 :: 120 :: natToHex n := by
    apply stripWS_eq_self_of
    intro b hb
    simp only [List.mem_cons] at hb
    rcases hb with hb | hb | hb
    · subst hb; rfl
    · subst hb; rfl
    · exact natToHex_not_ws n b hb
  have h1 : startsWithB [48, 120] (48 :: 120 :: natToHex n) = true := by
    simp [startsWithB]
  simp only [hstrip, h1, Bool.true_or, if_true, List.drop_succ_cons, List.drop_zero]
  rw [if_neg (natToHex_ne_nil n)]
  exact parseHexCore_natToHex n

theorem pyIntDec_cons (b : Nat) (rest : List Nat)
    (h : stripWS (b :: rest) = b :: rest) :
    pyIntDec (b :: rest) =
      if b = 45 then
        if rest = [] then none else (parseDecCore rest 0).map (fun n => -(n : Int))
      else (parseDecCore (b :: rest) 0).map (fun n => (n : Int)) := by
  unfold pyIntDec
  rw [h]

theorem pyIntDec_intToDec (z : Int) : pyIntDec (intToDec z) = some z := by
  cases z with
  | ofNat n =>
    show pyIntDec (natToDec n) = some (n : Int)
    obtain ⟨b, t, hbt⟩ : ∃ b t, natToDec n = b :: t := by
      cases hd : natToDec n with
      | nil => exact absurd hd (natToDec_ne_nil n)
      | cons b t => exact ⟨b, t, rfl⟩
    have hstr : stripWS (b :: t) = b :: t := by
      rw [← hbt]; exact stripWS_eq_self_of _ (natToDec_not_ws n)
    have hb45 : b ≠ 45 := by
      have := natToDec_digits n b (by rw [hbt]; simp)
      omega
    rw [hbt, pyIntDec_cons b t hstr, if_neg hb45, ← hbt, parseDecCore_natToDec n]
    rfl
  | negSucc n =>
    show pyIntDec (45 :: natToDec (n + 1)) = some (Int.negSucc n)
    have hstr : stripWS (45 :: natToDec (n + 1)) = 45 :: natToDec (n + 1) := by
      apply stripWS_eq_self_of
      intro b hb
      simp only [List.mem_cons] at hb
      rcases hb with hb | hb
      · subst hb; rfl
      · exact natToDec_not_ws _ b hb
    rw [pyIntDec_cons 45 (natToDec (n + 1)) hstr, if_pos rfl,
      if_neg (natToDec_ne_nil (n + 1)), parseDecCore_natToDec (n + 1)]
    simp [Int.negSucc_eq]

/-! ## Byte-string lemmas -/

theorem stripWS_eq_self_ends (l : List Nat)
    (hh : ∀ b, l.head? = some b → isWSByte b = false)
    (ht : ∀ b, l.getLast? = some b → isWSByte b = false) : stripWS l = l := by
  have h1 : l.dropWhile isWSByte = l := by
    cases l with
    | nil => rfl
    | cons a t => simp [List.dropWhile, hh a rfl]
  have h2 : l.reverse.dropWhile isWSByte = l.reverse := by
    cases hr : l.reverse with
    | nil => rfl
    | cons a t =>
      have ha : l.getLast? = some a := by
        rw [← List.head?_reverse, hr]; rfl
      simp [List.dropWhile, ht a ha]
  unfold stripWS dropTrailWS
  rw [h1, h2, List.reverse_reverse]

theorem stripWS_cons_ws (c : Nat) (l : List Nat) (hc : isWSByte c = true) :
    stripWS (c :: l) = stripWS l := by
  unfold stripWS
  rw [List.dropWhile_cons_of_pos (by simp [hc])]

theorem dropTrailWS_append_ws (l : List Nat) (c : Nat) (hc : isWSByte c = true) :
    dropTrailWS (l ++ [c]) = dropTrailWS l := by
  unfold dropTrailWS
  rw [List.reverse_append]
  simp only [List.reverse_cons, List.reverse_nil, List.nil_append, List.cons_append,
    List.nil_append]
  rw [List.dropWhile_cons_of_pos (by simp [hc])]

theorem dropWhile_ws_append (l r : List Nat) (hl : l ≠ [])
    (hh : ∀ b, l.head? = some b → isWSByte b = false) :
    (l ++ r).dropWhile isWSByte = l ++ r := by
  cases l with
  | nil => exact absurd rfl hl
  | cons a t => simp [List.dropWhile, hh a rfl]

theorem stripWS_append_newline (l : List Nat) : stripWS (l ++ [10]) = stripWS l := by
  unfold stripWS
  rw [List.dropWhile_append]
  by_cases h : (l.dropWhile isWSByte).isEmpty
  · simp only [h, if_true]
    rw [List.isEmpty_iff.mp h]
    rfl
  · simp only [h, if_false]
    exact dropTrailWS_append_ws _ 10 rfl

theorem readLineB_append (l r : List Nat) (hl : ∀ x ∈ l, x ≠ 10) :
    readLineB (l ++ 10 :: r) = (l ++ [10], r) := by
  induction l with
  | nil => simp [readLineB]
  | cons a t ih =>
    have ha : a ≠ 10 := hl a (by simp)
    have iht := ih (fun x hx => hl x (by simp [hx]))
    simp [readLineB, ha, iht]

theorem readLineB_no_newline (l : List Nat) (hl : ∀ x ∈ l, x ≠ 10) :
    readLineB l = (l, []) := by
  induction l with
  | nil => rfl
  | cons a t ih =>
    have ha : a ≠ 10 := hl a (by simp)
    have iht := ih (fun x hx => hl x (by simp [hx]))
    simp [readLineB, ha, iht]

theorem splitOnByte_notin (sep : Nat) (l : List Nat) (h : ∀ x ∈ l, x ≠ sep) :
    splitOnByte sep l = [l] := by
  induction l with
  | nil => rfl
  | cons a t ih =>
    have ha : a ≠ sep := h a (by simp)
    have iht := ih (fun x hx => h x (by simp [hx]))
    simp [splitOnByte, ha, iht]

theorem splitOnByte_append (sep : Nat) (l r : List Nat) (h : ∀ x ∈ l, x ≠ sep) :
    splitOnByte sep (l ++ sep :: r) = l :: splitOnByte sep r := by
  induction l with
  | nil => simp [splitOnByte]
  | cons a t ih =>
    have ha : a ≠ sep := h a (by simp)
    have iht := ih (fun x hx => h x (by simp [hx]))
    simp [splitOnByte, ha, iht]

theorem splitLimit_cons_skip (sep k : Nat) (p r : List Nat) (hp : ∀ x ∈ p, x ≠ sep) :
    splitLimit sep (k + 1) (p ++ sep :: r) = p :: splitLimit sep k r := by
  induction p with
  | nil => simp [splitLimit]
  | cons a t ih =>
    have ha : a ≠ sep := hp a (by simp)
    have iht := ih (fun x hx => hp x (by simp [hx]))
    simp [splitLimit, ha, iht]

theorem splitLimit_joinCS (qs : List (List Nat)) :
    ∀ p : List Nat, (∀ x ∈ p, x ≠ 44) →
      (∀ q ∈ qs.dropLast, ∀ x ∈ q, x ≠ 44) →
      splitLimit 44 qs.length (joinCommaSpace (p :: qs)) =
        p :: qs.map (fun q => 32 :: q) := by
  induction qs with
  | nil =>
    intro p _ _
    show splitLimit 44 0 (joinCommaSpace [p]) = [p]
    cases p <;> rfl
  | cons q qs' ih =>
    intro p hp hqs
    have hjoin : joinCommaSpace (p :: q :: qs') =
        p ++ 44 :: 32 :: joinCommaSpace (q :: qs') := by
      simp [joinCommaSpace]
    rw [List.length_cons, hjoin, splitLimit_cons_skip 44 qs'.length p _ hp]
    cases qs' with
    | nil =>
      show p :: splitLimit 44 0 (32 :: q) = p :: [32 :: q]
      cases q <;> rfl
    | cons q2 t =>
      have h32 : (32 : Nat) :: joinCommaSpace (q :: q2 :: t) =
          joinCommaSpace ((32 :: q) :: q2 :: t) := by
        simp [joinCommaSpace]
      have hq : ∀ x ∈ (32 :: q : List Nat), x ≠ 44 := by
        intro x hx
        rcases List.mem_cons.mp hx with hx | hx
        · omega
        · exact hqs q (by simp) x hx
      have hqs' : ∀ q3 ∈ (q2 :: t).dropLast, ∀ x ∈ q3, x ≠ 44 := by
        intro q3 hq3 x hx
        refine hqs q3 ?_ x hx
        simp only [List.dropLast_cons₂, List.mem_cons]
        right
        exact hq3
      rw [h32, ih (32 :: q) hq hqs']
      simp

theorem startsWithB_iff (m : List Nat) : ∀ h, startsWithB m h = true ↔ ∃ t, h = m ++ t := by
  induction m with
  | nil => intro h; simp [startsWithB]
  | cons a m' ih =>
    intro h
    cases h with
    | nil => simp [startsWithB]
    | cons b h' =>
      simp only [startsWithB, Bool.and_eq_true, beq_iff_eq, ih h']
      constructor
      · rintro ⟨hab, t, ht⟩
        exact ⟨t, by rw [hab, ht]; rfl⟩
      · rintro ⟨t, ht⟩
        simp only [List.cons_append, List.cons.injEq] at ht
        exact ⟨ht.1.symm, t, ht.2⟩

theorem containsSub_nil_needle (l : List Nat) : containsSub [] l = true := by
  cases l <;> simp [containsSub, startsWithB]

theorem containsSub_append_middle (m x y : List Nat) :
    containsSub m (x ++ (m ++ y)) = true := by
  induction x with
  | nil =>
    cases m with
    | nil => exact containsSub_nil_needle _
    | cons a m' =>
      simp only [List.nil_append, containsSub, Bool.or_eq_true]
      left
      exact startsWithB_append _ _
  | cons c x' ih =>
    simp only [List.cons_append, containsSub, Bool.or_eq_true]
    right
    exact ih

theorem findSub_single_skip (c : Nat) (a rest : List Nat) (h : ∀ x ∈ a, x ≠ c) :
    findSub [c] (a ++ c :: rest) = some a.length := by
  induction a with
  | nil => simp [findSub, startsWithB]
  | cons x a' ih =>
    have hx : x ≠ c := h x (by simp)
    have hsw : startsWithB [c] (x :: (a' ++ c :: rest)) = false := by
      simp [startsWithB, Ne.symm hx]
    have iht := ih (fun y hy => h y (by simp [hy]))
    simp [findSub, hsw, iht]

theorem findSub_pair_skip (c1 c2 : Nat) (a rest : List Nat) (h : ∀ x ∈ a, x ≠ c1) :
    findSub [c1, c2] (a ++ c1 :: c2 :: rest) = some a.length := by
  induction a with
  | nil => simp [findSub, startsWithB]
  | cons x a' ih =>
    have hx : x ≠ c1 := h x (by simp)
    have hsw : startsWithB [c1, c2] (x :: (a' ++ c1 :: c2 :: rest)) = false := by
      simp [startsWithB, Ne.symm hx]
    have iht := ih (fun y hy => h y (by simp [hy]))
    simp [findSub, hsw, iht]

theorem startsWithB_of_le (m x y : List Nat) (hsw : startsWithB m (x ++ y) = true)
    (hle : m.length ≤ x.length) : startsWithB m x = true := by
  obtain ⟨t, ht⟩ := (startsWithB_iff m (x ++ y)).mp hsw
  rw [startsWithB_iff]
  refine ⟨x.drop m.length, ?_⟩
  have htake : (x ++ y).take m.length = m := by
    rw [ht, List.take_append_of_le_length (le_refl m.length)]
    simp
  rw [List.take_append_of_le_length hle] at htake
  conv_lhs => rw [← List.take_append_drop m.length x]
  rw [htake]

theorem findSub_boundary (m : List Nat) : ∀ (text rest : List Nat),
    startsWithB m rest = true → m ≠ [] → containsSub m text = false →
    (∀ x ∈ m, x ≠ 10) → (text = [] ∨ text.getLast? = some 10) →
    findSub m (text ++ rest) = some text.length := by
  intro text
  induction text with
  | nil =>
    intro rest hm hne _ _ _
    cases rest with
    | nil =>
      cases m with
      | nil => exact absurd rfl hne
      | cons a m' => simp [startsWithB] at hm
    | cons b r' => simp [findSub, hm]
  | cons c text' ih =>
    intro rest hm hne hno h10 hlast
    have hlast' : text' = [] ∨ text'.getLast? = some 10 := by
      cases text' with
      | nil => left; rfl
      | cons d t' =>
        right
        rcases hlast with h | h
        · exact absurd h (by simp)
        · rwa [List.getLast?_cons_cons] at h
    have hsplit : startsWithB m ((c :: text') ++ rest) = false ∧
        containsSub m text' = false := by
      constructor
      · by_contra hcon
        have hsw : startsWithB m ((c :: text') ++ rest) = true := by
          revert hcon; cases startsWithB m ((c :: text') ++ rest) <;> simp
        by_cases hlen : m.length ≤ (c :: text').length
        · have hpre : startsWithB m (c :: text') = true :=
            startsWithB_of_le _ _ _ hsw hlen
          have hcc : containsSub m (c :: text') = true := by
            cases text' <;> simp [containsSub, hpre]
          rw [hcc] at hno
          cases hno
        · have htne : (c :: text') ≠ ([] : List Nat) := by simp
          have hl10 : (c :: text').getLast? = some 10 := by
            rcases hlast with h | h
            · exact absurd h htne
            · exact h
          obtain ⟨t, ht⟩ := (startsWithB_iff m _).mp hsw
          have hp_lt1 : (c :: text').length - 1 < (c :: text').length := by simp
          have hp_lt2 : (c :: text').length - 1 < m.length := by
            simp only [List.length_cons] at *
            omega
          have hidx1 : ((c :: text') ++ rest)[(c :: text').length - 1]? = some 10 := by
            rw [List.getElem?_append_left hp_lt1, ← List.getLast?_eq_getElem?]
            exact hl10
          have hidx2 : ((c :: text') ++ rest)[(c :: text').length - 1]? =
              m[(c :: text').length - 1]? := by
            rw [ht, List.getElem?_append_left hp_lt2]
          have hm10 : m[(c :: text').length - 1]? = some 10 := by
            rw [← hidx2, hidx1]
          exact absurd rfl (h10 10 (List.getElem?_mem hm10))
      · cases text' with
        | nil =>
          cases m with
          | nil => exact absurd rfl hne
          | cons a m' => simp [containsSub, startsWithB]
        | cons d t' =>
          have : containsSub m (c :: d :: t') =
              (startsWithB m (c :: d :: t') || containsSub m (d :: t')) := rfl
          rw [this] at hno
          exact (Bool.or_eq_false_iff.mp hno).2
    have ihr := ih rest hm hne hsplit.2 h10 hlast'
    have hfs : findSub m ((c :: text') ++ rest) =
        if startsWithB m (c :: (text' ++ rest)) = true then some 0
        else (findSub m (text' ++ rest)).map (· + 1) := rfl
    rw [hfs]
    have hcond : startsWithB m (c :: (text' ++ rest)) = false := hsplit.1
    rw [if_neg (by simp [hcond]), ihr]
    rfl

/-! ## Claim C4: builder hit-count bookkeeping -/

/-- **C4** counterexample: the first `add_coverage` call with a hit count
other than 1 back-fills the array but does *not* switch the header flavor to
the hit-count sentinel; the flavor stays `"drcov"`. -/
theorem c4_counterexample :
    (add_coverage (add_coverage initBuilder 0 0 1 1) 0 1 1 5).hit_counts = some [1, 5] ∧
    (add_coverage (add_coverage initBuilder 0 0 1 1) 0 1 1 5).header.flavor = flavorStandard ∧
    flavorStandard ≠ flavorWithHits := by
  refine ⟨rfl, rfl, by decide⟩

/-- **C4** (amended): in `CoverageBuilder.add_coverage` the internal
hit-count array stays `None` while every supplied hit count is 1; the first
call with a hit count `h ≠ 1` back-fills the array with a 1 per previously
added block and appends `h`; but the header (in particular the flavor) is
left untouched — only `set_hit_counts`/`enable_hit_counts` switch the
flavor. -/
theorem c4_add_coverage_bookkeeping :
    (∀ (s : CoverageData) (calls : List (Nat × Nat × Nat)),
      s.hit_counts = none →
      (calls.foldl (fun acc c => add_coverage acc c.1 c.2.1 c.2.2 1) s).hit_counts = none) ∧
    (∀ (s : CoverageData) (mid off sz h : Nat),
      s.hit_counts = none → h ≠ 1 →
      (add_coverage s mid off sz h).hit_counts =
        some (List.replicate s.basic_blocks.length 1 ++ [h]) ∧
      (add_coverage s mid off sz h).header = s.header) := by
  constructor
  · intro s calls
    induction calls generalizing s with
    | nil => intro h; simpa using h
    | cons c cs ih =>
      intro h
      rw [List.foldl_cons]
      apply ih
      simp [add_coverage, h]
  · intro s mid off sz h h0 h1
    unfold add_coverage
    simp only [h0, true_and, ne_eq, h1, not_false_eq_true, if_pos,
      List.length_append, List.length_cons, List.length_nil]
    constructor
    · congr 1
    · trivial

/-- Witness for C4: concrete builder runs. -/
theorem c4_add_coverage_bookkeeping_witness :
    (([((0 : Nat), (0 : Nat), (1 : Nat)), (0, 2, 1)]).foldl
        (fun acc c => add_coverage acc c.1 c.2.1 c.2.2 1) initBuilder).hit_counts = none ∧
    ((add_coverage (add_coverage initBuilder 0 1 1 1) 0 2 1 5).hit_counts =
        some (List.replicate (add_coverage initBuilder 0 1 1 1).basic_blocks.length 1 ++ [5]) ∧
      (add_coverage (add_coverage initBuilder 0 1 1 1) 0 2 1 5).header =
        (add_coverage initBuilder 0 1 1 1).header) :=
  ⟨c4_add_coverage_bookkeeping.1 initBuilder _ rfl,
   c4_add_coverage_bookkeeping.2 (add_coverage initBuilder 0 1 1 1) 0 2 1 5 rfl (by decide)⟩

/-! ## Claim C10: filter with no matching module -/

/-- **C10** (confirmed): when no module path matches the pattern
(case-insensitively), `filter_by_module` returns the empty document with
flavor `"covtool_filtered"`, no modules, no blocks, `hit_counts = None`, and
module table version 2 regardless of the source's version. -/
theorem c10_filter_no_match (d : CoverageData) (pat : List Nat)
    (h : ∀ m ∈ d.modules, matchesPat pat m.path = false) :
    filterByModule d pat = some emptyFilteredData := by
  have hm : matchingModulesF d pat = [] := by
    unfold matchingModulesF
    rw [List.filter_eq_nil]
    intro m hmem
    simp [h m hmem]
  simp [filterByModule, hm]

/-- Witness for C10 on a concrete document and pattern. -/
theorem c10_witness :
    filterByModule cexC3Base (strBytes "zzz") = some emptyFilteredData :=
  c10_filter_no_match cexC3Base (strBytes "zzz") (by decide)

/-! ## Claim C7: set operations allocate fresh documents -/

/-- **C7** (confirmed): each of the four set operations leaves every
existing document in the store untouched, returns a reference to a newly
appended document, and that document is freshly constructed: default-version
header with the operation's own flavor, module table version 2, and no hit
counts. -/
theorem c7_set_ops_pure (st : CovStore) (a b i : Nat) (hi : i < st.length) :
    ((unionOpS st a b).1[i]? = st[i]? ∧
      (interOpS st a b).1[i]? = st[i]? ∧
      (diffOpS st a b).1[i]? = st[i]? ∧
      (symdiffOpS st a b).1[i]? = st[i]?) ∧
    ((unionOpS st a b).1[(unionOpS st a b).2]? =
        some (unionData (st.getD a default) (st.getD b default)) ∧
      (interOpS st a b).1[(interOpS st a b).2]? =
        some (interData (st.getD a default) (st.getD b default)) ∧
      (diffOpS st a b).1[(diffOpS st a b).2]? =
        some (diffData (st.getD a default) (st.getD b default)) ∧
      (symdiffOpS st a b).1[(symdiffOpS st a b).2]? =
        some (symdiffData (st.getD a default) (st.getD b default))) ∧
    (∀ A B : CoverageData,
      (unionData A B).hit_counts = none ∧
      (unionData A B).header = ⟨2, strBytes "covtool_union"⟩ ∧
      (unionData A B).module_version = .V2 ∧
      (interData A B).hit_counts = none ∧
      (interData A B).header = ⟨2, strBytes "covtool_intersect"⟩ ∧
      (interData A B).module_version = .V2 ∧
      (diffData A B).hit_counts = none ∧
      (diffData A B).header = ⟨2, strBytes "covtool_diff"⟩ ∧
      (diffData A B).module_version = .V2 ∧
      (symdiffData A B).hit_counts = none ∧
      (symdiffData A B).header = ⟨2, strBytes "covtool_symdiff"⟩ ∧
      (symdiffData A B).module_version = .V2) := by
  refine ⟨⟨?_, ?_, ?_, ?_⟩, ⟨?_, ?_, ?_, ?_⟩, ?_⟩
  · exact List.getElem?_append_left hi
  · exact List.getElem?_append_left hi
  · exact List.getElem?_append_left hi
  · exact List.getElem?_append_left hi
  · exact List.getElem?_concat_length st _
  · exact List.getElem?_concat_length st _
  · exact List.getElem?_concat_length st _
  · exact List.getElem?_concat_length st _
  · intro A B
    exact ⟨rfl, rfl, rfl, rfl, rfl, rfl, rfl, rfl, rfl, rfl, rfl, rfl⟩

/-- Witness for C7 on a concrete two-document store. -/
theorem c7_witness :
    (unionOpS [emptyDoc, cexC3Base] 0 1).1[0]? = ([emptyDoc, cexC3Base] : CovStore)[0]? ∧
    (unionOpS [emptyDoc, cexC3Base] 0 1).1[(unionOpS [emptyDoc, cexC3Base] 0 1).2]? =
      some (unionData (([emptyDoc, cexC3Base] : CovStore).getD 0 default)
        (([emptyDoc, cexC3Base] : CovStore).getD 1 default)) :=
  ⟨(c7_set_ops_pure [emptyDoc, cexC3Base] 0 1 0 (by decide)).1.1,
   (c7_set_ops_pure [emptyDoc, cexC3Base] 0 1 0 (by decide)).2.1.1⟩

/-! ## Claim C5: inclusion–exclusion for union/intersection sizes -/

/-- **C5** counterexample: `len` counts the document's basic-block *list*,
which may contain duplicates, while the set operations deduplicate; a
document whose list holds the same block twice breaks the identity. -/
theorem c5_counterexample :
    ¬ (((unionData cexDupBlocksDoc emptyDoc).basic_blocks.length : Int) =
        (cexDupBlocksDoc.basic_blocks.length : Int) +
        (emptyDoc.basic_blocks.length : Int) -
        ((interData cexDupBlocksDoc emptyDoc).basic_blocks.length : Int)) := by
  decide

theorem toFinset_dedup_list {α : Type} [DecidableEq α] (l : List α) :
    l.dedup.toFinset = l.toFinset := by
  ext x
  simp [List.mem_toFinset, List.mem_dedup]

/-- **C5** (amended): for coverage sets whose documents' basic-block lists
are duplicate-free, `len(A | B) = len(A) + len(B) - len(A & B)`. -/
theorem c5_inclusion_exclusion (A B : CoverageData)
    (hA : A.basic_blocks.Nodup) (hB : B.basic_blocks.Nodup) :
    ((unionData A B).basic_blocks.length : Int) =
      (A.basic_blocks.length : Int) + (B.basic_blocks.length : Int) -
      ((interData A B).basic_blocks.length : Int) := by
  have hAB : (blocksList A).toFinset = blocksFinset A := toFinset_dedup_list _
  have hBB : (blocksList B).toFinset = blocksFinset B := toFinset_dedup_list _
  have hmemB : ∀ x : BasicBlock, (blocksList B).contains x = true ↔ x ∈ blocksFinset B := by
    intro x
    rw [← hBB]
    simp [List.contains, List.elem_iff, List.mem_toFinset]
  have h1 : (unionData A B).basic_blocks.length =
      (blocksFinset A ∪ blocksFinset B).card := by
    show (blocksList A ++ blocksList B).dedup.length = _
    rw [← List.card_toFinset, List.toFinset_append, hAB, hBB]
  have h2 : (interData A B).basic_blocks.length =
      (blocksFinset A ∩ blocksFinset B).card := by
    show ((blocksList A).filter (fun b => (blocksList B).contains b)).length = _
    have hnd : ((blocksList A).filter (fun b => (blocksList B).contains b)).Nodup :=
      (List.nodup_dedup _).filter _
    rw [← List.toFinset_card_of_nodup hnd, List.toFinset_filter]
    congr 1
    ext x
    simp only [Finset.mem_filter, Finset.mem_inter]
    rw [hAB, hmemB x]
  have h3 : A.basic_blocks.length = (blocksFinset A).card :=
    (List.toFinset_card_of_nodup hA).symm
  have h4 : B.basic_blocks.length = (blocksFinset B).card :=
    (List.toFinset_card_of_nodup hB).symm
  have h5 := Finset.card_union_add_card_inter (blocksFinset A) (blocksFinset B)
  rw [h1, h2, h3, h4]
  omega

/-- Witness for C5 on two concrete duplicate-free documents. -/
theorem c5_witness :
    ((unionData cexC3Base cexC8Doc).basic_blocks.length : Int) =
      (cexC3Base.basic_blocks.length : Int) + (cexC8Doc.basic_blocks.length : Int) -
      ((interData cexC3Base cexC8Doc).basic_blocks.length : Int) :=
  c5_inclusion_exclusion cexC3Base cexC8Doc (by decide) (by decide)

/-- Every document `validate` returns keeps the header, module list and
module-table version of its input, and its hit counts are either absent or
aligned with its basic blocks. -/
theorem alignHitCounts_aligned (p : Bool) (blocks2 : List BasicBlock)
    (hc : Option (List Nat)) (hf : Option (List Nat))
    (h : alignHitCounts p blocks2 hc = some hf) :
    hf = none ∨ ∃ hs, hf = some hs ∧ hs.length = blocks2.length := by
  cases hc with
  | none =>
    simp only [alignHitCounts] at h
    injection h with h
    exact Or.inl h.symm
  | some hs =>
    simp only [alignHitCounts] at h
    split at h
    · rename_i hlen
      injection h with h
      exact Or.inr ⟨hs, h.symm, hlen⟩
    · split at h
      · split at h
        · injection h with h
          refine Or.inr ⟨_, h.symm, ?_⟩
          simp only [List.length_take]
          omega
        · injection h with h
          refine Or.inr ⟨_, h.symm, ?_⟩
          simp only [List.length_append, List.length_replicate]
          omega
      · cases h

theorem validate_shape (d : CoverageData) (p : Bool) (d' : CoverageData)
    (h : validate d p = some d') :
    d'.modules = d.modules ∧ d'.header = d.header ∧
    d'.module_version = d.module_version ∧
    (d'.hit_counts = none ∨
      ∃ hs, d'.hit_counts = some hs ∧ hs.length = d'.basic_blocks.length) := by
  unfold validate at h
  dsimp only at h
  split at h
  · cases h
  · split at h
    · cases h
    · split at h
      · cases h
      · rename_i blocks2 hcur hdrop
        split at h
        · cases h
        · rename_i hfinal halign
          injection h with h
          subst h
          refine ⟨rfl, rfl, rfl, ?_⟩
          exact alignHitCounts_aligned p blocks2 hcur hfinal halign

/-! ## Claim C9: duplicate module ids and find_module -/

/-- **C9** counterexample: with two modules sharing id 1, permissive
validation keeps both, but `find_module 1` takes the positional fast path
(`modules[1].id == 1`) and returns the *second* module, not the first match
in list order. -/
theorem c9_counterexample :
    cexDupIdDoc.modules.map (fun m => m.id) = [1, 1] ∧
    validate cexDupIdDoc true = some cexDupIdDoc ∧
    find_module cexDupIdDoc 1 =
      some ⟨1, 12288, 16384, strBytes "/bin/second", 0, none, none, none, none⟩ ∧
    cexDupIdDoc.modules.find? (fun m => m.id == 1) =
      some ⟨1, 4096, 8192, strBytes "/bin/first", 0, none, none, none, none⟩ ∧
    (⟨1, 12288, 16384, strBytes "/bin/second", 0, none, none, none, none⟩ : ModuleEntry) ≠
      ⟨1, 4096, 8192, strBytes "/bin/first", 0, none, none, none, none⟩ := by
  refine ⟨rfl, by decide, by decide, by decide, by decide⟩

/-- **C9** (amended): permissive validation keeps every module entry
(duplicates are not removed), and `find_module` returns *some* module with
the requested id whenever one exists — the positional fast path first, then
the first match — but with duplicate ids it need not be the first in list
order. -/
theorem c9_find_module_characterization (d d2 : CoverageData) (mid : Nat)
    (hv : validate d true = some d2) :
    d2.modules = d.modules ∧
    (∀ m, find_module d mid = some m → m ∈ d.modules ∧ m.id = mid) ∧
    (find_module d mid = none → ∀ m ∈ d.modules, m.id ≠ mid) := by
  refine ⟨(validate_shape d true d2 hv).1, ?_, ?_⟩
  · intro m hm
    unfold find_module at hm
    split at hm
    · rename_i me hme
      split at hm
      · injection hm with hm
        subst hm
        rename_i hid
        exact ⟨List.getElem?_mem hme, hid⟩
      · have h1 := List.find?_some hm
        have h2 := List.mem_of_find?_eq_some hm
        simp only [beq_iff_eq] at h1
        exact ⟨h2, h1⟩
    · have h1 := List.find?_some hm
      have h2 := List.mem_of_find?_eq_some hm
      simp only [beq_iff_eq] at h1
      exact ⟨h2, h1⟩
  · intro hm m hmem
    unfold find_module at hm
    split at hm
    · split at hm
      · cases hm
      · have := List.find?_eq_none.mp hm m hmem
        simpa using this
    · have := List.find?_eq_none.mp hm m hmem
      simpa using this

/-- Witness for C9 at the duplicate-id document. -/
theorem c9_witness :
    cexDupIdDoc.modules = cexDupIdDoc.modules ∧
    (∀ m, find_module cexDupIdDoc 1 = some m → m ∈ cexDupIdDoc.modules ∧ m.id = 1) ∧
    (find_module cexDupIdDoc 1 = none → ∀ m ∈ cexDupIdDoc.modules, m.id ≠ 1) :=
  c9_find_module_characterization cexDupIdDoc cexDupIdDoc 1 (by decide)

/-! ## Claim C2: what gates the hit-count section -/

/-- **C2** counterexample: a strictly valid document whose flavor is plain
`"drcov"` but which carries hit counts.  The written file *does* contain a
hit-count section, and reading it back re-attaches the hit counts — the
flavor is consulted by neither the writer nor the reader. -/
theorem c2_counterexample :
    validate cexHitsDoc false = some cexHitsDoc ∧
    cexHitsDoc.header.supports_hit_counts = false ∧
    (match writeBytes cexHitsDoc with
      | some bs => containsSub hitTableMarker bs
      | none => false) = true ∧
    (writeBytes cexHitsDoc).bind (fun bs => readBytes bs false) = some cexHitsDoc := by
  refine ⟨by decide, by decide, by decide, by decide⟩

/-- **C2** (amended): the writer emits a hit-count section iff the
document's `hit_counts` field is present (`is not None`); the flavor plays
no part.  (The hypothesis rules out the marker string occurring by accident
in the text/BB region.) -/
theorem c2_hit_section_gate (d : CoverageData) (bs core : List Nat)
    (hcore : coreBytes d = some core)
    (hw : writeBytes d = some bs)
    (hclean : containsSub hitTableMarker core = false) :
    (containsSub hitTableMarker bs = true ↔ d.hit_counts ≠ none) := by
  unfold writeBytes at hw
  cases hval : validate d false with
  | none => rw [hval] at hw; cases hw
  | some dv =>
    rw [hval] at hw
    unfold serializeBytes at hw
    rw [hcore] at hw
    cases hhs : hitSection d with
    | none => rw [hhs] at hw; cases hw
    | some hsec =>
      rw [hhs] at hw
      injection hw with hw
      subst hw
      cases hdh : d.hit_counts with
      | none =>
        have hnil : hsec = [] := by
          simp only [hitSection, hdh] at hhs
          injection hhs with h
          exact h.symm
        subst hnil
        simp [hclean, hdh]
      | some hl =>
        simp only [hitSection, hdh] at hhs
        cases hph : packHits hl with
        | none => rw [hph] at hhs; cases hhs
        | some ph =>
          rw [hph] at hhs
          simp only [Option.map_some'] at hhs
          injection hhs with hhs
          constructor
          · intro _; simp [hdh]
          · intro _
            rw [← hhs]
            have : core ++ (hitTableMarker ++ strBytes "version 1, count " ++
                natToDec hl.length ++ [10] ++ ph) =
              core ++ (hitTableMarker ++ (strBytes "version 1, count " ++
                natToDec hl.length ++ [10] ++ ph)) := by
              simp [List.append_assoc]
            rw [this]
            exact containsSub_append_middle _ _ _

/-- Witness for C2 at the hit-count document. -/
theorem c2_witness :
    (containsSub hitTableMarker ((writeBytes cexHitsDoc).getD []) = true ↔
      cexHitsDoc.hit_counts ≠ none) :=
  c2_hit_section_gate cexHitsDoc ((writeBytes cexHitsDoc).getD [])
    ((coreBytes cexHitsDoc).getD []) rfl rfl (by decide)

/-! ## Claim C3: mismatched hit-count table declarations -/

/-- Every document produced by `readBytes` went through `validate`. -/
theorem readBytes_validated (file : List Nat) (p : Bool) (d : CoverageData)
    (h : readBytes file p = some d) : ∃ d0, validate d0 p = some d := by
  unfold readBytes at h
  split at h
  · -- text-only parse
    unfold parseTextOnly at h
    simp only [Option.bind_eq_bind, Option.bind_eq_some] at h
    obtain ⟨⟨hd, t1⟩, h1, h⟩ := h
    split at h
    · cases h
    · simp only [Option.bind_eq_bind, Option.bind_eq_some] at h
      obtain ⟨⟨mods, mver, t2⟩, h2, h⟩ := h
      exact ⟨_, h⟩
  · -- split text/binary parse
    rename_i i hfind
    unfold parseWithBinary at h
    simp only [Option.bind_eq_bind, Option.bind_eq_some] at h
    obtain ⟨⟨hd, t1⟩, h1, h⟩ := h
    split at h
    · cases h
    · simp only [Option.bind_eq_bind, Option.bind_eq_some] at h
      obtain ⟨⟨mods, mver, t2⟩, h2, h⟩ := h
      cases hrb : readLineB (file.drop i) with
      | mk lineB bbRest =>
        rw [hrb] at h
        simp only [Option.bind_eq_bind, Option.bind_eq_some] at h
        obtain ⟨⟨blocks, remaining⟩, h3, h⟩ := h
        exact ⟨_, h⟩

/-- **C3** counterexample: a file whose hit-count table declares `count 5`
over a one-block BB table.  `read` in strict mode does *not* fail — the
`DrCovError` is swallowed and a document is returned with `hit_counts =
None`; permissive mode likewise drops the table instead of
truncating/padding. -/
theorem c3_counterexample :
    readBytes cexC3File false = some cexC3Base ∧
    readBytes cexC3File true = some cexC3Base ∧
    cexC3Base.hit_counts = none := by
  refine ⟨by decide, by decide, rfl⟩

/-- **C3** (amended): `read` never hard-errors because of a mismatched
hit-count declaration, in either mode; a failed hit-count-table parse
leaves `hit_counts = None`, so every document `read` returns carries either
no hit counts or an array aligned with its blocks.  (The truncate/pad
repair exists only in `validate` for in-memory documents.) -/
theorem c3_read_hit_counts_aligned (file : List Nat) (p : Bool) (d : CoverageData)
    (h : readBytes file p = some d) :
    d.hit_counts = none ∨
      ∃ hs, d.hit_counts = some hs ∧ hs.length = d.basic_blocks.length := by
  obtain ⟨d0, hv⟩ := readBytes_validated file p d h
  exact (validate_shape d0 p d hv).2.2.2

/-- Witness for C3 at the mismatched-count file. -/
theorem c3_witness :
    cexC3Base.hit_counts = none ∨
      ∃ hs, cexC3Base.hit_counts = some hs ∧
        hs.length = cexC3Base.basic_blocks.length :=
  c3_read_hit_counts_aligned cexC3File false cexC3Base (by decide)

/-! ## Claim C8: filter_by_module hit-count alignment -/

/-- The filtering loop pairs each surviving block with its hit count by
index; over a window starting at `k` within the hit-count array it produces
exactly the zipped, filtered pairs. -/
theorem filterLoop_spec (ids hs : List Nat) :
    ∀ (bs : List BasicBlock) (k : Nat), k + bs.length ≤ hs.length →
      filterLoop ids true hs (bs.enumFrom k) =
        some ((((bs.zip (hs.drop k)).filter
            (fun p => ids.contains p.1.module_id)).map (fun p => p.1)),
          (((bs.zip (hs.drop k)).filter
            (fun p => ids.contains p.1.module_id)).map (fun p => p.2))) := by
  intro bs
  induction bs with
  | nil => intro k hk; simp [filterLoop]
  | cons b bs' ih =>
    intro k hk
    have hklt : k < hs.length := by simp at hk; omega
    have ihk := ih (k + 1) (by simp at hk ⊢; omega)
    have hdrop : hs.drop k = hs[k] :: hs.drop (k + 1) := List.drop_eq_getElem_cons hklt
    rw [List.enumFrom_cons]
    show (filterLoop ids true hs (bs'.enumFrom (k + 1))).bind _ = _
    rw [ihk]
    rw [hdrop]
    simp only [List.zip_cons_cons, List.filter_cons]
    by_cases hc : ids.contains b.module_id = true
    · have hm : b.module_id ∈ ids := by simpa using hc
      simp [hc, hm, List.getElem?_eq_getElem hklt]
    · have hm : ¬ b.module_id ∈ ids := by simpa using hc
      simp [hc, hm]

/-- **C8** counterexample: the source document has hit counts and the
pattern matches module `/bin/a`, but no block survives — the result's
`hit_counts` is `None` (Python truthiness of the empty list), not an empty
array, so `len(result.hit_counts)` is not even defined. -/
theorem c8_counterexample :
    has_hit_counts cexC8Doc = true ∧
    filterByModule cexC8Doc (strBytes "/bin/a") =
      some ⟨⟨2, strBytes "covtool_filtered"⟩,
        [⟨0, 4096, 8192, strBytes "/bin/a", 0, none, none, none, none⟩],
        [], .V2, none⟩ := by
  refine ⟨rfl, by decide⟩

/-- **C8** (amended): for a source with an index-aligned hit-count array,
`filter_by_module` never raises; the surviving blocks carry exactly the
index-aligned sub-array of hit counts, and `len(result.hit_counts) ==
len(result.basic_blocks)` whenever at least one block survives — but when
no block survives the result's `hit_counts` is `None`, not `[]`. -/
theorem c8_filter_hit_alignment (d : CoverageData) (hs pat : List Nat)
    (hh : d.hit_counts = some hs) (hlen : hs.length = d.basic_blocks.length) :
    (filterByModule d pat).isSome = true ∧
    ∀ out, filterByModule d pat = some out →
      out.basic_blocks = ((d.basic_blocks.zip hs).filter
          (fun p => ((matchingModulesF d pat).map (fun m => m.id)).contains
            p.1.module_id)).map (fun p => p.1) ∧
      out.hit_counts = (if ((d.basic_blocks.zip hs).filter
            (fun p => ((matchingModulesF d pat).map (fun m => m.id)).contains
              p.1.module_id)) = []
          then none
          else some (((d.basic_blocks.zip hs).filter
            (fun p => ((matchingModulesF d pat).map (fun m => m.id)).contains
              p.1.module_id)).map (fun p => p.2))) ∧
      (out.basic_blocks ≠ [] → ∃ fh, out.hit_counts = some fh ∧
        fh.length = out.basic_blocks.length) := by
  by_cases hm : matchingModulesF d pat = []
  · have hres : filterByModule d pat = some emptyFilteredData := by
      simp [filterByModule, hm]
    have hfilter : ((d.basic_blocks.zip hs).filter
        (fun p => ((matchingModulesF d pat).map (fun m => m.id)).contains
          p.1.module_id)) = [] := by
      rw [hm]
      simp [List.filter_eq_nil]
    refine ⟨by rw [hres]; rfl, ?_⟩
    intro out hout
    rw [hres] at hout
    injection hout with hout
    subst hout
    refine ⟨by rw [hfilter]; rfl, by rw [hfilter]; simp [emptyFilteredData], ?_⟩
    intro hne
    exact absurd rfl hne
  · have hhas : has_hit_counts d = true := by simp [has_hit_counts, hh]
    have hgetD : d.hit_counts.getD [] = hs := by rw [hh]; rfl
    have hspec := filterLoop_spec ((matchingModulesF d pat).map (fun m => m.id)) hs
      d.basic_blocks 0 (by omega)
    have henum : d.basic_blocks.enum = d.basic_blocks.enumFrom 0 := rfl
    have hdrop0 : hs.drop 0 = hs := rfl
    rw [hdrop0] at hspec
    have hres : filterByModule d pat =
        some ⟨⟨2, strBytes "covtool_filtered"⟩, matchingModulesF d pat,
          ((d.basic_blocks.zip hs).filter
            (fun p => ((matchingModulesF d pat).map (fun m => m.id)).contains
              p.1.module_id)).map (fun p => p.1),
          d.module_version,
          if ((d.basic_blocks.zip hs).filter
              (fun p => ((matchingModulesF d pat).map (fun m => m.id)).contains
                p.1.module_id)).map (fun p => p.2) = [] then none
          else some (((d.basic_blocks.zip hs).filter
            (fun p => ((matchingModulesF d pat).map (fun m => m.id)).contains
              p.1.module_id)).map (fun p => p.2))⟩ := by
      unfold filterByModule
      dsimp only
      rw [if_neg hm, hhas, hgetD, henum, hspec]
    refine ⟨by rw [hres]; rfl, ?_⟩
    intro out hout
    rw [hres] at hout
    injection hout with hout
    subst hout
    refine ⟨rfl, ?_, ?_⟩
    · by_cases hfe : ((d.basic_blocks.zip hs).filter
          (fun p => ((matchingModulesF d pat).map (fun m => m.id)).contains
            p.1.module_id)) = []
      · rw [hfe]
        simp
      · have hmapne : ((d.basic_blocks.zip hs).filter
            (fun p => ((matchingModulesF d pat).map (fun m => m.id)).contains
              p.1.module_id)).map (fun p => p.2) ≠ [] :=
          fun hcon => hfe (List.map_eq_nil.mp hcon)
        rw [if_neg hmapne, if_neg hfe]
    · intro hne
      have hfe : ((d.basic_blocks.zip hs).filter
          (fun p => ((matchingModulesF d pat).map (fun m => m.id)).contains
            p.1.module_id)) ≠ [] := by
        intro hcon
        apply hne
        rw [hcon]
        rfl
      have hmapne : ((d.basic_blocks.zip hs).filter
          (fun p => ((matchingModulesF d pat).map (fun m => m.id)).contains
            p.1.module_id)).map (fun p => p.2) ≠ [] :=
        fun hcon => hfe (List.map_eq_nil.mp hcon)
      refine ⟨_, by rw [if_neg hmapne], by simp⟩

/-- Witness for C8 at a document where one block survives the filter. -/
theorem c8_witness :
    (filterByModule cexC8Doc (strBytes "b.so")).isSome = true :=
  (c8_filter_hit_alignment cexC8Doc [7] (strBytes "b.so") rfl (by decide)).1

/-! ## Claim C6: legacy ASCII basic-block table -/

theorem natToDec_mem_bound (n : Nat) : ∀ x ∈ natToDec n, 48 ≤ x ∧ x ≤ 57 :=
  natToDec_digits n

theorem getLast?_append_right {α : Type} (x y : List α) (a : α)
    (h : y.getLast? = some a) : (x ++ y).getLast? = some a := by
  rw [List.getLast?_append, h]
  rfl

theorem stripWS_ctAsciiLine (b : CtBlock) : stripWS (ctAsciiLine b) = ctAsciiLine b := by
  apply stripWS_eq_self_ends
  · intro c hc
    have : (ctAsciiLine b).head? = some 109 := by
      unfold ctAsciiLine
      rfl
    rw [this] at hc
    injection hc with hc
    subst hc
    rfl
  · intro c hc
    obtain ⟨lb, hlb⟩ : ∃ lb, (natToDec b.size).getLast? = some lb := by
      cases hd : (natToDec b.size).getLast? with
      | none => exact absurd (List.getLast?_eq_none_iff.mp hd) (natToDec_ne_nil _)
      | some lb => exact ⟨lb, rfl⟩
    have hline : (ctAsciiLine b).getLast? = some lb := by
      unfold ctAsciiLine
      exact getLast?_append_right _ _ _ hlb
    rw [hline] at hc
    injection hc with hc
    have hmem : lb ∈ natToDec b.size := by
      rw [List.getLast?_eq_getElem?] at hlb
      exact List.getElem?_mem hlb
    have hb := natToDec_digits _ lb hmem
    rw [← hc]
    unfold isWSByte
    simp only [Bool.or_eq_false_iff, beq_eq_false_iff_ne]
    omega

/-- The canonical cons-normal form of a rendered ASCII block line. -/
theorem ctAsciiLine_shape (b : CtBlock) :
    ctAsciiLine b =
      109 :: 111 :: 100 :: 117 :: 108 :: 101 :: 91 :: 32 ::
        (natToDec b.module_id ++ (93 :: 58 :: 32 :: 48 :: 120 ::
          (natToHex b.offset ++ (44 :: 32 :: natToDec b.size)))) := by
  unfold ctAsciiLine
  have e1 : strBytes "module[ " = [109, 111, 100, 117, 108, 101, 91, 32] := by decide
  have e2 : strBytes "]: 0x" = [93, 58, 32, 48, 120] := by decide
  have e3 : strBytes ", " = [44, 32] := by decide
  rw [e1, e2, e3]
  simp [List.append_assoc]

theorem pyNatDec_space_digits (n : Nat) : pyNatDec (32 :: natToDec n) = some n := by
  unfold pyNatDec
  rw [stripWS_cons_ws 32 _ rfl, stripWS_eq_self_of _ (natToDec_not_ws n),
    if_neg (natToDec_ne_nil n)]
  exact parseDecCore_natToDec n

theorem stripWS_cons_append_dec (c : Nat) (x : List Nat) (n : Nat)
    (hc : isWSByte c = false) :
    stripWS ((c :: x) ++ natToDec n) = (c :: x) ++ natToDec n := by
  apply stripWS_eq_self_ends
  · intro d hd
    simp only [List.cons_append, List.head?_cons] at hd
    injection hd with hd
    rw [← hd]
    exact hc
  · intro d hd
    obtain ⟨lb, hlb⟩ : ∃ lb, (natToDec n).getLast? = some lb := by
      cases he : (natToDec n).getLast? with
      | none => exact absurd (List.getLast?_eq_none_iff.mp he) (natToDec_ne_nil _)
      | some lb => exact ⟨lb, rfl⟩
    rw [getLast?_append_right _ _ _ hlb] at hd
    injection hd with hd
    have hmem : lb ∈ natToDec n := by
      rw [List.getLast?_eq_getElem?] at hlb
      exact List.getElem?_mem hlb
    have := natToDec_digits _ lb hmem
    rw [← hd]
    unfold isWSByte
    simp only [Bool.or_eq_false_iff, beq_eq_false_iff_ne]
    omega

theorem parseCtAsciiLine_render (b : CtBlock) :
    parseCtAsciiLine (ctAsciiLine b) = some b := by
  have S := ctAsciiLine_shape b
  have hne : ctAsciiLine b ≠ [] := by rw [S]; simp
  have F1 : startsWithB (strBytes "module[") (ctAsciiLine b) = true := by
    have hdec : ctAsciiLine b = strBytes "module[" ++
        (32 :: (natToDec b.module_id ++ (93 :: 58 :: 32 :: 48 :: 120 ::
          (natToHex b.offset ++ (44 :: 32 :: natToDec b.size))))) := by
      rw [S]; rfl
    rw [hdec]
    exact startsWithB_append _ _
  have hdec6 : ctAsciiLine b = [109, 111, 100, 117, 108, 101] ++ 91 ::
      (32 :: (natToDec b.module_id ++ (93 :: 58 :: 32 :: 48 :: 120 ::
        (natToHex b.offset ++ (44 :: 32 :: natToDec b.size))))) := by
    rw [S]; rfl
  have F2 : findSub [91] (ctAsciiLine b) = some 6 := by
    rw [hdec6]
    have := findSub_single_skip 91 [109, 111, 100, 117, 108, 101]
      (32 :: (natToDec b.module_id ++ (93 :: 58 :: 32 :: 48 :: 120 ::
        (natToHex b.offset ++ (44 :: 32 :: natToDec b.size))))) (by decide)
    simpa using this
  have hno93 : ∀ x ∈ [109, 111, 100, 117, 108, 101, 91, 32] ++ natToDec b.module_id,
      x ≠ 93 := by
    intro x hx
    rcases List.mem_append.mp hx with hx | hx
    · have hall : ∀ y ∈ [109, 111, 100, 117, 108, 101, 91, 32], y ≠ 93 := by decide
      exact hall x hx
    · have := natToDec_digits _ x hx
      omega
  have hdec8 : ctAsciiLine b =
      ([109, 111, 100, 117, 108, 101, 91, 32] ++ natToDec b.module_id) ++
        93 :: 58 :: (32 :: 48 :: 120 ::
          (natToHex b.offset ++ (44 :: 32 :: natToDec b.size))) := by
    rw [S]; simp [List.append_assoc]
  have hlen8 : ([109, 111, 100, 117, 108, 101, 91, 32] ++
      natToDec b.module_id).length = 8 + (natToDec b.module_id).length := by
    simp [List.length_append]
    omega
  have F3a : findSub [93] (ctAsciiLine b) = some (8 + (natToDec b.module_id).length) := by
    rw [hdec8]
    have := findSub_single_skip 93
      ([109, 111, 100, 117, 108, 101, 91, 32] ++ natToDec b.module_id)
      (58 :: (32 :: 48 :: 120 :: (natToHex b.offset ++ (44 :: 32 :: natToDec b.size))))
      hno93
    rw [hlen8] at this
    exact this
  have F3b : findSub (strBytes "]:") (ctAsciiLine b) =
      some (8 + (natToDec b.module_id).length) := by
    have he : strBytes "]:" = [93, 58] := by decide
    rw [he, hdec8]
    have := findSub_pair_skip 93 58
      ([109, 111, 100, 117, 108, 101, 91, 32] ++ natToDec b.module_id)
      (32 :: 48 :: 120 :: (natToHex b.offset ++ (44 :: 32 :: natToDec b.size)))
      hno93
    rw [hlen8] at this
    exact this
  have F4 : ((ctAsciiLine b).drop (6 + 1)).take
      (8 + (natToDec b.module_id).length - (6 + 1)) = 32 :: natToDec b.module_id := by
    have h7 : (ctAsciiLine b).drop (6 + 1) =
        32 :: (natToDec b.module_id ++ (93 :: 58 :: 32 :: 48 :: 120 ::
          (natToHex b.offset ++ (44 :: 32 :: natToDec b.size)))) := by
      rw [S]; rfl
    rw [h7, show 8 + (natToDec b.module_id).length - (6 + 1) =
      (natToDec b.module_id).length + 1 from by omega]
    rw [List.take_succ_cons, List.take_left]
  have F5 : pyNatDec (((ctAsciiLine b).drop (6 + 1)).take
      (8 + (natToDec b.module_id).length - (6 + 1))) = some b.module_id := by
    rw [F4]
    exact pyNatDec_space_digits _
  have hdec10 : ctAsciiLine b =
      (([109, 111, 100, 117, 108, 101, 91, 32] ++ natToDec b.module_id) ++ [93, 58]) ++
        (32 :: 48 :: 120 :: (natToHex b.offset ++ (44 :: 32 :: natToDec b.size))) := by
    rw [S]; simp [List.append_assoc]
  have F6 : (ctAsciiLine b).drop (8 + (natToDec b.module_id).length + 2) =
      32 :: 48 :: 120 :: (natToHex b.offset ++ (44 :: 32 :: natToDec b.size)) := by
    rw [hdec10]
    apply List.drop_left'
    simp [List.length_append]
    omega
  have hT : (48 :: 120 :: (natToHex b.offset ++ (44 :: 32 :: natToDec b.size)) : List Nat) =
      (48 :: 120 :: (natToHex b.offset ++ [44, 32])) ++ natToDec b.size := by
    simp [List.append_assoc]
  have F7 : stripWS ((ctAsciiLine b).drop (8 + (natToDec b.module_id).length + 2)) =
      (48 :: 120 :: natToHex b.offset) ++ 44 :: 32 :: natToDec b.size := by
    rw [F6, stripWS_cons_ws 32 _ rfl, hT, stripWS_cons_append_dec 48 _ _ rfl]
    simp [List.append_assoc]
  have F8 : splitOnByte 44 ((48 :: 120 :: natToHex b.offset) ++ 44 :: 32 :: natToDec b.size) =
      [48 :: 120 :: natToHex b.offset, 32 :: natToDec b.size] := by
    rw [splitOnByte_append]
    · rw [splitOnByte_notin]
      intro x hx
      rcases List.mem_cons.mp hx with hx | hx
      · omega
      · have := natToDec_digits _ x hx
        omega
    · intro x hx
      rcases List.mem_cons.mp hx with hx | hx
      · omega
      · rcases List.mem_cons.mp hx with hx | hx
        · omega
        · rcases natToHex_digits _ x hx with h | h <;> omega
  have F9 : stripWS (48 :: 120 :: natToHex b.offset) = 48 :: 120 :: natToHex b.offset := by
    apply stripWS_eq_self_of
    intro x hx
    rcases List.mem_cons.mp hx with hx | hx
    · subst hx; rfl
    · rcases List.mem_cons.mp hx with hx | hx
      · subst hx; rfl
      · exact natToHex_not_ws _ x hx
  have F10 : startsWithB (strBytes "0x") (48 :: 120 :: natToHex b.offset) = true := by
    simp [strBytes, startsWithB]
  have F11 : pyHexParse (48 :: 120 :: natToHex b.offset) = some b.offset :=
    pyHexParse_natToHex b.offset
  have F12 : pyNatDec (stripWS (32 :: natToDec b.size)) = some b.size := by
    rw [stripWS_cons_ws 32 _ rfl, stripWS_eq_self_of _ (natToDec_not_ws _)]
    exact pyNatDec_natToDec b.size
  unfold parseCtAsciiLine
  rw [stripWS_ctAsciiLine b]
  rw [if_neg (by simp [F1, hne])]
  simp only [F2, F3a, F3b, F5, F7, F8, F10, F11, F12, Option.bind_eq_bind,
    Option.some_bind, List.getElem?_cons_zero, List.getElem?_cons_succ, if_true,
    Option.pure_def]
  rw [F9]
  simp only [F10, if_true, F11, Option.some_bind, F12]

theorem ctAsciiLine_no_newline (b : CtBlock) : ∀ x ∈ ctAsciiLine b, x ≠ 10 := by
  intro x hx
  unfold ctAsciiLine at hx
  simp only [List.mem_append] at hx
  have hlit1 : ∀ y ∈ strBytes "module[ ", y ≠ 10 := by decide
  have hlit2 : ∀ y ∈ strBytes "]: 0x", y ≠ 10 := by decide
  have hlit3 : ∀ y ∈ strBytes ", ", y ≠ 10 := by decide
  rcases hx with ((((h | h) | h) | h) | h) | h
  · exact hlit1 x h
  · have := natToDec_digits _ x h
    omega
  · exact hlit2 x h
  · rcases natToHex_digits _ x h with h2 | h2 <;> omega
  · exact hlit3 x h
  · have := natToDec_digits _ x h
    omega

theorem ctAsciiMarker_no_newline : ∀ x ∈ ctAsciiMarker, x ≠ 10 := by decide

theorem splitOnByte_ctAsciiData (bs : List CtBlock) :
    splitOnByte 10 (ctAsciiData bs) = ctAsciiMarker :: (bs.map ctAsciiLine ++ [[]]) := by
  unfold ctAsciiData
  rw [show ctAsciiMarker ++ [10] ++ (bs.map (fun b => ctAsciiLine b ++ [10])).flatten
      = ctAsciiMarker ++ 10 :: (bs.map (fun b => ctAsciiLine b ++ [10])).flatten from by
    simp]
  rw [splitOnByte_append 10 _ _ ctAsciiMarker_no_newline]
  congr 1
  induction bs with
  | nil => rfl
  | cons b t ih =>
    simp only [List.map_cons, List.flatten_cons]
    rw [show (ctAsciiLine b ++ [10]) ++ (t.map (fun b => ctAsciiLine b ++ [10])).flatten
        = ctAsciiLine b ++ 10 :: (t.map (fun b => ctAsciiLine b ++ [10])).flatten from by
      simp]
    rw [splitOnByte_append 10 _ _ (ctAsciiLine_no_newline b), ih]
    rfl

theorem parseCtAsciiBlocks_render (bs : List CtBlock) :
    parseCtAsciiBlocks (ctAsciiData bs) = bs.toFinset := by
  unfold parseCtAsciiBlocks
  rw [splitOnByte_ctAsciiData]
  have hm : parseCtAsciiLine ctAsciiMarker = none := by decide
  have hnil : parseCtAsciiLine ([] : List Nat) = none := by decide
  simp only [List.foldr_cons, List.foldr_append, List.foldr_nil, hm, hnil]
  induction bs with
  | nil => rfl
  | cons b t ih =>
    simp only [List.map_cons, List.foldr_cons, parseCtAsciiLine_render, ih,
      List.toFinset_cons]

theorem pack8_of_bounds (b : BasicBlock) (ho : b.start < 4294967296)
    (hs : b.size < 65536) (hm : b.module_id < 65536) :
    pack8 b = some [b.start % 256, b.start / 256 % 256, b.start / 65536 % 256,
      b.start / 16777216 % 256, b.size % 256, b.size / 256,
      b.module_id % 256, b.module_id / 256] := by
  unfold pack8 pack4
  rw [if_pos ⟨hs, hm⟩, if_pos ho]
  rfl

theorem optionMapM_loop_eq {α β : Type} (f : α → Option β) :
    ∀ (l : List α) (acc : List β),
      List.mapM.loop f l acc =
        (List.mapM.loop f l []).map (fun bs => acc.reverse ++ bs) := by
  intro l
  induction l with
  | nil => intro acc; simp [List.mapM.loop]
  | cons a as ih =>
    intro acc
    simp only [List.mapM.loop]
    cases hf : f a with
    | none => rfl
    | some b =>
      show List.mapM.loop f as (b :: acc) = (List.mapM.loop f as [b]).map _
      rw [ih (b :: acc), ih [b]]
      cases List.mapM.loop f as [] <;> simp [List.append_assoc]

theorem optionMapM_cons {α β : Type} (f : α → Option β) (a : α) (l : List α) :
    List.mapM f (a :: l) =
      (f a).bind (fun b => (List.mapM f l).map (fun bs => b :: bs)) := by
  show List.mapM.loop f (a :: l) [] = _
  simp only [List.mapM.loop]
  cases hf : f a with
  | none => rfl
  | some b =>
    show List.mapM.loop f l [b] = (List.mapM f l).map _
    rw [optionMapM_loop_eq f l [b]]
    show (List.mapM.loop f l []).map _ = (List.mapM.loop f l []).map _
    cases List.mapM.loop f l [] <;> simp

theorem packBlocks_cons (b : BasicBlock) (t : List BasicBlock) :
    packBlocks (b :: t) =
      (pack8 b).bind (fun v => (packBlocks t).map (fun r => v ++ r)) := by
  unfold packBlocks
  rw [optionMapM_cons]
  cases hp : pack8 b with
  | none => rfl
  | some v =>
    cases hq : List.mapM pack8 t with
    | none => rfl
    | some ls => simp

theorem ctPackBlocks_parse (bs : List CtBlock)
    (hb : ∀ b ∈ bs, b.offset < 4294967296 ∧ b.size < 65536 ∧ b.module_id < 65536) :
    ∃ bin, ctPackBlocks bs = some bin ∧ parseCtBinaryBlocks bin = bs.toFinset := by
  induction bs with
  | nil => exact ⟨[], rfl, rfl⟩
  | cons b t ih =>
    obtain ⟨bin, hbin, hparse⟩ := ih (fun x hx => hb x (List.mem_cons_of_mem _ hx))
    obtain ⟨ho, hs, hm⟩ := hb b (List.mem_cons_self _ _)
    have hp8 : pack8 (BasicBlock.mk b.offset b.size b.module_id) =
        some [b.offset % 256, b.offset / 256 % 256, b.offset / 65536 % 256,
          b.offset / 16777216 % 256, b.size % 256, b.size / 256,
          b.module_id % 256, b.module_id / 256] :=
      pack8_of_bounds _ ho hs hm
    have hbin' : ctPackBlocks t = some bin := hbin
    have hcons : ctPackBlocks (b :: t) =
        some ([b.offset % 256, b.offset / 256 % 256, b.offset / 65536 % 256,
          b.offset / 16777216 % 256, b.size % 256, b.size / 256,
          b.module_id % 256, b.module_id / 256] ++ bin) := by
      show packBlocks ((b :: t).map (fun x => BasicBlock.mk x.offset x.size x.module_id))
        = _
      rw [List.map_cons, packBlocks_cons, hp8]
      have : packBlocks (t.map (fun x => BasicBlock.mk x.offset x.size x.module_id))
          = some bin := hbin'
      rw [this]
      rfl
    refine ⟨_, hcons, ?_⟩
    simp only [List.cons_append, List.nil_append]
    show insert (⟨_, _, _⟩ : CtBlock) (parseCtBinaryBlocks bin) = (b :: t).toFinset
    rw [hparse, List.toFinset_cons]
    congr 1
    have e1 : b.offset % 256 + 256 * (b.offset / 256 % 256) +
        65536 * (b.offset / 65536 % 256) + 16777216 * (b.offset / 16777216 % 256)
        = b.offset := by omega
    have e2 : b.size % 256 + 256 * (b.size / 256) = b.size := by omega
    have e3 : b.module_id % 256 + 256 * (b.module_id / 256) = b.module_id := by omega
    rw [e1, e2, e3]

/-- C6 counterexample: a complete drcov file whose BB table is in the legacy
ASCII form (`BB Table: 1 bbs`, then the marker line and one
`module[ id]: 0xOFFSET, SIZE` line).  The package codec's `read` does not
accept it: strict mode fails (the 8 raw bytes it takes for the one declared
record decode to a garbage block whose module id fails validation), and even
permissive mode returns a document without the ASCII-encoded block.  The
standalone tool's parser does accept the very same BB section and recovers
the block. -/
theorem c6_counterexample :
    readBytes cexC6File false = none ∧
    readBytes cexC6File true ≠ some cexC6Base ∧
    parseCtBlocks cexC6Ascii = ({⟨256, 32, 0⟩} : Finset CtBlock) := by
  refine ⟨by decide, by decide, by decide⟩

/-- C6 (amended): legacy ASCII BB tables are accepted only by the standalone
tool's block parser (`DrcovFormat._parse_blocks` in `src/covtool.py`), which
dispatches on the marker line `module id, start, size:`; on any block list it
produces exactly the same block set as the binary 8-byte-record encoding of
those blocks.  The package codec (`covtool/drcov.py`) reads only the binary
form. -/
theorem c6_ascii_binary_equiv (bs : List CtBlock)
    (hb : ∀ b ∈ bs, b.offset < 4294967296 ∧ b.size < 65536 ∧ b.module_id < 65536) :
    ∃ bin, ctPackBlocks bs = some bin ∧
      parseCtBlocks (ctAsciiData bs) = parseCtBinaryBlocks bin ∧
      parseCtBlocks (ctAsciiData bs) = bs.toFinset := by
  obtain ⟨bin, hbin, hparse⟩ := ctPackBlocks_parse bs hb
  have hdisp : startsWithB ctAsciiMarker (ctAsciiData bs) = true := by
    unfold ctAsciiData
    rw [List.append_assoc]
    exact startsWithB_append _ _
  have hascii : parseCtBlocks (ctAsciiData bs) = bs.toFinset := by
    unfold parseCtBlocks
    rw [if_pos hdisp]
    exact parseCtAsciiBlocks_render bs
  exact ⟨bin, hbin, by rw [hascii, hparse], hascii⟩

/-- C6 witness: the amended theorem applied to the one-block list. -/
theorem c6_witness :
    ∃ bin, ctPackBlocks [(⟨256, 32, 0⟩ : CtBlock)] = some bin ∧
      parseCtBlocks (ctAsciiData [(⟨256, 32, 0⟩ : CtBlock)]) = parseCtBinaryBlocks bin ∧
      parseCtBlocks (ctAsciiData [(⟨256, 32, 0⟩ : CtBlock)]) =
        ([(⟨256, 32, 0⟩ : CtBlock)]).toFinset :=
  c6_ascii_binary_equiv [⟨256, 32, 0⟩] (by decide)

theorem length_dropWhileWS_le (l : List Nat) :
    (l.dropWhile isWSByte).length ≤ l.length := by
  induction l with
  | nil => exact le_refl 0
  | cons a t ih =>
    by_cases ha : isWSByte a = true
    · rw [List.dropWhile_cons_of_pos ha]
      exact Nat.le_succ_of_le ih
    · rw [List.dropWhile_cons_of_neg (by simpa using ha)]

theorem length_stripWS_le (l : List Nat) : (stripWS l).length ≤ l.length := by
  unfold stripWS dropTrailWS
  calc ((l.dropWhile isWSByte).reverse.dropWhile isWSByte).reverse.length
      = ((l.dropWhile isWSByte).reverse.dropWhile isWSByte).length := by
        rw [List.length_reverse]
    _ ≤ (l.dropWhile isWSByte).reverse.length := length_dropWhileWS_le _
    _ = (l.dropWhile isWSByte).length := by rw [List.length_reverse]
    _ ≤ l.length := length_dropWhileWS_le l

theorem stripWS_append_ws (l : List Nat) (c : Nat) (hc : isWSByte c = true) :
    stripWS (l ++ [c]) = stripWS l := by
  unfold stripWS
  rw [List.dropWhile_append]
  by_cases h : (l.dropWhile isWSByte).isEmpty
  · simp only [h, if_true]
    rw [List.isEmpty_iff.mp h]
    simp [List.dropWhile, hc]
  · simp only [h, if_false]
    exact dropTrailWS_append_ws _ c hc

theorem stripWS_self_head (l : List Nat) (h : stripWS l = l) :
    ∀ c, l.head? = some c → isWSByte c = false := by
  intro c hc
  cases l with
  | nil => exact absurd hc (by simp)
  | cons a t =>
    injection hc with hc
    by_contra hws
    have hws' : isWSByte a = true := by
      rw [hc]
      cases hcc : isWSByte c
      · exact absurd hcc hws
      · rfl
    rw [stripWS_cons_ws a t hws'] at h
    have := length_stripWS_le t
    rw [h] at this
    simp at this

theorem stripWS_self_getLast (l : List Nat) (h : stripWS l = l) :
    ∀ c, l.getLast? = some c → isWSByte c = false := by
  intro c hc
  have hne : l ≠ [] := by
    intro he
    rw [he] at hc
    exact absurd hc (by simp)
  have hgl : l.getLast hne = c := by
    have h2 := List.getLast?_eq_getLast l hne
    rw [hc] at h2
    exact (Option.some.inj h2).symm
  have hdec : l.dropLast ++ [c] = l := by
    rw [← hgl]
    exact List.dropLast_append_getLast hne
  by_contra hws
  have hws' : isWSByte c = true := by
    cases hcc : isWSByte c
    · exact absurd hcc hws
    · rfl
  rw [← hdec, stripWS_append_ws _ c hws'] at h
  have := length_stripWS_le l.dropLast
  rw [h] at this
  simp at this

theorem intToDec_digits (z : Int) :
    ∀ x ∈ intToDec z, x = 45 ∨ (48 ≤ x ∧ x ≤ 57) := by
  intro x hx
  cases z with
  | ofNat n => exact Or.inr (natToDec_digits n x hx)
  | negSucc n =>
    rcases List.mem_cons.mp hx with hx | hx
    · exact Or.inl hx
    · exact Or.inr (natToDec_digits _ x hx)

theorem containsSub_head_notin (c : Nat) (nd hay : List Nat)
    (h : ∀ x ∈ hay, x ≠ c) : containsSub (c :: nd) hay = false := by
  induction hay with
  | nil => rfl
  | cons a t ih =>
    have ha : a ≠ c := h a (by simp)
    have iht := ih (fun x hx => h x (by simp [hx]))
    simp [containsSub, startsWithB, iht, Ne.symm ha]

theorem mtvOfNat_value (v : ModuleTableVersion) : mtvOfNat v.value = some v := by
  cases v <;> rfl

theorem pyOrIntD_some_ne (c : Int) (dflt : Int) (hc : c ≠ 0) :
    pyOrIntD (some c) dflt = c := by
  show (if c = 0 then dflt else c) = c
  rw [if_neg hc]

theorem pyOrNatD_some_zero (o : Nat) : pyOrNatD (some o) 0 = o := by
  show (if o = 0 then 0 else o) = o
  by_cases ho : o = 0
  · rw [if_pos ho, ho]
  · rw [if_neg ho]

theorem pyNatDec_natToDec_nl (n : Nat) : pyNatDec (natToDec n ++ [10]) = some n := by
  unfold pyNatDec
  rw [stripWS_append_newline, stripWS_eq_self_of _ (natToDec_not_ws n),
    if_neg (natToDec_ne_nil n)]
  exact parseDecCore_natToDec n

theorem joinCS_mem (x : Nat) : ∀ ps : List (List Nat), x ∈ joinCommaSpace ps →
    x = 44 ∨ x = 32 ∨ ∃ q ∈ ps, x ∈ q
  | [], h => by simp [joinCommaSpace] at h
  | [p], h => by
    simp only [joinCommaSpace] at h
    exact Or.inr (Or.inr ⟨p, by simp, h⟩)
  | p :: q :: rest, h => by
    simp only [joinCommaSpace, List.mem_append] at h
    rcases h with (h | h) | h
    · exact Or.inr (Or.inr ⟨p, by simp, h⟩)
    · rcases List.mem_cons.mp h with h | h
      · exact Or.inl h
      · rcases List.mem_cons.mp h with h | h
        · exact Or.inr (Or.inl h)
        · simp at h
    · rcases joinCS_mem x (q :: rest) h with h | h | ⟨r, hr, hxr⟩
      · exact Or.inl h
      · exact Or.inr (Or.inl h)
      · exact Or.inr (Or.inr ⟨r, by simp [List.mem_cons.mp hr], hxr⟩)

theorem packHits_cons (h : Nat) (t : List Nat) :
    packHits (h :: t) =
      (pack4 h).bind (fun v => (packHits t).map (fun r => v ++ r)) := by
  unfold packHits
  rw [optionMapM_cons]
  cases hp : pack4 h with
  | none => rfl
  | some v =>
    cases hq : List.mapM pack4 t with
    | none => rfl
    | some ls => simp

theorem packHits_decode (hs : List Nat) (hb : ∀ h ∈ hs, h < 4294967296) :
    ∃ ph, packHits hs = some ph ∧ ph.length = 4 * hs.length ∧
      decode4s hs.length ph = some hs := by
  induction hs with
  | nil => exact ⟨[], rfl, rfl, rfl⟩
  | cons h t ih =>
    obtain ⟨ph, hph, hlen, hdec⟩ := ih (fun x hx => hb x (List.mem_cons_of_mem _ hx))
    have hh := hb h (List.mem_cons_self _ _)
    have hp4 : pack4 h = some [h % 256, h / 256 % 256, h / 65536 % 256, h / 16777216 % 256] := by
      unfold pack4
      rw [if_pos hh]
    refine ⟨[h % 256, h / 256 % 256, h / 65536 % 256, h / 16777216 % 256] ++ ph, ?_, ?_, ?_⟩
    · rw [packHits_cons, hp4, hph]
      rfl
    · simp [hlen]
      omega
    · simp only [List.cons_append, List.nil_append]
      show (decode4s t.length ph).map _ = _
      rw [hdec]
      show some ((h % 256 + 256 * (h / 256 % 256) + 65536 * (h / 65536 % 256) +
        16777216 * (h / 16777216 % 256)) :: t) = _
      congr 2
      omega

theorem packBlocks_decode (bs : List BasicBlock)
    (hb : ∀ b ∈ bs, b.start < 4294967296 ∧ b.size < 65536 ∧ b.module_id < 65536) :
    ∃ pb, packBlocks bs = some pb ∧ pb.length = 8 * bs.length ∧
      decodeBBs bs.length pb = some bs := by
  induction bs with
  | nil => exact ⟨[], rfl, rfl, rfl⟩
  | cons b t ih =>
    obtain ⟨pb, hpb, hlen, hdec⟩ := ih (fun x hx => hb x (List.mem_cons_of_mem _ hx))
    obtain ⟨ho, hs, hm⟩ := hb b (List.mem_cons_self _ _)
    have hp8 := pack8_of_bounds b ho hs hm
    refine ⟨[b.start % 256, b.start / 256 % 256, b.start / 65536 % 256,
      b.start / 16777216 % 256, b.size % 256, b.size / 256,
      b.module_id % 256, b.module_id / 256] ++ pb, ?_, ?_, ?_⟩
    · rw [packBlocks_cons, hp8, hpb]
      rfl
    · simp [hlen]
      omega
    · simp only [List.cons_append, List.nil_append]
      show (decodeBBs t.length pb).map _ = _
      rw [hdec]
      show some (unpack8 _ _ _ _ _ _ _ _ :: t) = some (b :: t)
      congr 2
      unfold unpack8
      have e1 : b.start % 256 + 256 * (b.start / 256 % 256) +
          65536 * (b.start / 65536 % 256) + 16777216 * (b.start / 16777216 % 256)
          = b.start := by omega
      have e2 : b.size % 256 + 256 * (b.size / 256) = b.size := by omega
      have e3 : b.module_id % 256 + 256 * (b.module_id / 256) = b.module_id := by omega
      rw [e1, e2, e3]

theorem docEquivUpToPerm_refl (d : CoverageData) : docEquivUpToPerm d d = true := by
  unfold docEquivUpToPerm
  cases hh : d.hit_counts <;>
    simp [List.Perm.refl]

theorem pyOrStr_some_ne (a b : List Nat) (ha : a ≠ []) : pyOrStr (some a) b = a := by
  show (if a = [] then b else a) = a
  rw [if_neg ha]

theorem hex0x_ne_nil (n : Nat) : strBytes "0x" ++ natToHex n ≠ [] := by
  simp [strBytes]

theorem buildRow_v2 (m : ModuleEntry)
    (hcid : m.containing_id = none) (hoff : m.offset = none)
    (hcks : m.checksum = none) (hts : m.timestamp = none) :
    buildModuleFromMap
      ([strBytes "id", strBytes "base", strBytes "end", strBytes "entry",
        strBytes "path"].zip
       [natToDec m.id, strBytes "0x" ++ natToHex m.base,
        strBytes "0x" ++ natToHex m.endAddr, strBytes "0x" ++ natToHex m.entry,
        m.path]) = some m := by
  have l1 : lookupCol ([strBytes "id", strBytes "base", strBytes "end",
      strBytes "entry", strBytes "path"].zip
      [natToDec m.id, strBytes "0x" ++ natToHex m.base,
       strBytes "0x" ++ natToHex m.endAddr, strBytes "0x" ++ natToHex m.entry,
       m.path]) (strBytes "id") = some (natToDec m.id) := rfl
  have l2 : lookupCol ([strBytes "id", strBytes "base", strBytes "end",
      strBytes "entry", strBytes "path"].zip
      [natToDec m.id, strBytes "0x" ++ natToHex m.base,
       strBytes "0x" ++ natToHex m.endAddr, strBytes "0x" ++ natToHex m.entry,
       m.path]) (strBytes "start") = none := rfl
  have l3 : lookupCol ([strBytes "id", strBytes "base", strBytes "end",
      strBytes "entry", strBytes "path"].zip
      [natToDec m.id, strBytes "0x" ++ natToHex m.base,
       strBytes "0x" ++ natToHex m.endAddr, strBytes "0x" ++ natToHex m.entry,
       m.path]) (strBytes "base") = some (strBytes "0x" ++ natToHex m.base) := rfl
  have l4 : lookupCol ([strBytes "id", strBytes "base", strBytes "end",
      strBytes "entry", strBytes "path"].zip
      [natToDec m.id, strBytes "0x" ++ natToHex m.base,
       strBytes "0x" ++ natToHex m.endAddr, strBytes "0x" ++ natToHex m.entry,
       m.path]) (strBytes "end") = some (strBytes "0x" ++ natToHex m.endAddr) := rfl
  have l5 : lookupCol ([strBytes "id", strBytes "base", strBytes "end",
      strBytes "entry", strBytes "path"].zip
      [natToDec m.id, strBytes "0x" ++ natToHex m.base,
       strBytes "0x" ++ natToHex m.endAddr, strBytes "0x" ++ natToHex m.entry,
       m.path]) (strBytes "path") = some m.path := rfl
  have l6 : lookupCol ([strBytes "id", strBytes "base", strBytes "end",
      strBytes "entry", strBytes "path"].zip
      [natToDec m.id, strBytes "0x" ++ natToHex m.base,
       strBytes "0x" ++ natToHex m.endAddr, strBytes "0x" ++ natToHex m.entry,
       m.path]) (strBytes "entry") = some (strBytes "0x" ++ natToHex m.entry) := rfl
  have l7 : lookupCol ([strBytes "id", strBytes "base", strBytes "end",
      strBytes "entry", strBytes "path"].zip
      [natToDec m.id, strBytes "0x" ++ natToHex m.base,
       strBytes "0x" ++ natToHex m.endAddr, strBytes "0x" ++ natToHex m.entry,
       m.path]) (strBytes "containing_id") = none := rfl
  have l8 : lookupCol ([strBytes "id", strBytes "base", strBytes "end",
      strBytes "entry", strBytes "path"].zip
      [natToDec m.id, strBytes "0x" ++ natToHex m.base,
       strBytes "0x" ++ natToHex m.endAddr, strBytes "0x" ++ natToHex m.entry,
       m.path]) (strBytes "offset") = none := rfl
  have l9 : lookupCol ([strBytes "id", strBytes "base", strBytes "end",
      strBytes "entry", strBytes "path"].zip
      [natToDec m.id, strBytes "0x" ++ natToHex m.base,
       strBytes "0x" ++ natToHex m.endAddr, strBytes "0x" ++ natToHex m.entry,
       m.path]) (strBytes "checksum") = none := rfl
  have l10 : lookupCol ([strBytes "id", strBytes "base", strBytes "end",
      strBytes "entry", strBytes "path"].zip
      [natToDec m.id, strBytes "0x" ++ natToHex m.base,
       strBytes "0x" ++ natToHex m.endAddr, strBytes "0x" ++ natToHex m.entry,
       m.path]) (strBytes "timestamp") = none := rfl
  unfold buildModuleFromMap
  simp only [l1, l2, l3, l4, l5, l6, l7, l8, l9, l10, Option.bind_eq_bind,
    Option.some_bind, Option.getD_none, Option.getD_some, pyNatDec_natToDec,
    pyOrStr_some_ne _ _ (hex0x_ne_nil m.base), pyHexParse_natToHex,
    Option.pure_def]
  conv_rhs => rw [show m = ⟨m.id, m.base, m.endAddr, m.path, m.entry,
    m.containing_id, m.offset, m.checksum, m.timestamp⟩ from rfl]
  rw [hcid, hoff, hcks, hts]

theorem pyOrStr_none (b : List Nat) : pyOrStr none b = b := rfl

theorem buildRow_v2w (m : ModuleEntry) (ck ts : Nat)
    (hcid : m.containing_id = none) (hoff : m.offset = none)
    (hcks : m.checksum = some ck) (hts : m.timestamp = some ts) :
    buildModuleFromMap
      ([strBytes "id", strBytes "base", strBytes "end", strBytes "entry", strBytes "checksum", strBytes "timestamp", strBytes "path"].zip
       [natToDec m.id,
        strBytes "0x" ++ natToHex m.base,
        strBytes "0x" ++ natToHex m.endAddr,
        strBytes "0x" ++ natToHex m.entry,
        strBytes "0x" ++ natToHex ck,
        strBytes "0x" ++ natToHex ts,
        m.path]) = some m := by
  have lk0 : lookupCol ([strBytes "id", strBytes "base", strBytes "end", strBytes "entry", strBytes "checksum", strBytes "timestamp", strBytes "path"].zip
           [natToDec m.id,
            strBytes "0x" ++ natToHex m.base,
            strBytes "0x" ++ natToHex m.endAddr,
            strBytes "0x" ++ natToHex m.entry,
            strBytes "0x" ++ natToHex ck,
            strBytes "0x" ++ natToHex ts,
            m.path]) (strBytes "id") = some (natToDec m.id) := rfl
  have lk1 : lookupCol ([strBytes "id", strBytes "base", strBytes "end", strBytes "entry", strBytes "checksum", strBytes "timestamp", strBytes "path"].zip
           [natToDec m.id,
            strBytes "0x" ++ natToHex m.base,
            strBytes "0x" ++ natToHex m.endAddr,
            strBytes "0x" ++ natToHex m.entry,
            strBytes "0x" ++ natToHex ck,
            strBytes "0x" ++ natToHex ts,
            m.path]) (strBytes "start") = none := rfl
  have lk2 : lookupCol ([strBytes "id", strBytes "base", strBytes "end", strBytes "entry", strBytes "checksum", strBytes "timestamp", strBytes "path"].zip
           [natToDec m.id,
            strBytes "0x" ++ natToHex m.base,
            strBytes "0x" ++ natToHex m.endAddr,
            strBytes "0x" ++ natToHex m.entry,
            strBytes "0x" ++ natToHex ck,
            strBytes "0x" ++ natToHex ts,
            m.path]) (strBytes "base") = some (strBytes "0x" ++ natToHex m.base) := rfl
  have lk3 : lookupCol ([strBytes "id", strBytes "base", strBytes "end", strBytes "entry", strBytes "checksum", strBytes "timestamp", strBytes "path"].zip
           [natToDec m.id,
            strBytes "0x" ++ natToHex m.base,
            strBytes "0x" ++ natToHex m.endAddr,
            strBytes "0x" ++ natToHex m.entry,
            strBytes "0x" ++ natToHex ck,
            strBytes "0x" ++ natToHex ts,
            m.path]) (strBytes "end") = some (strBytes "0x" ++ natToHex m.endAddr) := rfl
  have lk4 : lookupCol ([strBytes "id", strBytes "base", strBytes "end", strBytes "entry", strBytes "checksum", strBytes "timestamp", strBytes "path"].zip
           [natToDec m.id,
            strBytes "0x" ++ natToHex m.base,
            strBytes "0x" ++ natToHex m.endAddr,
            strBytes "0x" ++ natToHex m.entry,
            strBytes "0x" ++ natToHex ck,
            strBytes "0x" ++ natToHex ts,
            m.path]) (strBytes "path") = some m.path := rfl
  have lk5 : lookupCol ([strBytes "id", strBytes "base", strBytes "end", strBytes "entry", strBytes "checksum", strBytes "timestamp", strBytes "path"].zip
           [natToDec m.id,
            strBytes "0x" ++ natToHex m.base,
            strBytes "0x" ++ natToHex m.endAddr,
            strBytes "0x" ++ natToHex m.entry,
            strBytes "0x" ++ natToHex ck,
            strBytes "0x" ++ natToHex ts,
            m.path]) (strBytes "entry") = some (strBytes "0x" ++ natToHex m.entry) := rfl
  have lk6 : lookupCol ([strBytes "id", strBytes "base", strBytes "end", strBytes "entry", strBytes "checksum", strBytes "timestamp", strBytes "path"].zip
           [natToDec m.id,
            strBytes "0x" ++ natToHex m.base,
            strBytes "0x" ++ natToHex m.endAddr,
            strBytes "0x" ++ natToHex m.entry,
            strBytes "0x" ++ natToHex ck,
            strBytes "0x" ++ natToHex ts,
            m.path]) (strBytes "containing_id") = none := rfl
  have lk7 : lookupCol ([strBytes "id", strBytes "base", strBytes "end", strBytes "entry", strBytes "checksum", strBytes "timestamp", strBytes "path"].zip
           [natToDec m.id,
            strBytes "0x" ++ natToHex m.base,
            strBytes "0x" ++ natToHex m.endAddr,
            strBytes "0x" ++ natToHex m.entry,
            strBytes "0x" ++ natToHex ck,
            strBytes "0x" ++ natToHex ts,
            m.path]) (strBytes "offset") = none := rfl
  have lk8 : lookupCol ([strBytes "id", strBytes "base", strBytes "end", strBytes "entry", strBytes "checksum", strBytes "timestamp", strBytes "path"].zip
           [natToDec m.id,
            strBytes "0x" ++ natToHex m.base,
            strBytes "0x" ++ natToHex m.endAddr,
            strBytes "0x" ++ natToHex m.entry,
            strBytes "0x" ++ natToHex ck,
            strBytes "0x" ++ natToHex ts,
            m.path]) (strBytes "checksum") = some (strBytes "0x" ++ natToHex ck) := rfl
  have lk9 : lookupCol ([strBytes "id", strBytes "base", strBytes "end", strBytes "entry", strBytes "checksum", strBytes "timestamp", strBytes "path"].zip
           [natToDec m.id,
            strBytes "0x" ++ natToHex m.base,
            strBytes "0x" ++ natToHex m.endAddr,
            strBytes "0x" ++ natToHex m.entry,
            strBytes "0x" ++ natToHex ck,
            strBytes "0x" ++ natToHex ts,
            m.path]) (strBytes "timestamp") = some (strBytes "0x" ++ natToHex ts) := rfl
  unfold buildModuleFromMap
  simp only [lk0, lk1, lk2, lk3, lk4, lk5, lk6, lk7, lk8, lk9, Option.bind_eq_bind, Option.some_bind,
    Option.getD_none, Option.getD_some, pyNatDec_natToDec, pyHexParse_natToHex,
    pyIntDec_intToDec, Option.map_some', Option.pure_def,
    pyOrStr_some_ne _ _ (hex0x_ne_nil m.base)]
  conv_rhs => rw [show m = ⟨m.id, m.base, m.endAddr, m.path, m.entry,
    m.containing_id, m.offset, m.checksum, m.timestamp⟩ from rfl]
  rw [hcid, hoff, hcks, hts]

theorem buildRow_v3 (m : ModuleEntry) (c : Int)
    (hcid : m.containing_id = some c) (hoff : m.offset = none)
    (hcks : m.checksum = none) (hts : m.timestamp = none) :
    buildModuleFromMap
      ([strBytes "id", strBytes "containing_id", strBytes "start", strBytes "end", strBytes "entry", strBytes "path"].zip
       [natToDec m.id,
        intToDec c,
        strBytes "0x" ++ natToHex m.base,
        strBytes "0x" ++ natToHex m.endAddr,
        strBytes "0x" ++ natToHex m.entry,
        m.path]) = some m := by
  have lk0 : lookupCol ([strBytes "id", strBytes "containing_id", strBytes "start", strBytes "end", strBytes "entry", strBytes "path"].zip
           [natToDec m.id,
            intToDec c,
            strBytes "0x" ++ natToHex m.base,
            strBytes "0x" ++ natToHex m.endAddr,
            strBytes "0x" ++ natToHex m.entry,
            m.path]) (strBytes "id") = some (natToDec m.id) := rfl
  have lk1 : lookupCol ([strBytes "id", strBytes "containing_id", strBytes "start", strBytes "end", strBytes "entry", strBytes "path"].zip
           [natToDec m.id,
            intToDec c,
            strBytes "0x" ++ natToHex m.base,
            strBytes "0x" ++ natToHex m.endAddr,
            strBytes "0x" ++ natToHex m.entry,
            m.path]) (strBytes "start") = some (strBytes "0x" ++ natToHex m.base) := rfl
  have lk2 : lookupCol ([strBytes "id", strBytes "containing_id", strBytes "start", strBytes "end", strBytes "entry", strBytes "path"].zip
           [natToDec m.id,
            intToDec c,
            strBytes "0x" ++ natToHex m.base,
            strBytes "0x" ++ natToHex m.endAddr,
            strBytes "0x" ++ natToHex m.entry,
            m.path]) (strBytes "base") = none := rfl
  have lk3 : lookupCol ([strBytes "id", strBytes "containing_id", strBytes "start", strBytes "end", strBytes "entry", strBytes "path"].zip
           [natToDec m.id,
            intToDec c,
            strBytes "0x" ++ natToHex m.base,
            strBytes "0x" ++ natToHex m.endAddr,
            strBytes "0x" ++ natToHex m.entry,
            m.path]) (strBytes "end") = some (strBytes "0x" ++ natToHex m.endAddr) := rfl
  have lk4 : lookupCol ([strBytes "id", strBytes "containing_id", strBytes "start", strBytes "end", strBytes "entry", strBytes "path"].zip
           [natToDec m.id,
            intToDec c,
            strBytes "0x" ++ natToHex m.base,
            strBytes "0x" ++ natToHex m.endAddr,
            strBytes "0x" ++ natToHex m.entry,
            m.path]) (strBytes "path") = some m.path := rfl
  have lk5 : lookupCol ([strBytes "id", strBytes "containing_id", strBytes "start", strBytes "end", strBytes "entry", strBytes "path"].zip
           [natToDec m.id,
            intToDec c,
            strBytes "0x" ++ natToHex m.base,
            strBytes "0x" ++ natToHex m.endAddr,
            strBytes "0x" ++ natToHex m.entry,
            m.path]) (strBytes "entry") = some (strBytes "0x" ++ natToHex m.entry) := rfl
  have lk6 : lookupCol ([strBytes "id", strBytes "containing_id", strBytes "start", strBytes "end", strBytes "entry", strBytes "path"].zip
           [natToDec m.id,
            intToDec c,
            strBytes "0x" ++ natToHex m.base,
            strBytes "0x" ++ natToHex m.endAddr,
            strBytes "0x" ++ natToHex m.entry,
            m.path]) (strBytes "containing_id") = some (intToDec c) := rfl
  have lk7 : lookupCol ([strBytes "id", strBytes "containing_id", strBytes "start", strBytes "end", strBytes "entry", strBytes "path"].zip
           [natToDec m.id,
            intToDec c,
            strBytes "0x" ++ natToHex m.base,
            strBytes "0x" ++ natToHex m.endAddr,
            strBytes "0x" ++ natToHex m.entry,
            m.path]) (strBytes "offset") = none := rfl
  have lk8 : lookupCol ([strBytes "id", strBytes "containing_id", strBytes "start", strBytes "end", strBytes "entry", strBytes "path"].zip
           [natToDec m.id,
            intToDec c,
            strBytes "0x" ++ natToHex m.base,
            strBytes "0x" ++ natToHex m.endAddr,
            strBytes "0x" ++ natToHex m.entry,
            m.path]) (strBytes "checksum") = none := rfl
  have lk9 : lookupCol ([strBytes "id", strBytes "containing_id", strBytes "start", strBytes "end", strBytes "entry", strBytes "path"].zip
           [natToDec m.id,
            intToDec c,
            strBytes "0x" ++ natToHex m.base,
            strBytes "0x" ++ natToHex m.endAddr,
            strBytes "0x" ++ natToHex m.entry,
            m.path]) (strBytes "timestamp") = none := rfl
  unfold buildModuleFromMap
  simp only [lk0, lk1, lk2, lk3, lk4, lk5, lk6, lk7, lk8, lk9, Option.bind_eq_bind, Option.some_bind,
    Option.getD_none, Option.getD_some, pyNatDec_natToDec, pyHexParse_natToHex,
    pyIntDec_intToDec, Option.map_some', Option.pure_def,
    pyOrStr_none]
  conv_rhs => rw [show m = ⟨m.id, m.base, m.endAddr, m.path, m.entry,
    m.containing_id, m.offset, m.checksum, m.timestamp⟩ from rfl]
  rw [hcid, hoff, hcks, hts]

theorem buildRow_v3w (m : ModuleEntry) (c : Int) (ck ts : Nat)
    (hcid : m.containing_id = some c) (hoff : m.offset = none)
    (hcks : m.checksum = some ck) (hts : m.timestamp = some ts) :
    buildModuleFromMap
      ([strBytes "id", strBytes "containing_id", strBytes "start", strBytes "end", strBytes "entry", strBytes "checksum", strBytes "timestamp", strBytes "path"].zip
       [natToDec m.id,
        intToDec c,
        strBytes "0x" ++ natToHex m.base,
        strBytes "0x" ++ natToHex m.endAddr,
        strBytes "0x" ++ natToHex m.entry,
        strBytes "0x" ++ natToHex ck,
        strBytes "0x" ++ natToHex ts,
        m.path]) = some m := by
  have lk0 : lookupCol ([strBytes "id", strBytes "containing_id", strBytes "start", strBytes "end", strBytes "entry", strBytes "checksum", strBytes "timestamp", strBytes "path"].zip
           [natToDec m.id,
            intToDec c,
            strBytes "0x" ++ natToHex m.base,
            strBytes "0x" ++ natToHex m.endAddr,
            strBytes "0x" ++ natToHex m.entry,
            strBytes "0x" ++ natToHex ck,
            strBytes "0x" ++ natToHex ts,
            m.path]) (strBytes "id") = some (natToDec m.id) := rfl
  have lk1 : lookupCol ([strBytes "id", strBytes "containing_id", strBytes "start", strBytes "end", strBytes "entry", strBytes "checksum", strBytes "timestamp", strBytes "path"].zip
           [natToDec m.id,
            intToDec c,
            strBytes "0x" ++ natToHex m.base,
            strBytes "0x" ++ natToHex m.endAddr,
            strBytes "0x" ++ natToHex m.entry,
            strBytes "0x" ++ natToHex ck,
            strBytes "0x" ++ natToHex ts,
            m.path]) (strBytes "start") = some (strBytes "0x" ++ natToHex m.base) := rfl
  have lk2 : lookupCol ([strBytes "id", strBytes "containing_id", strBytes "start", strBytes "end", strBytes "entry", strBytes "checksum", strBytes "timestamp", strBytes "path"].zip
           [natToDec m.id,
            intToDec c,
            strBytes "0x" ++ natToHex m.base,
            strBytes "0x" ++ natToHex m.endAddr,
            strBytes "0x" ++ natToHex m.entry,
            strBytes "0x" ++ natToHex ck,
            strBytes "0x" ++ natToHex ts,
            m.path]) (strBytes "base") = none := rfl
  have lk3 : lookupCol ([strBytes "id", strBytes "containing_id", strBytes "start", strBytes "end", strBytes "entry", strBytes "checksum", strBytes "timestamp", strBytes "path"].zip
           [natToDec m.id,
            intToDec c,
            strBytes "0x" ++ natToHex m.base,
            strBytes "0x" ++ natToHex m.endAddr,
            strBytes "0x" ++ natToHex m.entry,
            strBytes "0x" ++ natToHex ck,
            strBytes "0x" ++ natToHex ts,
            m.path]) (strBytes "end") = some (strBytes "0x" ++ natToHex m.endAddr) := rfl
  have lk4 : lookupCol ([strBytes "id", strBytes "containing_id", strBytes "start", strBytes "end", strBytes "entry", strBytes "checksum", strBytes "timestamp", strBytes "path"].zip
           [natToDec m.id,
            intToDec c,
            strBytes "0x" ++ natToHex m.base,
            strBytes "0x" ++ natToHex m.endAddr,
            strBytes "0x" ++ natToHex m.entry,
            strBytes "0x" ++ natToHex ck,
            strBytes "0x" ++ natToHex ts,
            m.path]) (strBytes "path") = some m.path := rfl
  have lk5 : lookupCol ([strBytes "id", strBytes "containing_id", strBytes "start", strBytes "end", strBytes "entry", strBytes "checksum", strBytes "timestamp", strBytes "path"].zip
           [natToDec m.id,
            intToDec c,
            strBytes "0x" ++ natToHex m.base,
            strBytes "0x" ++ natToHex m.endAddr,
            strBytes "0x" ++ natToHex m.entry,
            strBytes "0x" ++ natToHex ck,
            strBytes "0x" ++ natToHex ts,
            m.path]) (strBytes "entry") = some (strBytes "0x" ++ natToHex m.entry) := rfl
  have lk6 : lookupCol ([strBytes "id", strBytes "containing_id", strBytes "start", strBytes "end", strBytes "entry", strBytes "checksum", strBytes "timestamp", strBytes "path"].zip
           [natToDec m.id,
            intToDec c,
            strBytes "0x" ++ natToHex m.base,
            strBytes "0x" ++ natToHex m.endAddr,
            strBytes "0x" ++ natToHex m.entry,
            strBytes "0x" ++ natToHex ck,
            strBytes "0x" ++ natToHex ts,
            m.path]) (strBytes "containing_id") = some (intToDec c) := rfl
  have lk7 : lookupCol ([strBytes "id", strBytes "containing_id", strBytes "start", strBytes "end", strBytes "entry", strBytes "checksum", strBytes "timestamp", strBytes "path"].zip
           [natToDec m.id,
            intToDec c,
            strBytes "0x" ++ natToHex m.base,
            strBytes "0x" ++ natToHex m.endAddr,
            strBytes "0x" ++ natToHex m.entry,
            strBytes "0x" ++ natToHex ck,
            strBytes "0x" ++ natToHex ts,
            m.path]) (strBytes "offset") = none := rfl
  have lk8 : lookupCol ([strBytes "id", strBytes "containing_id", strBytes "start", strBytes "end", strBytes "entry", strBytes "checksum", strBytes "timestamp", strBytes "path"].zip
           [natToDec m.id,
            intToDec c,
            strBytes "0x" ++ natToHex m.base,
            strBytes "0x" ++ natToHex m.endAddr,
            strBytes "0x" ++ natToHex m.entry,
            strBytes "0x" ++ natToHex ck,
            strBytes "0x" ++ natToHex ts,
            m.path]) (strBytes "checksum") = some (strBytes "0x" ++ natToHex ck) := rfl
  have lk9 : lookupCol ([strBytes "id", strBytes "containing_id", strBytes "start", strBytes "end", strBytes "entry", strBytes "checksum", strBytes "timestamp", strBytes "path"].zip
           [natToDec m.id,
            intToDec c,
            strBytes "0x" ++ natToHex m.base,
            strBytes "0x" ++ natToHex m.endAddr,
            strBytes "0x" ++ natToHex m.entry,
            strBytes "0x" ++ natToHex ck,
            strBytes "0x" ++ natToHex ts,
            m.path]) (strBytes "timestamp") = some (strBytes "0x" ++ natToHex ts) := rfl
  unfold buildModuleFromMap
  simp only [lk0, lk1, lk2, lk3, lk4, lk5, lk6, lk7, lk8, lk9, Option.bind_eq_bind, Option.some_bind,
    Option.getD_none, Option.getD_some, pyNatDec_natToDec, pyHexParse_natToHex,
    pyIntDec_intToDec, Option.map_some', Option.pure_def,
    pyOrStr_none]
  conv_rhs => rw [show m = ⟨m.id, m.base, m.endAddr, m.path, m.entry,
    m.containing_id, m.offset, m.checksum, m.timestamp⟩ from rfl]
  rw [hcid, hoff, hcks, hts]

theorem buildRow_v4 (m : ModuleEntry) (c : Int) (o : Nat)
    (hcid : m.containing_id = some c) (hoff : m.offset = some o)
    (hcks : m.checksum = none) (hts : m.timestamp = none) :
    buildModuleFromMap
      ([strBytes "id", strBytes "containing_id", strBytes "start", strBytes "end", strBytes "entry", strBytes "offset", strBytes "path"].zip
       [natToDec m.id,
        intToDec c,
        strBytes "0x" ++ natToHex m.base,
        strBytes "0x" ++ natToHex m.endAddr,
        strBytes "0x" ++ natToHex m.entry,
        strBytes "0x" ++ natToHex o,
        m.path]) = some m := by
  have lk0 : lookupCol ([strBytes "id", strBytes "containing_id", strBytes "start", strBytes "end", strBytes "entry", strBytes "offset", strBytes "path"].zip
           [natToDec m.id,
            intToDec c,
            strBytes "0x" ++ natToHex m.base,
            strBytes "0x" ++ natToHex m.endAddr,
            strBytes "0x" ++ natToHex m.entry,
            strBytes "0x" ++ natToHex o,
            m.path]) (strBytes "id") = some (natToDec m.id) := rfl
  have lk1 : lookupCol ([strBytes "id", strBytes "containing_id", strBytes "start", strBytes "end", strBytes "entry", strBytes "offset", strBytes "path"].zip
           [natToDec m.id,
            intToDec c,
            strBytes "0x" ++ natToHex m.base,
            strBytes "0x" ++ natToHex m.endAddr,
            strBytes "0x" ++ natToHex m.entry,
            strBytes "0x" ++ natToHex o,
            m.path]) (strBytes "start") = some (strBytes "0x" ++ natToHex m.base) := rfl
  have lk2 : lookupCol ([strBytes "id", strBytes "containing_id", strBytes "start", strBytes "end", strBytes "entry", strBytes "offset", strBytes "path"].zip
           [natToDec m.id,
            intToDec c,
            strBytes "0x" ++ natToHex m.base,
            strBytes "0x" ++ natToHex m.endAddr,
            strBytes "0x" ++ natToHex m.entry,
            strBytes "0x" ++ natToHex o,
            m.path]) (strBytes "base") = none := rfl
  have lk3 : lookupCol ([strBytes "id", strBytes "containing_id", strBytes "start", strBytes "end", strBytes "entry", strBytes "offset", strBytes "path"].zip
           [natToDec m.id,
            intToDec c,
            strBytes "0x" ++ natToHex m.base,
            strBytes "0x" ++ natToHex m.endAddr,
            strBytes "0x" ++ natToHex m.entry,
            strBytes "0x" ++ natToHex o,
            m.path]) (strBytes "end") = some (strBytes "0x" ++ natToHex m.endAddr) := rfl
  have lk4 : lookupCol ([strBytes "id", strBytes "containing_id", strBytes "start", strBytes "end", strBytes "entry", strBytes "offset", strBytes "path"].zip
           [natToDec m.id,
            intToDec c,
            strBytes "0x" ++ natToHex m.base,
            strBytes "0x" ++ natToHex m.endAddr,
            strBytes "0x" ++ natToHex m.entry,
            strBytes "0x" ++ natToHex o,
            m.path]) (strBytes "path") = some m.path := rfl
  have lk5 : lookupCol ([strBytes "id", strBytes "containing_id", strBytes "start", strBytes "end", strBytes "entry", strBytes "offset", strBytes "path"].zip
           [natToDec m.id,
            intToDec c,
            strBytes "0x" ++ natToHex m.base,
            strBytes "0x" ++ natToHex m.endAddr,
            strBytes "0x" ++ natToHex m.entry,
            strBytes "0x" ++ natToHex o,
            m.path]) (strBytes "entry") = some (strBytes "0x" ++ natToHex m.entry) := rfl
  have lk6 : lookupCol ([strBytes "id", strBytes "containing_id", strBytes "start", strBytes "end", strBytes "entry", strBytes "offset", strBytes "path"].zip
           [natToDec m.id,
            intToDec c,
            strBytes "0x" ++ natToHex m.base,
            strBytes "0x" ++ natToHex m.endAddr,
            strBytes "0x" ++ natToHex m.entry,
            strBytes "0x" ++ natToHex o,
            m.path]) (strBytes "containing_id") = some (intToDec c) := rfl
  have lk7 : lookupCol ([strBytes "id", strBytes "containing_id", strBytes "start", strBytes "end", strBytes "entry", strBytes "offset", strBytes "path"].zip
           [natToDec m.id,
            intToDec c,
            strBytes "0x" ++ natToHex m.base,
            strBytes "0x" ++ natToHex m.endAddr,
            strBytes "0x" ++ natToHex m.entry,
            strBytes "0x" ++ natToHex o,
            m.path]) (strBytes "offset") = some (strBytes "0x" ++ natToHex o) := rfl
  have lk8 : lookupCol ([strBytes "id", strBytes "containing_id", strBytes "start", strBytes "end", strBytes "entry", strBytes "offset", strBytes "path"].zip
           [natToDec m.id,
            intToDec c,
            strBytes "0x" ++ natToHex m.base,
            strBytes "0x" ++ natToHex m.endAddr,
            strBytes "0x" ++ natToHex m.entry,
            strBytes "0x" ++ natToHex o,
            m.path]) (strBytes "checksum") = none := rfl
  have lk9 : lookupCol ([strBytes "id", strBytes "containing_id", strBytes "start", strBytes "end", strBytes "entry", strBytes "offset", strBytes "path"].zip
           [natToDec m.id,
            intToDec c,
            strBytes "0x" ++ natToHex m.base,
            strBytes "0x" ++ natToHex m.endAddr,
            strBytes "0x" ++ natToHex m.entry,
            strBytes "0x" ++ natToHex o,
            m.path]) (strBytes "timestamp") = none := rfl
  unfold buildModuleFromMap
  simp only [lk0, lk1, lk2, lk3, lk4, lk5, lk6, lk7, lk8, lk9, Option.bind_eq_bind, Option.some_bind,
    Option.getD_none, Option.getD_some, pyNatDec_natToDec, pyHexParse_natToHex,
    pyIntDec_intToDec, Option.map_some', Option.pure_def,
    pyOrStr_none]
  conv_rhs => rw [show m = ⟨m.id, m.base, m.endAddr, m.path, m.entry,
    m.containing_id, m.offset, m.checksum, m.timestamp⟩ from rfl]
  rw [hcid, hoff, hcks, hts]

theorem buildRow_v4w (m : ModuleEntry) (c : Int) (o ck ts : Nat)
    (hcid : m.containing_id = some c) (hoff : m.offset = some o)
    (hcks : m.checksum = some ck) (hts : m.timestamp = some ts) :
    buildModuleFromMap
      ([strBytes "id", strBytes "containing_id", strBytes "start", strBytes "end", strBytes "entry", strBytes "offset", strBytes "checksum", strBytes "timestamp", strBytes "path"].zip
       [natToDec m.id,
        intToDec c,
        strBytes "0x" ++ natToHex m.base,
        strBytes "0x" ++ natToHex m.endAddr,
        strBytes "0x" ++ natToHex m.entry,
        strBytes "0x" ++ natToHex o,
        strBytes "0x" ++ natToHex ck,
        strBytes "0x" ++ natToHex ts,
        m.path]) = some m := by
  have lk0 : lookupCol ([strBytes "id", strBytes "containing_id", strBytes "start", strBytes "end", strBytes "entry", strBytes "offset", strBytes "checksum", strBytes "timestamp", strBytes "path"].zip
           [natToDec m.id,
            intToDec c,
            strBytes "0x" ++ natToHex m.base,
            strBytes "0x" ++ natToHex m.endAddr,
            strBytes "0x" ++ natToHex m.entry,
            strBytes "0x" ++ natToHex o,
            strBytes "0x" ++ natToHex ck,
            strBytes "0x" ++ natToHex ts,
            m.path]) (strBytes "id") = some (natToDec m.id) := rfl
  have lk1 : lookupCol ([strBytes "id", strBytes "containing_id", strBytes "start", strBytes "end", strBytes "entry", strBytes "offset", strBytes "checksum", strBytes "timestamp", strBytes "path"].zip
           [natToDec m.id,
            intToDec c,
            strBytes "0x" ++ natToHex m.base,
            strBytes "0x" ++ natToHex m.endAddr,
            strBytes "0x" ++ natToHex m.entry,
            strBytes "0x" ++ natToHex o,
            strBytes "0x" ++ natToHex ck,
            strBytes "0x" ++ natToHex ts,
            m.path]) (strBytes "start") = some (strBytes "0x" ++ natToHex m.base) := rfl
  have lk2 : lookupCol ([strBytes "id", strBytes "containing_id", strBytes "start", strBytes "end", strBytes "entry", strBytes "offset", strBytes "checksum", strBytes "timestamp", strBytes "path"].zip
           [natToDec m.id,
            intToDec c,
            strBytes "0x" ++ natToHex m.base,
            strBytes "0x" ++ natToHex m.endAddr,
            strBytes "0x" ++ natToHex m.entry,
            strBytes "0x" ++ natToHex o,
            strBytes "0x" ++ natToHex ck,
            strBytes "0x" ++ natToHex ts,
            m.path]) (strBytes "base") = none := rfl
  have lk3 : lookupCol ([strBytes "id", strBytes "containing_id", strBytes "start", strBytes "end", strBytes "entry", strBytes "offset", strBytes "checksum", strBytes "timestamp", strBytes "path"].zip
           [natToDec m.id,
            intToDec c,
            strBytes "0x" ++ natToHex m.base,
            strBytes "0x" ++ natToHex m.endAddr,
            strBytes "0x" ++ natToHex m.entry,
            strBytes "0x" ++ natToHex o,
            strBytes "0x" ++ natToHex ck,
            strBytes "0x" ++ natToHex ts,
            m.path]) (strBytes "end") = some (strBytes "0x" ++ natToHex m.endAddr) := rfl
  have lk4 : lookupCol ([strBytes "id", strBytes "containing_id", strBytes "start", strBytes "end", strBytes "entry", strBytes "offset", strBytes "checksum", strBytes "timestamp", strBytes "path"].zip
           [natToDec m.id,
            intToDec c,
            strBytes "0x" ++ natToHex m.base,
            strBytes "0x" ++ natToHex m.endAddr,
            strBytes "0x" ++ natToHex m.entry,
            strBytes "0x" ++ natToHex o,
            strBytes "0x" ++ natToHex ck,
            strBytes "0x" ++ natToHex ts,
            m.path]) (strBytes "path") = some m.path := rfl
  have lk5 : lookupCol ([strBytes "id", strBytes "containing_id", strBytes "start", strBytes "end", strBytes "entry", strBytes "offset", strBytes "checksum", strBytes "timestamp", strBytes "path"].zip
           [natToDec m.id,
            intToDec c,
            strBytes "0x" ++ natToHex m.base,
            strBytes "0x" ++ natToHex m.endAddr,
            strBytes "0x" ++ natToHex m.entry,
            strBytes "0x" ++ natToHex o,
            strBytes "0x" ++ natToHex ck,
            strBytes "0x" ++ natToHex ts,
            m.path]) (strBytes "entry") = some (strBytes "0x" ++ natToHex m.entry) := rfl
  have lk6 : lookupCol ([strBytes "id", strBytes "containing_id", strBytes "start", strBytes "end", strBytes "entry", strBytes "offset", strBytes "checksum", strBytes "timestamp", strBytes "path"].zip
           [natToDec m.id,
            intToDec c,
            strBytes "0x" ++ natToHex m.base,
            strBytes "0x" ++ natToHex m.endAddr,
            strBytes "0x" ++ natToHex m.entry,
            strBytes "0x" ++ natToHex o,
            strBytes "0x" ++ natToHex ck,
            strBytes "0x" ++ natToHex ts,
            m.path]) (strBytes "containing_id") = some (intToDec c) := rfl
  have lk7 : lookupCol ([strBytes "id", strBytes "containing_id", strBytes "start", strBytes "end", strBytes "entry", strBytes "offset", strBytes "checksum", strBytes "timestamp", strBytes "path"].zip
           [natToDec m.id,
            intToDec c,
            strBytes "0x" ++ natToHex m.base,
            strBytes "0x" ++ natToHex m.endAddr,
            strBytes "0x" ++ natToHex m.entry,
            strBytes "0x" ++ natToHex o,
            strBytes "0x" ++ natToHex ck,
            strBytes "0x" ++ natToHex ts,
            m.path]) (strBytes "offset") = some (strBytes "0x" ++ natToHex o) := rfl
  have lk8 : lookupCol ([strBytes "id", strBytes "containing_id", strBytes "start", strBytes "end", strBytes "entry", strBytes "offset", strBytes "checksum", strBytes "timestamp", strBytes "path"].zip
           [natToDec m.id,
            intToDec c,
            strBytes "0x" ++ natToHex m.base,
            strBytes "0x" ++ natToHex m.endAddr,
            strBytes "0x" ++ natToHex m.entry,
            strBytes "0x" ++ natToHex o,
            strBytes "0x" ++ natToHex ck,
            strBytes "0x" ++ natToHex ts,
            m.path]) (strBytes "checksum") = some (strBytes "0x" ++ natToHex ck) := rfl
  have lk9 : lookupCol ([strBytes "id", strBytes "containing_id", strBytes "start", strBytes "end", strBytes "entry", strBytes "offset", strBytes "checksum", strBytes "timestamp", strBytes "path"].zip
           [natToDec m.id,
            intToDec c,
            strBytes "0x" ++ natToHex m.base,
            strBytes "0x" ++ natToHex m.endAddr,
            strBytes "0x" ++ natToHex m.entry,
            strBytes "0x" ++ natToHex o,
            strBytes "0x" ++ natToHex ck,
            strBytes "0x" ++ natToHex ts,
            m.path]) (strBytes "timestamp") = some (strBytes "0x" ++ natToHex ts) := rfl
  unfold buildModuleFromMap
  simp only [lk0, lk1, lk2, lk3, lk4, lk5, lk6, lk7, lk8, lk9, Option.bind_eq_bind, Option.some_bind,
    Option.getD_none, Option.getD_some, pyNatDec_natToDec, pyHexParse_natToHex,
    pyIntDec_intToDec, Option.map_some', Option.pure_def,
    pyOrStr_none]
  conv_rhs => rw [show m = ⟨m.id, m.base, m.endAddr, m.path, m.entry,
    m.containing_id, m.offset, m.checksum, m.timestamp⟩ from rfl]
  rw [hcid, hoff, hcks, hts]

theorem parseModRowsB_render (cols : List (List Nat)) :
    ∀ (ms : List ModuleEntry) (rest : List Nat),
      (∀ m ∈ ms, ∃ p qs,
        cols.filterMap (renderColOpt m) = p :: qs ∧
        (∀ x ∈ p, x ≠ 44) ∧
        (∀ q ∈ qs.dropLast, ∀ x ∈ q, x ≠ 44) ∧
        qs.length + 1 = cols.length ∧
        (∀ x ∈ joinCommaSpace (p :: qs), x ≠ 10) ∧
        stripWS (joinCommaSpace (p :: qs)) = joinCommaSpace (p :: qs) ∧
        joinCommaSpace (p :: qs) ≠ [] ∧
        (p :: qs.map (fun q => 32 :: q)).map stripWS = p :: qs ∧
        buildModuleFromMap (cols.zip (p :: qs)) = some m) →
      parseModRowsB cols ms.length ((ms.map (moduleRow cols)).flatten ++ rest) =
        some (ms, rest) := by
  intro ms
  induction ms with
  | nil => intro rest _; rfl
  | cons m t ih =>
    intro rest h
    obtain ⟨p, qs, hfm, hp44, hq44, hqlen, h10, hstrip, hne, hmapstrip, hbuild⟩ :=
      h m (List.mem_cons_self _ _)
    have hrow : moduleRow cols m = joinCommaSpace (p :: qs) ++ [10] := by
      unfold moduleRow
      rw [hfm]
    have hflat : ((m :: t).map (moduleRow cols)).flatten ++ rest =
        joinCommaSpace (p :: qs) ++ 10 ::
          ((t.map (moduleRow cols)).flatten ++ rest) := by
      simp only [List.map_cons, List.flatten_cons, hrow]
      simp [List.append_assoc]
    show parseModRowsB cols (t.length + 1) _ = _
    rw [hflat]
    unfold parseModRowsB
    rw [readLineB_append _ _ h10]
    simp only [stripWS_append_newline, hstrip]
    rw [if_neg (by simpa using hne)]
    have hsplit : splitLimit 44 (cols.length - 1) (joinCommaSpace (p :: qs)) =
        p :: qs.map (fun q => 32 :: q) := by
      rw [show cols.length - 1 = qs.length from by omega]
      exact splitLimit_joinCS qs p hp44 hq44
    rw [hsplit, hmapstrip]
    rw [if_pos (by simp; omega)]
    rw [hbuild]
    rw [ih rest (fun mm hmm => h mm (List.mem_cons_of_mem _ hmm))]

theorem isWSByte_eq_false_of_bounds (x : Nat) (h : 45 ≤ x) : isWSByte x = false := by
  unfold isWSByte
  simp only [Bool.or_eq_false_iff, beq_eq_false_iff_ne]
  omega

theorem decPart_facts (n : Nat) :
    ∀ x ∈ natToDec n, isWSByte x = false ∧ x ≠ 44 ∧ x ≠ 10 := by
  intro x hx
  have := natToDec_digits n x hx
  exact ⟨isWSByte_eq_false_of_bounds x (by omega), by omega, by omega⟩

theorem hexPart_facts (n : Nat) :
    ∀ x ∈ strBytes "0x" ++ natToHex n, isWSByte x = false ∧ x ≠ 44 ∧ x ≠ 10 := by
  intro x hx
  rcases List.mem_append.mp hx with hx | hx
  · have : x = 48 ∨ x = 120 := by
      rcases List.mem_cons.mp hx with hx | hx
      · exact Or.inl hx
      · rcases List.mem_cons.mp hx with hx | hx
        · exact Or.inr hx
        · simp at hx
    rcases this with rfl | rfl <;> exact ⟨rfl, by omega, by omega⟩
  · rcases natToHex_digits n x hx with h | h <;>
      exact ⟨isWSByte_eq_false_of_bounds x (by omega), by omega, by omega⟩

theorem intPart_facts (z : Int) :
    ∀ x ∈ intToDec z, isWSByte x = false ∧ x ≠ 44 ∧ x ≠ 10 := by
  intro x hx
  rcases intToDec_digits z x hx with h | h
  · subst h
    exact ⟨rfl, by omega, by omega⟩
  · exact ⟨isWSByte_eq_false_of_bounds x (by omega), by omega, by omega⟩

theorem cleanStr_no10 (s : List Nat) (h : cleanStr s = true) : ∀ x ∈ s, x ≠ 10 := by
  intro x hx he
  unfold cleanStr at h
  rw [Bool.and_eq_true] at h
  have h1 := h.1
  rw [Bool.not_eq_true'] at h1
  subst he
  rw [List.contains_eq_any_beq] at h1
  simp only [List.any_eq_false] at h1
  have := h1 10 hx
  simp at this

theorem cleanStr_strip (s : List Nat) (h : cleanStr s = true) : stripWS s = s := by
  unfold cleanStr at h
  rw [Bool.and_eq_true] at h
  exact beq_iff_eq.mp h.2


theorem rowOK_v2 (m : ModuleEntry)
    (hpath : cleanStr m.path = true) (hpne : m.path ≠ [])
    (hcid : m.containing_id = none) (hoff : m.offset = none)
    (hcks : m.checksum = none) (hts : m.timestamp = none) :
    ∃ p qs,
      [strBytes "id", strBytes "base", strBytes "end", strBytes "entry", strBytes "path"].filterMap (renderColOpt m) = p :: qs ∧
      (∀ x ∈ p, x ≠ 44) ∧
      (∀ q ∈ qs.dropLast, ∀ x ∈ q, x ≠ 44) ∧
      qs.length + 1 = [strBytes "id", strBytes "base", strBytes "end", strBytes "entry", strBytes "path"].length ∧
      (∀ x ∈ joinCommaSpace (p :: qs), x ≠ 10) ∧
      stripWS (joinCommaSpace (p :: qs)) = joinCommaSpace (p :: qs) ∧
      joinCommaSpace (p :: qs) ≠ [] ∧
      (p :: qs.map (fun q => 32 :: q)).map stripWS = p :: qs ∧
      buildModuleFromMap ([strBytes "id", strBytes "base", strBytes "end", strBytes "entry", strBytes "path"].zip (p :: qs)) = some m := by
  refine ⟨natToDec m.id,
    [strBytes "0x" ++ natToHex m.base,
       strBytes "0x" ++ natToHex m.endAddr,
       strBytes "0x" ++ natToHex m.entry,
       m.path],
    rfl, ?_, ?_, rfl, ?_, ?_, ?_, ?_, ?_⟩
  · intro x hx
    exact (decPart_facts m.id x hx).2.1
  · intro q hq x hx
    have hqa : q ∈ [strBytes "0x" ++ natToHex m.base, strBytes "0x" ++ natToHex m.endAddr, strBytes "0x" ++ natToHex m.entry] := hq
    rcases List.mem_cons.mp hqa with rfl | hqa0
    · exact (hexPart_facts (m.base) x hx).2.1
    rcases List.mem_cons.mp hqa0 with rfl | hqa1
    · exact (hexPart_facts (m.endAddr) x hx).2.1
    rcases List.mem_cons.mp hqa1 with rfl | hqa2
    · exact (hexPart_facts (m.entry) x hx).2.1
    simp at hqa2
  · intro x hx3
    rcases joinCS_mem x _ hx3 with rfl | rfl | ⟨q, hqa, hx⟩
    · omega
    · omega
    rcases List.mem_cons.mp hqa with rfl | hqa0
    · exact (decPart_facts m.id x hx).2.2
    rcases List.mem_cons.mp hqa0 with rfl | hqa1
    · exact (hexPart_facts (m.base) x hx).2.2
    rcases List.mem_cons.mp hqa1 with rfl | hqa2
    · exact (hexPart_facts (m.endAddr) x hx).2.2
    rcases List.mem_cons.mp hqa2 with rfl | hqa3
    · exact (hexPart_facts (m.entry) x hx).2.2
    rcases List.mem_cons.mp hqa3 with rfl | hqa4
    · exact cleanStr_no10 _ hpath x hx
    simp at hqa4
  · apply stripWS_eq_self_ends
    · intro b hb
      have hj0 : joinCommaSpace ((natToDec m.id) :: [strBytes "0x" ++ natToHex m.base,
       strBytes "0x" ++ natToHex m.endAddr,
       strBytes "0x" ++ natToHex m.entry,
       m.path]) =
          natToDec m.id ++ ([44, 32] ++ joinCommaSpace [strBytes "0x" ++ natToHex m.base,
       strBytes "0x" ++ natToHex m.endAddr,
       strBytes "0x" ++ natToHex m.entry,
       m.path]) := by
        simp [joinCommaSpace]
      rw [hj0, List.head?_append_of_ne_nil _ (natToDec_ne_nil m.id)] at hb
      cases hd : natToDec m.id with
      | nil => exact absurd hd (natToDec_ne_nil _)
      | cons c0 t0 =>
        rw [hd] at hb
        injection hb with hb
        have hc0 : c0 ∈ natToDec m.id := by
          rw [hd]
          exact List.mem_cons_self _ _
        rw [← hb]
        exact (decPart_facts m.id c0 hc0).1
    · intro b hb
      have hj2 : joinCommaSpace ((natToDec m.id) :: [strBytes "0x" ++ natToHex m.base,
       strBytes "0x" ++ natToHex m.endAddr,
       strBytes "0x" ++ natToHex m.entry,
       m.path]) =
          ((natToDec m.id) ++ [44, 32] ++ (strBytes "0x" ++ natToHex m.base) ++ [44, 32] ++ (strBytes "0x" ++ natToHex m.endAddr) ++ [44, 32] ++ (strBytes "0x" ++ natToHex m.entry) ++ [44, 32]) ++ m.path := by
        simp [joinCommaSpace, List.append_assoc]
      rw [hj2] at hb
      obtain ⟨lb, hlb⟩ : ∃ lb, m.path.getLast? = some lb := by
        cases hp : m.path.getLast? with
        | none => exact absurd (List.getLast?_eq_none_iff.mp hp) hpne
        | some lb => exact ⟨lb, rfl⟩
      rw [getLast?_append_right _ _ _ hlb] at hb
      injection hb with hb
      rw [← hb]
      exact stripWS_self_getLast _ (cleanStr_strip _ hpath) lb hlb
  · intro hcontra
    have hj0 : joinCommaSpace ((natToDec m.id) :: [strBytes "0x" ++ natToHex m.base,
       strBytes "0x" ++ natToHex m.endAddr,
       strBytes "0x" ++ natToHex m.entry,
       m.path]) =
          natToDec m.id ++ ([44, 32] ++ joinCommaSpace [strBytes "0x" ++ natToHex m.base,
       strBytes "0x" ++ natToHex m.endAddr,
       strBytes "0x" ++ natToHex m.entry,
       m.path]) := by
      simp [joinCommaSpace]
    rw [hj0] at hcontra
    exact natToDec_ne_nil _ (List.append_eq_nil.mp hcontra).1
  · have e0 : stripWS (natToDec m.id) = natToDec m.id :=
      stripWS_eq_self_of _ (fun x hx => (decPart_facts m.id x hx).1)
    have e1 : stripWS (32 :: (strBytes "0x" ++ natToHex m.base)) = strBytes "0x" ++ natToHex m.base :=
      by rw [stripWS_cons_ws 32 _ rfl]; exact stripWS_eq_self_of _ (fun x hx => (hexPart_facts (m.base) x hx).1)
    have e2 : stripWS (32 :: (strBytes "0x" ++ natToHex m.endAddr)) = strBytes "0x" ++ natToHex m.endAddr :=
      by rw [stripWS_cons_ws 32 _ rfl]; exact stripWS_eq_self_of _ (fun x hx => (hexPart_facts (m.endAddr) x hx).1)
    have e3 : stripWS (32 :: (strBytes "0x" ++ natToHex m.entry)) = strBytes "0x" ++ natToHex m.entry :=
      by rw [stripWS_cons_ws 32 _ rfl]; exact stripWS_eq_self_of _ (fun x hx => (hexPart_facts (m.entry) x hx).1)
    have e4 : stripWS (32 :: (m.path)) = m.path :=
      by rw [stripWS_cons_ws 32 _ rfl]; exact cleanStr_strip _ hpath
    simp only [List.map_cons, List.map_nil, e0, e1, e2, e3, e4]
  · exact buildRow_v2 m hcid hoff hcks hts


theorem rowOK_v2w (m : ModuleEntry) (ck ts : Nat)
    (hpath : cleanStr m.path = true) (hpne : m.path ≠ [])
    (hcid : m.containing_id = none) (hoff : m.offset = none)
    (hcks : m.checksum = some ck) (hts : m.timestamp = some ts) :
    ∃ p qs,
      [strBytes "id", strBytes "base", strBytes "end", strBytes "entry", strBytes "checksum", strBytes "timestamp", strBytes "path"].filterMap (renderColOpt m) = p :: qs ∧
      (∀ x ∈ p, x ≠ 44) ∧
      (∀ q ∈ qs.dropLast, ∀ x ∈ q, x ≠ 44) ∧
      qs.length + 1 = [strBytes "id", strBytes "base", strBytes "end", strBytes "entry", strBytes "checksum", strBytes "timestamp", strBytes "path"].length ∧
      (∀ x ∈ joinCommaSpace (p :: qs), x ≠ 10) ∧
      stripWS (joinCommaSpace (p :: qs)) = joinCommaSpace (p :: qs) ∧
      joinCommaSpace (p :: qs) ≠ [] ∧
      (p :: qs.map (fun q => 32 :: q)).map stripWS = p :: qs ∧
      buildModuleFromMap ([strBytes "id", strBytes "base", strBytes "end", strBytes "entry", strBytes "checksum", strBytes "timestamp", strBytes "path"].zip (p :: qs)) = some m := by
  refine ⟨natToDec m.id,
    [strBytes "0x" ++ natToHex m.base,
       strBytes "0x" ++ natToHex m.endAddr,
       strBytes "0x" ++ natToHex m.entry,
       strBytes "0x" ++ natToHex ck,
       strBytes "0x" ++ natToHex ts,
       m.path],
    ?_, ?_, ?_, rfl, ?_, ?_, ?_, ?_, ?_⟩
  · have hr : [strBytes "id", strBytes "base", strBytes "end", strBytes "entry", strBytes "checksum", strBytes "timestamp", strBytes "path"].filterMap (renderColOpt m) =
        [natToDec m.id,
         strBytes "0x" ++ natToHex m.base,
         strBytes "0x" ++ natToHex m.endAddr,
         strBytes "0x" ++ natToHex m.entry,
         strBytes "0x" ++ natToHex (pyOrNatD m.checksum 0),
         strBytes "0x" ++ natToHex (pyOrNatD m.timestamp 0),
         m.path] := rfl
    rw [hr]
    simp only [hcks, hts, pyOrNatD_some_zero]
  · intro x hx
    exact (decPart_facts m.id x hx).2.1
  · intro q hq x hx
    have hqa : q ∈ [strBytes "0x" ++ natToHex m.base, strBytes "0x" ++ natToHex m.endAddr, strBytes "0x" ++ natToHex m.entry, strBytes "0x" ++ natToHex ck, strBytes "0x" ++ natToHex ts] := hq
    rcases List.mem_cons.mp hqa with rfl | hqa0
    · exact (hexPart_facts (m.base) x hx).2.1
    rcases List.mem_cons.mp hqa0 with rfl | hqa1
    · exact (hexPart_facts (m.endAddr) x hx).2.1
    rcases List.mem_cons.mp hqa1 with rfl | hqa2
    · exact (hexPart_facts (m.entry) x hx).2.1
    rcases List.mem_cons.mp hqa2 with rfl | hqa3
    · exact (hexPart_facts (ck) x hx).2.1
    rcases List.mem_cons.mp hqa3 with rfl | hqa4
    · exact (hexPart_facts (ts) x hx).2.1
    simp at hqa4
  · intro x hx3
    rcases joinCS_mem x _ hx3 with rfl | rfl | ⟨q, hqa, hx⟩
    · omega
    · omega
    rcases List.mem_cons.mp hqa with rfl | hqa0
    · exact (decPart_facts m.id x hx).2.2
    rcases List.mem_cons.mp hqa0 with rfl | hqa1
    · exact (hexPart_facts (m.base) x hx).2.2
    rcases List.mem_cons.mp hqa1 with rfl | hqa2
    · exact (hexPart_facts (m.endAddr) x hx).2.2
    rcases List.mem_cons.mp hqa2 with rfl | hqa3
    · exact (hexPart_facts (m.entry) x hx).2.2
    rcases List.mem_cons.mp hqa3 with rfl | hqa4
    · exact (hexPart_facts (ck) x hx).2.2
    rcases List.mem_cons.mp hqa4 with rfl | hqa5
    · exact (hexPart_facts (ts) x hx).2.2
    rcases List.mem_cons.mp hqa5 with rfl | hqa6
    · exact cleanStr_no10 _ hpath x hx
    simp at hqa6
  · apply stripWS_eq_self_ends
    · intro b hb
      have hj0 : joinCommaSpace ((natToDec m.id) :: [strBytes "0x" ++ natToHex m.base,
       strBytes "0x" ++ natToHex m.endAddr,
       strBytes "0x" ++ natToHex m.entry,
       strBytes "0x" ++ natToHex ck,
       strBytes "0x" ++ natToHex ts,
       m.path]) =
          natToDec m.id ++ ([44, 32] ++ joinCommaSpace [strBytes "0x" ++ natToHex m.base,
       strBytes "0x" ++ natToHex m.endAddr,
       strBytes "0x" ++ natToHex m.entry,
       strBytes "0x" ++ natToHex ck,
       strBytes "0x" ++ natToHex ts,
       m.path]) := by
        simp [joinCommaSpace]
      rw [hj0, List.head?_append_of_ne_nil _ (natToDec_ne_nil m.id)] at hb
      cases hd : natToDec m.id with
      | nil => exact absurd hd (natToDec_ne_nil _)
      | cons c0 t0 =>
        rw [hd] at hb
        injection hb with hb
        have hc0m : c0 ∈ natToDec m.id := by
          rw [hd]
          exact List.mem_cons_self _ _
        rw [← hb]
        exact (decPart_facts m.id c0 hc0m).1
    · intro b hb
      have hj2 : joinCommaSpace ((natToDec m.id) :: [strBytes "0x" ++ natToHex m.base,
       strBytes "0x" ++ natToHex m.endAddr,
       strBytes "0x" ++ natToHex m.entry,
       strBytes "0x" ++ natToHex ck,
       strBytes "0x" ++ natToHex ts,
       m.path]) =
          ((natToDec m.id) ++ [44, 32] ++ (strBytes "0x" ++ natToHex m.base) ++ [44, 32] ++ (strBytes "0x" ++ natToHex m.endAddr) ++ [44, 32] ++ (strBytes "0x" ++ natToHex m.entry) ++ [44, 32] ++ (strBytes "0x" ++ natToHex ck) ++ [44, 32] ++ (strBytes "0x" ++ natToHex ts) ++ [44, 32]) ++ m.path := by
        simp [joinCommaSpace, List.append_assoc]
      rw [hj2] at hb
      obtain ⟨lb, hlb⟩ : ∃ lb, m.path.getLast? = some lb := by
        cases hp : m.path.getLast? with
        | none => exact absurd (List.getLast?_eq_none_iff.mp hp) hpne
        | some lb => exact ⟨lb, rfl⟩
      rw [getLast?_append_right _ _ _ hlb] at hb
      injection hb with hb
      rw [← hb]
      exact stripWS_self_getLast _ (cleanStr_strip _ hpath) lb hlb
  · intro hcontra
    have hj0 : joinCommaSpace ((natToDec m.id) :: [strBytes "0x" ++ natToHex m.base,
       strBytes "0x" ++ natToHex m.endAddr,
       strBytes "0x" ++ natToHex m.entry,
       strBytes "0x" ++ natToHex ck,
       strBytes "0x" ++ natToHex ts,
       m.path]) =
          natToDec m.id ++ ([44, 32] ++ joinCommaSpace [strBytes "0x" ++ natToHex m.base,
       strBytes "0x" ++ natToHex m.endAddr,
       strBytes "0x" ++ natToHex m.entry,
       strBytes "0x" ++ natToHex ck,
       strBytes "0x" ++ natToHex ts,
       m.path]) := by
      simp [joinCommaSpace]
    rw [hj0] at hcontra
    exact natToDec_ne_nil _ (List.append_eq_nil.mp hcontra).1
  · have e0 : stripWS (natToDec m.id) = natToDec m.id :=
      stripWS_eq_self_of _ (fun x hx => (decPart_facts m.id x hx).1)
    have e1 : stripWS (32 :: (strBytes "0x" ++ natToHex m.base)) = strBytes "0x" ++ natToHex m.base :=
      by rw [stripWS_cons_ws 32 _ rfl]; exact stripWS_eq_self_of _ (fun x hx => (hexPart_facts (m.base) x hx).1)
    have e2 : stripWS (32 :: (strBytes "0x" ++ natToHex m.endAddr)) = strBytes "0x" ++ natToHex m.endAddr :=
      by rw [stripWS_cons_ws 32 _ rfl]; exact stripWS_eq_self_of _ (fun x hx => (hexPart_facts (m.endAddr) x hx).1)
    have e3 : stripWS (32 :: (strBytes "0x" ++ natToHex m.entry)) = strBytes "0x" ++ natToHex m.entry :=
      by rw [stripWS_cons_ws 32 _ rfl]; exact stripWS_eq_self_of _ (fun x hx => (hexPart_facts (m.entry) x hx).1)
    have e4 : stripWS (32 :: (strBytes "0x" ++ natToHex ck)) = strBytes "0x" ++ natToHex ck :=
      by rw [stripWS_cons_ws 32 _ rfl]; exact stripWS_eq_self_of _ (fun x hx => (hexPart_facts (ck) x hx).1)
    have e5 : stripWS (32 :: (strBytes "0x" ++ natToHex ts)) = strBytes "0x" ++ natToHex ts :=
      by rw [stripWS_cons_ws 32 _ rfl]; exact stripWS_eq_self_of _ (fun x hx => (hexPart_facts (ts) x hx).1)
    have e6 : stripWS (32 :: (m.path)) = m.path :=
      by rw [stripWS_cons_ws 32 _ rfl]; exact cleanStr_strip _ hpath
    simp only [List.map_cons, List.map_nil, e0, e1, e2, e3, e4, e5, e6]
  · exact buildRow_v2w m ck ts hcid hoff hcks hts

theorem rowOK_v3 (m : ModuleEntry) (c : Int) (hc0 : c ≠ 0)
    (hpath : cleanStr m.path = true) (hpne : m.path ≠ [])
    (hcid : m.containing_id = some c) (hoff : m.offset = none)
    (hcks : m.checksum = none) (hts : m.timestamp = none) :
    ∃ p qs,
      [strBytes "id", strBytes "containing_id", strBytes "start", strBytes "end", strBytes "entry", strBytes "path"].filterMap (renderColOpt m) = p :: qs ∧
      (∀ x ∈ p, x ≠ 44) ∧
      (∀ q ∈ qs.dropLast, ∀ x ∈ q, x ≠ 44) ∧
      qs.length + 1 = [strBytes "id", strBytes "containing_id", strBytes "start", strBytes "end", strBytes "entry", strBytes "path"].length ∧
      (∀ x ∈ joinCommaSpace (p :: qs), x ≠ 10) ∧
      stripWS (joinCommaSpace (p :: qs)) = joinCommaSpace (p :: qs) ∧
      joinCommaSpace (p :: qs) ≠ [] ∧
      (p :: qs.map (fun q => 32 :: q)).map stripWS = p :: qs ∧
      buildModuleFromMap ([strBytes "id", strBytes "containing_id", strBytes "start", strBytes "end", strBytes "entry", strBytes "path"].zip (p :: qs)) = some m := by
  refine ⟨natToDec m.id,
    [intToDec c,
       strBytes "0x" ++ natToHex m.base,
       strBytes "0x" ++ natToHex m.endAddr,
       strBytes "0x" ++ natToHex m.entry,
       m.path],
    ?_, ?_, ?_, rfl, ?_, ?_, ?_, ?_, ?_⟩
  · have hr : [strBytes "id", strBytes "containing_id", strBytes "start", strBytes "end", strBytes "entry", strBytes "path"].filterMap (renderColOpt m) =
        [natToDec m.id,
         intToDec (pyOrIntD m.containing_id (-1)),
         strBytes "0x" ++ natToHex m.base,
         strBytes "0x" ++ natToHex m.endAddr,
         strBytes "0x" ++ natToHex m.entry,
         m.path] := rfl
    rw [hr]
    simp only [hcid, pyOrIntD_some_ne c (-1) hc0]
  · intro x hx
    exact (decPart_facts m.id x hx).2.1
  · intro q hq x hx
    have hqa : q ∈ [intToDec c, strBytes "0x" ++ natToHex m.base, strBytes "0x" ++ natToHex m.endAddr, strBytes "0x" ++ natToHex m.entry] := hq
    rcases List.mem_cons.mp hqa with rfl | hqa0
    · exact (intPart_facts c x hx).2.1
    rcases List.mem_cons.mp hqa0 with rfl | hqa1
    · exact (hexPart_facts (m.base) x hx).2.1
    rcases List.mem_cons.mp hqa1 with rfl | hqa2
    · exact (hexPart_facts (m.endAddr) x hx).2.1
    rcases List.mem_cons.mp hqa2 with rfl | hqa3
    · exact (hexPart_facts (m.entry) x hx).2.1
    simp at hqa3
  · intro x hx3
    rcases joinCS_mem x _ hx3 with rfl | rfl | ⟨q, hqa, hx⟩
    · omega
    · omega
    rcases List.mem_cons.mp hqa with rfl | hqa0
    · exact (decPart_facts m.id x hx).2.2
    rcases List.mem_cons.mp hqa0 with rfl | hqa1
    · exact (intPart_facts c x hx).2.2
    rcases List.mem_cons.mp hqa1 with rfl | hqa2
    · exact (hexPart_facts (m.base) x hx).2.2
    rcases List.mem_cons.mp hqa2 with rfl | hqa3
    · exact (hexPart_facts (m.endAddr) x hx).2.2
    rcases List.mem_cons.mp hqa3 with rfl | hqa4
    · exact (hexPart_facts (m.entry) x hx).2.2
    rcases List.mem_cons.mp hqa4 with rfl | hqa5
    · exact cleanStr_no10 _ hpath x hx
    simp at hqa5
  · apply stripWS_eq_self_ends
    · intro b hb
      have hj0 : joinCommaSpace ((natToDec m.id) :: [intToDec c,
       strBytes "0x" ++ natToHex m.base,
       strBytes "0x" ++ natToHex m.endAddr,
       strBytes "0x" ++ natToHex m.entry,
       m.path]) =
          natToDec m.id ++ ([44, 32] ++ joinCommaSpace [intToDec c,
       strBytes "0x" ++ natToHex m.base,
       strBytes "0x" ++ natToHex m.endAddr,
       strBytes "0x" ++ natToHex m.entry,
       m.path]) := by
        simp [joinCommaSpace]
      rw [hj0, List.head?_append_of_ne_nil _ (natToDec_ne_nil m.id)] at hb
      cases hd : natToDec m.id with
      | nil => exact absurd hd (natToDec_ne_nil _)
      | cons c0 t0 =>
        rw [hd] at hb
        injection hb with hb
        have hc0m : c0 ∈ natToDec m.id := by
          rw [hd]
          exact List.mem_cons_self _ _
        rw [← hb]
        exact (decPart_facts m.id c0 hc0m).1
    · intro b hb
      have hj2 : joinCommaSpace ((natToDec m.id) :: [intToDec c,
       strBytes "0x" ++ natToHex m.base,
       strBytes "0x" ++ natToHex m.endAddr,
       strBytes "0x" ++ natToHex m.entry,
       m.path]) =
          ((natToDec m.id) ++ [44, 32] ++ (intToDec c) ++ [44, 32] ++ (strBytes "0x" ++ natToHex m.base) ++ [44, 32] ++ (strBytes "0x" ++ natToHex m.endAddr) ++ [44, 32] ++ (strBytes "0x" ++ natToHex m.entry) ++ [44, 32]) ++ m.path := by
        simp [joinCommaSpace, List.append_assoc]
      rw [hj2] at hb
      obtain ⟨lb, hlb⟩ : ∃ lb, m.path.getLast? = some lb := by
        cases hp : m.path.getLast? with
        | none => exact absurd (List.getLast?_eq_none_iff.mp hp) hpne
        | some lb => exact ⟨lb, rfl⟩
      rw [getLast?_append_right _ _ _ hlb] at hb
      injection hb with hb
      rw [← hb]
      exact stripWS_self_getLast _ (cleanStr_strip _ hpath) lb hlb
  · intro hcontra
    have hj0 : joinCommaSpace ((natToDec m.id) :: [intToDec c,
       strBytes "0x" ++ natToHex m.base,
       strBytes "0x" ++ natToHex m.endAddr,
       strBytes "0x" ++ natToHex m.entry,
       m.path]) =
          natToDec m.id ++ ([44, 32] ++ joinCommaSpace [intToDec c,
       strBytes "0x" ++ natToHex m.base,
       strBytes "0x" ++ natToHex m.endAddr,
       strBytes "0x" ++ natToHex m.entry,
       m.path]) := by
      simp [joinCommaSpace]
    rw [hj0] at hcontra
    exact natToDec_ne_nil _ (List.append_eq_nil.mp hcontra).1
  · have e0 : stripWS (natToDec m.id) = natToDec m.id :=
      stripWS_eq_self_of _ (fun x hx => (decPart_facts m.id x hx).1)
    have e1 : stripWS (32 :: (intToDec c)) = intToDec c :=
      by rw [stripWS_cons_ws 32 _ rfl]; exact stripWS_eq_self_of _ (fun x hx => (intPart_facts c x hx).1)
    have e2 : stripWS (32 :: (strBytes "0x" ++ natToHex m.base)) = strBytes "0x" ++ natToHex m.base :=
      by rw [stripWS_cons_ws 32 _ rfl]; exact stripWS_eq_self_of _ (fun x hx => (hexPart_facts (m.base) x hx).1)
    have e3 : stripWS (32 :: (strBytes "0x" ++ natToHex m.endAddr)) = strBytes "0x" ++ natToHex m.endAddr :=
      by rw [stripWS_cons_ws 32 _ rfl]; exact stripWS_eq_self_of _ (fun x hx => (hexPart_facts (m.endAddr) x hx).1)
    have e4 : stripWS (32 :: (strBytes "0x" ++ natToHex m.entry)) = strBytes "0x" ++ natToHex m.entry :=
      by rw [stripWS_cons_ws 32 _ rfl]; exact stripWS_eq_self_of _ (fun x hx => (hexPart_facts (m.entry) x hx).1)
    have e5 : stripWS (32 :: (m.path)) = m.path :=
      by rw [stripWS_cons_ws 32 _ rfl]; exact cleanStr_strip _ hpath
    simp only [List.map_cons, List.map_nil, e0, e1, e2, e3, e4, e5]
  · exact buildRow_v3 m c hcid hoff hcks hts

theorem rowOK_v3w (m : ModuleEntry) (c : Int) (hc0 : c ≠ 0) (ck ts : Nat)
    (hpath : cleanStr m.path = true) (hpne : m.path ≠ [])
    (hcid : m.containing_id = some c) (hoff : m.offset = none)
    (hcks : m.checksum = some ck) (hts : m.timestamp = some ts) :
    ∃ p qs,
      [strBytes "id", strBytes "containing_id", strBytes "start", strBytes "end", strBytes "entry", strBytes "checksum", strBytes "timestamp", strBytes "path"].filterMap (renderColOpt m) = p :: qs ∧
      (∀ x ∈ p, x ≠ 44) ∧
      (∀ q ∈ qs.dropLast, ∀ x ∈ q, x ≠ 44) ∧
      qs.length + 1 = [strBytes "id", strBytes "containing_id", strBytes "start", strBytes "end", strBytes "entry", strBytes "checksum", strBytes "timestamp", strBytes "path"].length ∧
      (∀ x ∈ joinCommaSpace (p :: qs), x ≠ 10) ∧
      stripWS (joinCommaSpace (p :: qs)) = joinCommaSpace (p :: qs) ∧
      joinCommaSpace (p :: qs) ≠ [] ∧
      (p :: qs.map (fun q => 32 :: q)).map stripWS = p :: qs ∧
      buildModuleFromMap ([strBytes "id", strBytes "containing_id", strBytes "start", strBytes "end", strBytes "entry", strBytes "checksum", strBytes "timestamp", strBytes "path"].zip (p :: qs)) = some m := by
  refine ⟨natToDec m.id,
    [intToDec c,
       strBytes "0x" ++ natToHex m.base,
       strBytes "0x" ++ natToHex m.endAddr,
       strBytes "0x" ++ natToHex m.entry,
       strBytes "0x" ++ natToHex ck,
       strBytes "0x" ++ natToHex ts,
       m.path],
    ?_, ?_, ?_, rfl, ?_, ?_, ?_, ?_, ?_⟩
  · have hr : [strBytes "id", strBytes "containing_id", strBytes "start", strBytes "end", strBytes "entry", strBytes "checksum", strBytes "timestamp", strBytes "path"].filterMap (renderColOpt m) =
        [natToDec m.id,
         intToDec (pyOrIntD m.containing_id (-1)),
         strBytes "0x" ++ natToHex m.base,
         strBytes "0x" ++ natToHex m.endAddr,
         strBytes "0x" ++ natToHex m.entry,
         strBytes "0x" ++ natToHex (pyOrNatD m.checksum 0),
         strBytes "0x" ++ natToHex (pyOrNatD m.timestamp 0),
         m.path] := rfl
    rw [hr]
    simp only [hcid, pyOrIntD_some_ne c (-1) hc0, hcks, hts, pyOrNatD_some_zero]
  · intro x hx
    exact (decPart_facts m.id x hx).2.1
  · intro q hq x hx
    have hqa : q ∈ [intToDec c, strBytes "0x" ++ natToHex m.base, strBytes "0x" ++ natToHex m.endAddr, strBytes "0x" ++ natToHex m.entry, strBytes "0x" ++ natToHex ck, strBytes "0x" ++ natToHex ts] := hq
    rcases List.mem_cons.mp hqa with rfl | hqa0
    · exact (intPart_facts c x hx).2.1
    rcases List.mem_cons.mp hqa0 with rfl | hqa1
    · exact (hexPart_facts (m.base) x hx).2.1
    rcases List.mem_cons.mp hqa1 with rfl | hqa2
    · exact (hexPart_facts (m.endAddr) x hx).2.1
    rcases List.mem_cons.mp hqa2 with rfl | hqa3
    · exact (hexPart_facts (m.entry) x hx).2.1
    rcases List.mem_cons.mp hqa3 with rfl | hqa4
    · exact (hexPart_facts (ck) x hx).2.1
    rcases List.mem_cons.mp hqa4 with rfl | hqa5
    · exact (hexPart_facts (ts) x hx).2.1
    simp at hqa5
  · intro x hx3
    rcases joinCS_mem x _ hx3 with rfl | rfl | ⟨q, hqa, hx⟩
    · omega
    · omega
    rcases List.mem_cons.mp hqa with rfl | hqa0
    · exact (decPart_facts m.id x hx).2.2
    rcases List.mem_cons.mp hqa0 with rfl | hqa1
    · exact (intPart_facts c x hx).2.2
    rcases List.mem_cons.mp hqa1 with rfl | hqa2
    · exact (hexPart_facts (m.base) x hx).2.2
    rcases List.mem_cons.mp hqa2 with rfl | hqa3
    · exact (hexPart_facts (m.endAddr) x hx).2.2
    rcases List.mem_cons.mp hqa3 with rfl | hqa4
    · exact (hexPart_facts (m.entry) x hx).2.2
    rcases List.mem_cons.mp hqa4 with rfl | hqa5
    · exact (hexPart_facts (ck) x hx).2.2
    rcases List.mem_cons.mp hqa5 with rfl | hqa6
    · exact (hexPart_facts (ts) x hx).2.2
    rcases List.mem_cons.mp hqa6 with rfl | hqa7
    · exact cleanStr_no10 _ hpath x hx
    simp at hqa7
  · apply stripWS_eq_self_ends
    · intro b hb
      have hj0 : joinCommaSpace ((natToDec m.id) :: [intToDec c,
       strBytes "0x" ++ natToHex m.base,
       strBytes "0x" ++ natToHex m.endAddr,
       strBytes "0x" ++ natToHex m.entry,
       strBytes "0x" ++ natToHex ck,
       strBytes "0x" ++ natToHex ts,
       m.path]) =
          natToDec m.id ++ ([44, 32] ++ joinCommaSpace [intToDec c,
       strBytes "0x" ++ natToHex m.base,
       strBytes "0x" ++ natToHex m.endAddr,
       strBytes "0x" ++ natToHex m.entry,
       strBytes "0x" ++ natToHex ck,
       strBytes "0x" ++ natToHex ts,
       m.path]) := by
        simp [joinCommaSpace]
      rw [hj0, List.head?_append_of_ne_nil _ (natToDec_ne_nil m.id)] at hb
      cases hd : natToDec m.id with
      | nil => exact absurd hd (natToDec_ne_nil _)
      | cons c0 t0 =>
        rw [hd] at hb
        injection hb with hb
        have hc0m : c0 ∈ natToDec m.id := by
          rw [hd]
          exact List.mem_cons_self _ _
        rw [← hb]
        exact (decPart_facts m.id c0 hc0m).1
    · intro b hb
      have hj2 : joinCommaSpace ((natToDec m.id) :: [intToDec c,
       strBytes "0x" ++ natToHex m.base,
       strBytes "0x" ++ natToHex m.endAddr,
       strBytes "0x" ++ natToHex m.entry,
       strBytes "0x" ++ natToHex ck,
       strBytes "0x" ++ natToHex ts,
       m.path]) =
          ((natToDec m.id) ++ [44, 32] ++ (intToDec c) ++ [44, 32] ++ (strBytes "0x" ++ natToHex m.base) ++ [44, 32] ++ (strBytes "0x" ++ natToHex m.endAddr) ++ [44, 32] ++ (strBytes "0x" ++ natToHex m.entry) ++ [44, 32] ++ (strBytes "0x" ++ natToHex ck) ++ [44, 32] ++ (strBytes "0x" ++ natToHex ts) ++ [44, 32]) ++ m.path := by
        simp [joinCommaSpace, List.append_assoc]
      rw [hj2] at hb
      obtain ⟨lb, hlb⟩ : ∃ lb, m.path.getLast? = some lb := by
        cases hp : m.path.getLast? with
        | none => exact absurd (List.getLast?_eq_none_iff.mp hp) hpne
        | some lb => exact ⟨lb, rfl⟩
      rw [getLast?_append_right _ _ _ hlb] at hb
      injection hb with hb
      rw [← hb]
      exact stripWS_self_getLast _ (cleanStr_strip _ hpath) lb hlb
  · intro hcontra
    have hj0 : joinCommaSpace ((natToDec m.id) :: [intToDec c,
       strBytes "0x" ++ natToHex m.base,
       strBytes "0x" ++ natToHex m.endAddr,
       strBytes "0x" ++ natToHex m.entry,
       strBytes "0x" ++ natToHex ck,
       strBytes "0x" ++ natToHex ts,
       m.path]) =
          natToDec m.id ++ ([44, 32] ++ joinCommaSpace [intToDec c,
       strBytes "0x" ++ natToHex m.base,
       strBytes "0x" ++ natToHex m.endAddr,
       strBytes "0x" ++ natToHex m.entry,
       strBytes "0x" ++ natToHex ck,
       strBytes "0x" ++ natToHex ts,
       m.path]) := by
      simp [joinCommaSpace]
    rw [hj0] at hcontra
    exact natToDec_ne_nil _ (List.append_eq_nil.mp hcontra).1
  · have e0 : stripWS (natToDec m.id) = natToDec m.id :=
      stripWS_eq_self_of _ (fun x hx => (decPart_facts m.id x hx).1)
    have e1 : stripWS (32 :: (intToDec c)) = intToDec c :=
      by rw [stripWS_cons_ws 32 _ rfl]; exact stripWS_eq_self_of _ (fun x hx => (intPart_facts c x hx).1)
    have e2 : stripWS (32 :: (strBytes "0x" ++ natToHex m.base)) = strBytes "0x" ++ natToHex m.base :=
      by rw [stripWS_cons_ws 32 _ rfl]; exact stripWS_eq_self_of _ (fun x hx => (hexPart_facts (m.base) x hx).1)
    have e3 : stripWS (32 :: (strBytes "0x" ++ natToHex m.endAddr)) = strBytes "0x" ++ natToHex m.endAddr :=
      by rw [stripWS_cons_ws 32 _ rfl]; exact stripWS_eq_self_of _ (fun x hx => (hexPart_facts (m.endAddr) x hx).1)
    have e4 : stripWS (32 :: (strBytes "0x" ++ natToHex m.entry)) = strBytes "0x" ++ natToHex m.entry :=
      by rw [stripWS_cons_ws 32 _ rfl]; exact stripWS_eq_self_of _ (fun x hx => (hexPart_facts (m.entry) x hx).1)
    have e5 : stripWS (32 :: (strBytes "0x" ++ natToHex ck)) = strBytes "0x" ++ natToHex ck :=
      by rw [stripWS_cons_ws 32 _ rfl]; exact stripWS_eq_self_of _ (fun x hx => (hexPart_facts (ck) x hx).1)
    have e6 : stripWS (32 :: (strBytes "0x" ++ natToHex ts)) = strBytes "0x" ++ natToHex ts :=
      by rw [stripWS_cons_ws 32 _ rfl]; exact stripWS_eq_self_of _ (fun x hx => (hexPart_facts (ts) x hx).1)
    have e7 : stripWS (32 :: (m.path)) = m.path :=
      by rw [stripWS_cons_ws 32 _ rfl]; exact cleanStr_strip _ hpath
    simp only [List.map_cons, List.map_nil, e0, e1, e2, e3, e4, e5, e6, e7]
  · exact buildRow_v3w m c ck ts hcid hoff hcks hts

theorem rowOK_v4 (m : ModuleEntry) (c : Int) (hc0 : c ≠ 0) (o : Nat)
    (hpath : cleanStr m.path = true) (hpne : m.path ≠ [])
    (hcid : m.containing_id = some c) (hoff : m.offset = some o)
    (hcks : m.checksum = none) (hts : m.timestamp = none) :
    ∃ p qs,
      [strBytes "id", strBytes "containing_id", strBytes "start", strBytes "end", strBytes "entry", strBytes "offset", strBytes "path"].filterMap (renderColOpt m) = p :: qs ∧
      (∀ x ∈ p, x ≠ 44) ∧
      (∀ q ∈ qs.dropLast, ∀ x ∈ q, x ≠ 44) ∧
      qs.length + 1 = [strBytes "id", strBytes "containing_id", strBytes "start", strBytes "end", strBytes "entry", strBytes "offset", strBytes "path"].length ∧
      (∀ x ∈ joinCommaSpace (p :: qs), x ≠ 10) ∧
      stripWS (joinCommaSpace (p :: qs)) = joinCommaSpace (p :: qs) ∧
      joinCommaSpace (p :: qs) ≠ [] ∧
      (p :: qs.map (fun q => 32 :: q)).map stripWS = p :: qs ∧
      buildModuleFromMap ([strBytes "id", strBytes "containing_id", strBytes "start", strBytes "end", strBytes "entry", strBytes "offset", strBytes "path"].zip (p :: qs)) = some m := by
  refine ⟨natToDec m.id,
    [intToDec c,
       strBytes "0x" ++ natToHex m.base,
       strBytes "0x" ++ natToHex m.endAddr,
       strBytes "0x" ++ natToHex m.entry,
       strBytes "0x" ++ natToHex o,
       m.path],
    ?_, ?_, ?_, rfl, ?_, ?_, ?_, ?_, ?_⟩
  · have hr : [strBytes "id", strBytes "containing_id", strBytes "start", strBytes "end", strBytes "entry", strBytes "offset", strBytes "path"].filterMap (renderColOpt m) =
        [natToDec m.id,
         intToDec (pyOrIntD m.containing_id (-1)),
         strBytes "0x" ++ natToHex m.base,
         strBytes "0x" ++ natToHex m.endAddr,
         strBytes "0x" ++ natToHex m.entry,
         strBytes "0x" ++ natToHex (pyOrNatD m.offset 0),
         m.path] := rfl
    rw [hr]
    simp only [hcid, pyOrIntD_some_ne c (-1) hc0, hoff, pyOrNatD_some_zero]
  · intro x hx
    exact (decPart_facts m.id x hx).2.1
  · intro q hq x hx
    have hqa : q ∈ [intToDec c, strBytes "0x" ++ natToHex m.base, strBytes "0x" ++ natToHex m.endAddr, strBytes "0x" ++ natToHex m.entry, strBytes "0x" ++ natToHex o] := hq
    rcases List.mem_cons.mp hqa with rfl | hqa0
    · exact (intPart_facts c x hx).2.1
    rcases List.mem_cons.mp hqa0 with rfl | hqa1
    · exact (hexPart_facts (m.base) x hx).2.1
    rcases List.mem_cons.mp hqa1 with rfl | hqa2
    · exact (hexPart_facts (m.endAddr) x hx).2.1
    rcases List.mem_cons.mp hqa2 with rfl | hqa3
    · exact (hexPart_facts (m.entry) x hx).2.1
    rcases List.mem_cons.mp hqa3 with rfl | hqa4
    · exact (hexPart_facts (o) x hx).2.1
    simp at hqa4
  · intro x hx3
    rcases joinCS_mem x _ hx3 with rfl | rfl | ⟨q, hqa, hx⟩
    · omega
    · omega
    rcases List.mem_cons.mp hqa with rfl | hqa0
    · exact (decPart_facts m.id x hx).2.2
    rcases List.mem_cons.mp hqa0 with rfl | hqa1
    · exact (intPart_facts c x hx).2.2
    rcases List.mem_cons.mp hqa1 with rfl | hqa2
    · exact (hexPart_facts (m.base) x hx).2.2
    rcases List.mem_cons.mp hqa2 with rfl | hqa3
    · exact (hexPart_facts (m.endAddr) x hx).2.2
    rcases List.mem_cons.mp hqa3 with rfl | hqa4
    · exact (hexPart_facts (m.entry) x hx).2.2
    rcases List.mem_cons.mp hqa4 with rfl | hqa5
    · exact (hexPart_facts (o) x hx).2.2
    rcases List.mem_cons.mp hqa5 with rfl | hqa6
    · exact cleanStr_no10 _ hpath x hx
    simp at hqa6
  · apply stripWS_eq_self_ends
    · intro b hb
      have hj0 : joinCommaSpace ((natToDec m.id) :: [intToDec c,
       strBytes "0x" ++ natToHex m.base,
       strBytes "0x" ++ natToHex m.endAddr,
       strBytes "0x" ++ natToHex m.entry,
       strBytes "0x" ++ natToHex o,
       m.path]) =
          natToDec m.id ++ ([44, 32] ++ joinCommaSpace [intToDec c,
       strBytes "0x" ++ natToHex m.base,
       strBytes "0x" ++ natToHex m.endAddr,
       strBytes "0x" ++ natToHex m.entry,
       strBytes "0x" ++ natToHex o,
       m.path]) := by
        simp [joinCommaSpace]
      rw [hj0, List.head?_append_of_ne_nil _ (natToDec_ne_nil m.id)] at hb
      cases hd : natToDec m.id with
      | nil => exact absurd hd (natToDec_ne_nil _)
      | cons c0 t0 =>
        rw [hd] at hb
        injection hb with hb
        have hc0m : c0 ∈ natToDec m.id := by
          rw [hd]
          exact List.mem_cons_self _ _
        rw [← hb]
        exact (decPart_facts m.id c0 hc0m).1
    · intro b hb
      have hj2 : joinCommaSpace ((natToDec m.id) :: [intToDec c,
       strBytes "0x" ++ natToHex m.base,
       strBytes "0x" ++ natToHex m.endAddr,
       strBytes "0x" ++ natToHex m.entry,
       strBytes "0x" ++ natToHex o,
       m.path]) =
          ((natToDec m.id) ++ [44, 32] ++ (intToDec c) ++ [44, 32] ++ (strBytes "0x" ++ natToHex m.base) ++ [44, 32] ++ (strBytes "0x" ++ natToHex m.endAddr) ++ [44, 32] ++ (strBytes "0x" ++ natToHex m.entry) ++ [44, 32] ++ (strBytes "0x" ++ natToHex o) ++ [44, 32]) ++ m.path := by
        simp [joinCommaSpace, List.append_assoc]
      rw [hj2] at hb
      obtain ⟨lb, hlb⟩ : ∃ lb, m.path.getLast? = some lb := by
        cases hp : m.path.getLast? with
        | none => exact absurd (List.getLast?_eq_none_iff.mp hp) hpne
        | some lb => exact ⟨lb, rfl⟩
      rw [getLast?_append_right _ _ _ hlb] at hb
      injection hb with hb
      rw [← hb]
      exact stripWS_self_getLast _ (cleanStr_strip _ hpath) lb hlb
  · intro hcontra
    have hj0 : joinCommaSpace ((natToDec m.id) :: [intToDec c,
       strBytes "0x" ++ natToHex m.base,
       strBytes "0x" ++ natToHex m.endAddr,
       strBytes "0x" ++ natToHex m.entry,
       strBytes "0x" ++ natToHex o,
       m.path]) =
          natToDec m.id ++ ([44, 32] ++ joinCommaSpace [intToDec c,
       strBytes "0x" ++ natToHex m.base,
       strBytes "0x" ++ natToHex m.endAddr,
       strBytes "0x" ++ natToHex m.entry,
       strBytes "0x" ++ natToHex o,
       m.path]) := by
      simp [joinCommaSpace]
    rw [hj0] at hcontra
    exact natToDec_ne_nil _ (List.append_eq_nil.mp hcontra).1
  · have e0 : stripWS (natToDec m.id) = natToDec m.id :=
      stripWS_eq_self_of _ (fun x hx => (decPart_facts m.id x hx).1)
    have e1 : stripWS (32 :: (intToDec c)) = intToDec c :=
      by rw [stripWS_cons_ws 32 _ rfl]; exact stripWS_eq_self_of _ (fun x hx => (intPart_facts c x hx).1)
    have e2 : stripWS (32 :: (strBytes "0x" ++ natToHex m.base)) = strBytes "0x" ++ natToHex m.base :=
      by rw [stripWS_cons_ws 32 _ rfl]; exact stripWS_eq_self_of _ (fun x hx => (hexPart_facts (m.base) x hx).1)
    have e3 : stripWS (32 :: (strBytes "0x" ++ natToHex m.endAddr)) = strBytes "0x" ++ natToHex m.endAddr :=
      by rw [stripWS_cons_ws 32 _ rfl]; exact stripWS_eq_self_of _ (fun x hx => (hexPart_facts (m.endAddr) x hx).1)
    have e4 : stripWS (32 :: (strBytes "0x" ++ natToHex m.entry)) = strBytes "0x" ++ natToHex m.entry :=
      by rw [stripWS_cons_ws 32 _ rfl]; exact stripWS_eq_self_of _ (fun x hx => (hexPart_facts (m.entry) x hx).1)
    have e5 : stripWS (32 :: (strBytes "0x" ++ natToHex o)) = strBytes "0x" ++ natToHex o :=
      by rw [stripWS_cons_ws 32 _ rfl]; exact stripWS_eq_self_of _ (fun x hx => (hexPart_facts (o) x hx).1)
    have e6 : stripWS (32 :: (m.path)) = m.path :=
      by rw [stripWS_cons_ws 32 _ rfl]; exact cleanStr_strip _ hpath
    simp only [List.map_cons, List.map_nil, e0, e1, e2, e3, e4, e5, e6]
  · exact buildRow_v4 m c o hcid hoff hcks hts

theorem rowOK_v4w (m : ModuleEntry) (c : Int) (hc0 : c ≠ 0) (o ck ts : Nat)
    (hpath : cleanStr m.path = true) (hpne : m.path ≠ [])
    (hcid : m.containing_id = some c) (hoff : m.offset = some o)
    (hcks : m.checksum = some ck) (hts : m.timestamp = some ts) :
    ∃ p qs,
      [strBytes "id", strBytes "containing_id", strBytes "start", strBytes "end", strBytes "entry", strBytes "offset", strBytes "checksum", strBytes "timestamp", strBytes "path"].filterMap (renderColOpt m) = p :: qs ∧
      (∀ x ∈ p, x ≠ 44) ∧
      (∀ q ∈ qs.dropLast, ∀ x ∈ q, x ≠ 44) ∧
      qs.length + 1 = [strBytes "id", strBytes "containing_id", strBytes "start", strBytes "end", strBytes "entry", strBytes "offset", strBytes "checksum", strBytes "timestamp", strBytes "path"].length ∧
      (∀ x ∈ joinCommaSpace (p :: qs), x ≠ 10) ∧
      stripWS (joinCommaSpace (p :: qs)) = joinCommaSpace (p :: qs) ∧
      joinCommaSpace (p :: qs) ≠ [] ∧
      (p :: qs.map (fun q => 32 :: q)).map stripWS = p :: qs ∧
      buildModuleFromMap ([strBytes "id", strBytes "containing_id", strBytes "start", strBytes "end", strBytes "entry", strBytes "offset", strBytes "checksum", strBytes "timestamp", strBytes "path"].zip (p :: qs)) = some m := by
  refine ⟨natToDec m.id,
    [intToDec c,
       strBytes "0x" ++ natToHex m.base,
       strBytes "0x" ++ natToHex m.endAddr,
       strBytes "0x" ++ natToHex m.entry,
       strBytes "0x" ++ natToHex o,
       strBytes "0x" ++ natToHex ck,
       strBytes "0x" ++ natToHex ts,
       m.path],
    ?_, ?_, ?_, rfl, ?_, ?_, ?_, ?_, ?_⟩
  · have hr : [strBytes "id", strBytes "containing_id", strBytes "start", strBytes "end", strBytes "entry", strBytes "offset", strBytes "checksum", strBytes "timestamp", strBytes "path"].filterMap (renderColOpt m) =
        [natToDec m.id,
         intToDec (pyOrIntD m.containing_id (-1)),
         strBytes "0x" ++ natToHex m.base,
         strBytes "0x" ++ natToHex m.endAddr,
         strBytes "0x" ++ natToHex m.entry,
         strBytes "0x" ++ natToHex (pyOrNatD m.offset 0),
         strBytes "0x" ++ natToHex (pyOrNatD m.checksum 0),
         strBytes "0x" ++ natToHex (pyOrNatD m.timestamp 0),
         m.path] := rfl
    rw [hr]
    simp only [hcid, pyOrIntD_some_ne c (-1) hc0, hoff, hcks, hts, pyOrNatD_some_zero]
  · intro x hx
    exact (decPart_facts m.id x hx).2.1
  · intro q hq x hx
    have hqa : q ∈ [intToDec c, strBytes "0x" ++ natToHex m.base, strBytes "0x" ++ natToHex m.endAddr, strBytes "0x" ++ natToHex m.entry, strBytes "0x" ++ natToHex o, strBytes "0x" ++ natToHex ck, strBytes "0x" ++ natToHex ts] := hq
    rcases List.mem_cons.mp hqa with rfl | hqa0
    · exact (intPart_facts c x hx).2.1
    rcases List.mem_cons.mp hqa0 with rfl | hqa1
    · exact (hexPart_facts (m.base) x hx).2.1
    rcases List.mem_cons.mp hqa1 with rfl | hqa2
    · exact (hexPart_facts (m.endAddr) x hx).2.1
    rcases List.mem_cons.mp hqa2 with rfl | hqa3
    · exact (hexPart_facts (m.entry) x hx).2.1
    rcases List.mem_cons.mp hqa3 with rfl | hqa4
    · exact (hexPart_facts (o) x hx).2.1
    rcases List.mem_cons.mp hqa4 with rfl | hqa5
    · exact (hexPart_facts (ck) x hx).2.1
    rcases List.mem_cons.mp hqa5 with rfl | hqa6
    · exact (hexPart_facts (ts) x hx).2.1
    simp at hqa6
  · intro x hx3
    rcases joinCS_mem x _ hx3 with rfl | rfl | ⟨q, hqa, hx⟩
    · omega
    · omega
    rcases List.mem_cons.mp hqa with rfl | hqa0
    · exact (decPart_facts m.id x hx).2.2
    rcases List.mem_cons.mp hqa0 with rfl | hqa1
    · exact (intPart_facts c x hx).2.2
    rcases List.mem_cons.mp hqa1 with rfl | hqa2
    · exact (hexPart_facts (m.base) x hx).2.2
    rcases List.mem_cons.mp hqa2 with rfl | hqa3
    · exact (hexPart_facts (m.endAddr) x hx).2.2
    rcases List.mem_cons.mp hqa3 with rfl | hqa4
    · exact (hexPart_facts (m.entry) x hx).2.2
    rcases List.mem_cons.mp hqa4 with rfl | hqa5
    · exact (hexPart_facts (o) x hx).2.2
    rcases List.mem_cons.mp hqa5 with rfl | hqa6
    · exact (hexPart_facts (ck) x hx).2.2
    rcases List.mem_cons.mp hqa6 with rfl | hqa7
    · exact (hexPart_facts (ts) x hx).2.2
    rcases List.mem_cons.mp hqa7 with rfl | hqa8
    · exact cleanStr_no10 _ hpath x hx
    simp at hqa8
  · apply stripWS_eq_self_ends
    · intro b hb
      have hj0 : joinCommaSpace ((natToDec m.id) :: [intToDec c,
       strBytes "0x" ++ natToHex m.base,
       strBytes "0x" ++ natToHex m.endAddr,
       strBytes "0x" ++ natToHex m.entry,
       strBytes "0x" ++ natToHex o,
       strBytes "0x" ++ natToHex ck,
       strBytes "0x" ++ natToHex ts,
       m.path]) =
          natToDec m.id ++ ([44, 32] ++ joinCommaSpace [intToDec c,
       strBytes "0x" ++ natToHex m.base,
       strBytes "0x" ++ natToHex m.endAddr,
       strBytes "0x" ++ natToHex m.entry,
       strBytes "0x" ++ natToHex o,
       strBytes "0x" ++ natToHex ck,
       strBytes "0x" ++ natToHex ts,
       m.path]) := by
        simp [joinCommaSpace]
      rw [hj0, List.head?_append_of_ne_nil _ (natToDec_ne_nil m.id)] at hb
      cases hd : natToDec m.id with
      | nil => exact absurd hd (natToDec_ne_nil _)
      | cons c0 t0 =>
        rw [hd] at hb
        injection hb with hb
        have hc0m : c0 ∈ natToDec m.id := by
          rw [hd]
          exact List.mem_cons_self _ _
        rw [← hb]
        exact (decPart_facts m.id c0 hc0m).1
    · intro b hb
      have hj2 : joinCommaSpace ((natToDec m.id) :: [intToDec c,
       strBytes "0x" ++ natToHex m.base,
       strBytes "0x" ++ natToHex m.endAddr,
       strBytes "0x" ++ natToHex m.entry,
       strBytes "0x" ++ natToHex o,
       strBytes "0x" ++ natToHex ck,
       strBytes "0x" ++ natToHex ts,
       m.path]) =
          ((natToDec m.id) ++ [44, 32] ++ (intToDec c) ++ [44, 32] ++ (strBytes "0x" ++ natToHex m.base) ++ [44, 32] ++ (strBytes "0x" ++ natToHex m.endAddr) ++ [44, 32] ++ (strBytes "0x" ++ natToHex m.entry) ++ [44, 32] ++ (strBytes "0x" ++ natToHex o) ++ [44, 32] ++ (strBytes "0x" ++ natToHex ck) ++ [44, 32] ++ (strBytes "0x" ++ natToHex ts) ++ [44, 32]) ++ m.path := by
        simp [joinCommaSpace, List.append_assoc]
      rw [hj2] at hb
      obtain ⟨lb, hlb⟩ : ∃ lb, m.path.getLast? = some lb := by
        cases hp : m.path.getLast? with
        | none => exact absurd (List.getLast?_eq_none_iff.mp hp) hpne
        | some lb => exact ⟨lb, rfl⟩
      rw [getLast?_append_right _ _ _ hlb] at hb
      injection hb with hb
      rw [← hb]
      exact stripWS_self_getLast _ (cleanStr_strip _ hpath) lb hlb
  · intro hcontra
    have hj0 : joinCommaSpace ((natToDec m.id) :: [intToDec c,
       strBytes "0x" ++ natToHex m.base,
       strBytes "0x" ++ natToHex m.endAddr,
       strBytes "0x" ++ natToHex m.entry,
       strBytes "0x" ++ natToHex o,
       strBytes "0x" ++ natToHex ck,
       strBytes "0x" ++ natToHex ts,
       m.path]) =
          natToDec m.id ++ ([44, 32] ++ joinCommaSpace [intToDec c,
       strBytes "0x" ++ natToHex m.base,
       strBytes "0x" ++ natToHex m.endAddr,
       strBytes "0x" ++ natToHex m.entry,
       strBytes "0x" ++ natToHex o,
       strBytes "0x" ++ natToHex ck,
       strBytes "0x" ++ natToHex ts,
       m.path]) := by
      simp [joinCommaSpace]
    rw [hj0] at hcontra
    exact natToDec_ne_nil _ (List.append_eq_nil.mp hcontra).1
  · have e0 : stripWS (natToDec m.id) = natToDec m.id :=
      stripWS_eq_self_of _ (fun x hx => (decPart_facts m.id x hx).1)
    have e1 : stripWS (32 :: (intToDec c)) = intToDec c :=
      by rw [stripWS_cons_ws 32 _ rfl]; exact stripWS_eq_self_of _ (fun x hx => (intPart_facts c x hx).1)
    have e2 : stripWS (32 :: (strBytes "0x" ++ natToHex m.base)) = strBytes "0x" ++ natToHex m.base :=
      by rw [stripWS_cons_ws 32 _ rfl]; exact stripWS_eq_self_of _ (fun x hx => (hexPart_facts (m.base) x hx).1)
    have e3 : stripWS (32 :: (strBytes "0x" ++ natToHex m.endAddr)) = strBytes "0x" ++ natToHex m.endAddr :=
      by rw [stripWS_cons_ws 32 _ rfl]; exact stripWS_eq_self_of _ (fun x hx => (hexPart_facts (m.endAddr) x hx).1)
    have e4 : stripWS (32 :: (strBytes "0x" ++ natToHex m.entry)) = strBytes "0x" ++ natToHex m.entry :=
      by rw [stripWS_cons_ws 32 _ rfl]; exact stripWS_eq_self_of _ (fun x hx => (hexPart_facts (m.entry) x hx).1)
    have e5 : stripWS (32 :: (strBytes "0x" ++ natToHex o)) = strBytes "0x" ++ natToHex o :=
      by rw [stripWS_cons_ws 32 _ rfl]; exact stripWS_eq_self_of _ (fun x hx => (hexPart_facts (o) x hx).1)
    have e6 : stripWS (32 :: (strBytes "0x" ++ natToHex ck)) = strBytes "0x" ++ natToHex ck :=
      by rw [stripWS_cons_ws 32 _ rfl]; exact stripWS_eq_self_of _ (fun x hx => (hexPart_facts (ck) x hx).1)
    have e7 : stripWS (32 :: (strBytes "0x" ++ natToHex ts)) = strBytes "0x" ++ natToHex ts :=
      by rw [stripWS_cons_ws 32 _ rfl]; exact stripWS_eq_self_of _ (fun x hx => (hexPart_facts (ts) x hx).1)
    have e8 : stripWS (32 :: (m.path)) = m.path :=
      by rw [stripWS_cons_ws 32 _ rfl]; exact cleanStr_strip _ hpath
    simp only [List.map_cons, List.map_nil, e0, e1, e2, e3, e4, e5, e6, e7, e8]
  · exact buildRow_v4w m c o ck ts hcid hoff hcks hts

theorem modTableMarker_no10 : ∀ x ∈ modTableMarker, x ≠ 10 := by decide

theorem stripWS_modmarker_tail (t : List Nat) (lb : Nat)
    (hlast : t.getLast? = some lb) (hlb : isWSByte lb = false) :
    stripWS ((modTableMarker ++ t) ++ [10]) = modTableMarker ++ t := by
  rw [stripWS_append_newline]
  apply stripWS_eq_self_ends
  · intro b hb
    rw [List.head?_append_of_ne_nil _ (by decide : modTableMarker ≠ []),
      show modTableMarker.head? = some 77 from rfl] at hb
    injection hb with hb
    rw [← hb]
    rfl
  · intro b hb
    rw [getLast?_append_right _ _ _ hlast] at hb
    injection hb with hb
    rw [← hb]
    exact hlb

theorem natToDec_getLast (n : Nat) :
    ∃ lb, (natToDec n).getLast? = some lb ∧ isWSByte lb = false := by
  obtain ⟨lb, hlb⟩ : ∃ lb, (natToDec n).getLast? = some lb := by
    cases he : (natToDec n).getLast? with
    | none => exact absurd (List.getLast?_eq_none_iff.mp he) (natToDec_ne_nil _)
    | some lb => exact ⟨lb, rfl⟩
  have hmem : lb ∈ natToDec n := by
    rw [List.getLast?_eq_getElem?] at hlb
    exact List.getElem?_mem hlb
  exact ⟨lb, hlb, (decPart_facts n lb hmem).1⟩

theorem containsSub_version_dec (n : Nat) :
    containsSub (strBytes "version") (natToDec n) = false := by
  have he : strBytes "version" = 118 :: strBytes "ersion" := rfl
  rw [he]
  apply containsSub_head_notin
  intro x hx
  have := natToDec_digits n x hx
  omega

theorem parseModuleTableB_legacy (ms : List ModuleEntry)
    (hrows : parseModRowsB [strBytes "id", strBytes "base", strBytes "end",
        strBytes "entry", strBytes "path"] ms.length
        ((ms.map (moduleRow [strBytes "id", strBytes "base", strBytes "end",
          strBytes "entry", strBytes "path"])).flatten ++ [10]) = some (ms, [10])) :
    parseModuleTableB ((modTableMarker ++ natToDec ms.length ++ [10]
        ++ (ms.map (moduleRow [strBytes "id", strBytes "base", strBytes "end",
          strBytes "entry", strBytes "path"])).flatten) ++ [10])
      = some (ms, .LEGACY, []) := by
  have hno10 : ∀ x ∈ modTableMarker ++ natToDec ms.length, x ≠ 10 := by
    intro x hx
    rcases List.mem_append.mp hx with hx | hx
    · exact modTableMarker_no10 x hx
    · exact (decPart_facts _ x hx).2.2
  have harg : (modTableMarker ++ natToDec ms.length ++ [10]
      ++ (ms.map (moduleRow [strBytes "id", strBytes "base", strBytes "end",
        strBytes "entry", strBytes "path"])).flatten) ++ [10] =
      (modTableMarker ++ natToDec ms.length) ++ 10 ::
        ((ms.map (moduleRow [strBytes "id", strBytes "base", strBytes "end",
          strBytes "entry", strBytes "path"])).flatten ++ [10]) := by
    simp [List.append_assoc]
  obtain ⟨lb, hlb, hlbws⟩ := natToDec_getLast ms.length
  have hrl := readLineB_append (modTableMarker ++ natToDec ms.length)
    ((ms.map (moduleRow [strBytes "id", strBytes "base", strBytes "end",
      strBytes "entry", strBytes "path"])).flatten ++ [10]) hno10
  have hline : stripWS ((modTableMarker ++ natToDec ms.length) ++ [10]) =
      modTableMarker ++ natToDec ms.length :=
    stripWS_modmarker_tail _ lb hlb hlbws
  have hsw : startsWithB modTableMarker (modTableMarker ++ natToDec ms.length) = true :=
    startsWithB_append _ _
  have hdrop : (modTableMarker ++ natToDec ms.length).drop modTableMarker.length =
      natToDec ms.length := List.drop_left _ _
  have hrl2 : readLineB [10] = ([10], ([] : List Nat)) := rfl
  unfold parseModuleTableB
  rw [harg]
  simp only [hrl, hline, hsw, Bool.not_true, if_neg, hdrop,
    containsSub_version_dec, Bool.false_eq_true, if_false,
    pyNatDec_natToDec, hrows, hrl2]
  simp
theorem colsStringFor_no10 (v : ModuleTableVersion) (hwb : Bool) :
    ∀ x ∈ columnsMarker ++ columnsStringFor v hwb, x ≠ 10 := by
  cases v <;> cases hwb <;> decide

theorem colsLine_strip (v : ModuleTableVersion) (hwb : Bool) :
    stripWS ((columnsMarker ++ columnsStringFor v hwb) ++ [10]) =
      columnsMarker ++ columnsStringFor v hwb := by
  rw [stripWS_append_newline]
  cases v <;> cases hwb <;> decide

theorem verDecl_no10 (vv n : Nat) :
    ∀ x ∈ modTableMarker ++ strBytes "version " ++ natToDec vv
      ++ strBytes ", count " ++ natToDec n, x ≠ 10 := by
  intro x hx
  simp only [List.mem_append] at hx
  rcases hx with (((hx | hx) | hx) | hx) | hx
  · exact modTableMarker_no10 x hx
  · revert x
    decide
  · exact (decPart_facts _ x hx).2.2
  · revert x
    decide
  · exact (decPart_facts _ x hx).2.2

theorem verContent_split (vv n : Nat) :
    splitOnByte 44 (strBytes "version " ++ natToDec vv ++ strBytes ", count "
      ++ natToDec n) =
      [strBytes "version " ++ natToDec vv, strBytes " count " ++ natToDec n] := by
  have harr : strBytes "version " ++ natToDec vv ++ strBytes ", count " ++ natToDec n =
      (strBytes "version " ++ natToDec vv) ++ 44 ::
        (strBytes " count " ++ natToDec n) := by
    simp [strBytes, List.append_assoc]
  rw [harr, splitOnByte_append]
  · rw [splitOnByte_notin]
    intro x hx
    rcases List.mem_append.mp hx with hx | hx
    · have hall : ∀ y ∈ strBytes " count ", y ≠ 44 := by decide
      exact hall x hx
    · have := natToDec_digits _ x hx
      omega
  · intro x hx
    rcases List.mem_append.mp hx with hx | hx
    · have hall : ∀ y ∈ strBytes "version ", y ≠ 44 := by decide
      exact hall x hx
    · have := natToDec_digits _ x hx
      omega

theorem stripWS_verPart (vv : Nat) :
    stripWS (strBytes "version " ++ natToDec vv) = strBytes "version " ++ natToDec vv := by
  apply stripWS_eq_self_ends
  · intro b hb
    rw [List.head?_append_of_ne_nil _ (by decide : strBytes "version " ≠ []),
      show (strBytes "version ").head? = some 118 from rfl] at hb
    injection hb with hb
    rw [← hb]
    rfl
  · intro b hb
    obtain ⟨lb, hlb, hlbws⟩ := natToDec_getLast vv
    rw [getLast?_append_right _ _ _ hlb] at hb
    injection hb with hb
    rw [← hb]
    exact hlbws

theorem stripWS_countPart (n : Nat) :
    stripWS (strBytes " count " ++ natToDec n) = strBytes "count " ++ natToDec n := by
  have he : strBytes " count " ++ natToDec n =
      32 :: (strBytes "count " ++ natToDec n) := by
    simp [strBytes]
  rw [he, stripWS_cons_ws 32 _ rfl]
  apply stripWS_eq_self_ends
  · intro b hb
    rw [List.head?_append_of_ne_nil _ (by decide : strBytes "count " ≠ []),
      show (strBytes "count ").head? = some 99 from rfl] at hb
    injection hb with hb
    rw [← hb]
    rfl
  · intro b hb
    obtain ⟨lb, hlb, hlbws⟩ := natToDec_getLast n
    rw [getLast?_append_right _ _ _ hlb] at hb
    injection hb with hb
    rw [← hb]
    exact hlbws

theorem spaceSplit_marker_dec (mk : List Nat) (n : Nat)
    (hmk : ∀ x ∈ mk, x ≠ 32) :
    splitOnByte 32 (mk ++ 32 :: natToDec n) = [mk, natToDec n] := by
  rw [splitOnByte_append 32 _ _ hmk, splitOnByte_notin]
  intro x hx
  have := natToDec_digits n x hx
  omega

theorem verPart_dissect (vv : Nat) :
    strBytes "version " ++ natToDec vv = strBytes "version" ++ 32 :: natToDec vv := by
  simp [strBytes]

theorem countPart_dissect (n : Nat) :
    strBytes "count " ++ natToDec n = strBytes "count" ++ 32 :: natToDec n := by
  simp [strBytes]
set_option maxHeartbeats 1600000 in
theorem parseModuleTableB_versioned (v : ModuleTableVersion) (hwb : Bool)
    (hnleg : v ≠ .LEGACY) (ms : List ModuleEntry)
    (hrows : parseModRowsB (writerColumns v hwb) ms.length
        ((ms.map (moduleRow (writerColumns v hwb))).flatten ++ [10]) = some (ms, [10])) :
    parseModuleTableB ((modTableMarker ++ strBytes "version " ++ natToDec v.value
        ++ strBytes ", count " ++ natToDec ms.length ++ [10]
        ++ columnsMarker ++ columnsStringFor v hwb ++ [10]
        ++ (ms.map (moduleRow (writerColumns v hwb))).flatten) ++ [10])
      = some (ms, v, []) := by
  have harg : (modTableMarker ++ strBytes "version " ++ natToDec v.value
      ++ strBytes ", count " ++ natToDec ms.length ++ [10]
      ++ columnsMarker ++ columnsStringFor v hwb ++ [10]
      ++ (ms.map (moduleRow (writerColumns v hwb))).flatten) ++ [10] =
      (modTableMarker ++ strBytes "version " ++ natToDec v.value
        ++ strBytes ", count " ++ natToDec ms.length) ++ 10 ::
        ((columnsMarker ++ columnsStringFor v hwb) ++ 10 ::
          ((ms.map (moduleRow (writerColumns v hwb))).flatten ++ [10])) := by
    simp [List.append_assoc]
  have hrl := readLineB_append
    (modTableMarker ++ strBytes "version " ++ natToDec v.value
      ++ strBytes ", count " ++ natToDec ms.length)
    ((columnsMarker ++ columnsStringFor v hwb) ++ 10 ::
      ((ms.map (moduleRow (writerColumns v hwb))).flatten ++ [10]))
    (verDecl_no10 v.value ms.length)
  obtain ⟨lb, hlb, hlbws⟩ := natToDec_getLast ms.length
  have hT : modTableMarker ++ strBytes "version " ++ natToDec v.value
      ++ strBytes ", count " ++ natToDec ms.length =
      modTableMarker ++ (strBytes "version " ++ natToDec v.value
        ++ strBytes ", count " ++ natToDec ms.length) := by
    simp [List.append_assoc]
  have hline : stripWS ((modTableMarker ++ strBytes "version " ++ natToDec v.value
      ++ strBytes ", count " ++ natToDec ms.length) ++ [10]) =
      modTableMarker ++ strBytes "version " ++ natToDec v.value
        ++ strBytes ", count " ++ natToDec ms.length := by
    rw [hT]
    rw [stripWS_modmarker_tail _ lb (getLast?_append_right _ _ _ hlb) hlbws]
  have hsw : startsWithB modTableMarker
      (modTableMarker ++ strBytes "version " ++ natToDec v.value
        ++ strBytes ", count " ++ natToDec ms.length) = true := by
    rw [hT]
    exact startsWithB_append _ _
  have hdropC : (modTableMarker ++ strBytes "version " ++ natToDec v.value
      ++ strBytes ", count " ++ natToDec ms.length).drop modTableMarker.length =
      strBytes "version " ++ natToDec v.value
        ++ strBytes ", count " ++ natToDec ms.length := by
    rw [hT]
    exact List.drop_left _ _
  have hver : containsSub (strBytes "version")
      (strBytes "version " ++ natToDec v.value
        ++ strBytes ", count " ++ natToDec ms.length) = true := by
    have hv2 : strBytes "version " ++ natToDec v.value
        ++ strBytes ", count " ++ natToDec ms.length =
        strBytes "version" ++ (32 :: (natToDec v.value
          ++ (strBytes ", count " ++ natToDec ms.length))) := by
      simp [strBytes, List.append_assoc]
    have hv1 := containsSub_append_middle (strBytes "version") []
      (32 :: (natToDec v.value ++ (strBytes ", count " ++ natToDec ms.length)))
    rw [List.nil_append] at hv1
    rw [hv2]
    exact hv1
  have hsplitv : splitOnByte 32 (strBytes "version " ++ natToDec v.value) =
      [strBytes "version", natToDec v.value] := by
    rw [verPart_dissect]
    exact spaceSplit_marker_dec _ _ (by decide)
  have hsplitc : splitOnByte 32 (strBytes "count " ++ natToDec ms.length) =
      [strBytes "count", natToDec ms.length] := by
    rw [countPart_dissect]
    exact spaceSplit_marker_dec _ _ (by decide)
  have hrlc := readLineB_append (columnsMarker ++ columnsStringFor v hwb)
    ((ms.map (moduleRow (writerColumns v hwb))).flatten ++ [10])
    (colsStringFor_no10 v hwb)
  have hswc : startsWithB columnsMarker (columnsMarker ++ columnsStringFor v hwb)
      = true := startsWithB_append _ _
  have hdropCl : (columnsMarker ++ columnsStringFor v hwb).drop columnsMarker.length
      = columnsStringFor v hwb := List.drop_left _ _
  have hcols : (splitOnByte 44 (columnsStringFor v hwb)).map stripWS =
      writerColumns v hwb := by
    rw [writerColumns, if_neg hnleg]
  have hrl2 : readLineB [10] = ([10], ([] : List Nat)) := rfl
  unfold parseModuleTableB
  rw [harg]
  simp only [hrl]
  rw [hline]
  rw [if_neg (by rw [hsw]; simp)]
  rw [hdropC, hver, if_pos rfl]
  rw [verContent_split]
  simp only [List.map_cons, List.map_nil, stripWS_verPart, stripWS_countPart,
    List.getElem?_cons_zero, List.getElem?_cons_succ]
  rw [hsplitv, hsplitc]
  simp only [List.getElem?_cons_zero, List.getElem?_cons_succ,
    pyNatDec_natToDec, mtvOfNat_value]
  simp only [hrlc]
  rw [colsLine_strip]
  rw [if_neg (by rw [hswc]; simp)]
  rw [hdropCl, hcols, hrows]
  simp [hrl2]
theorem fieldsConsistent_basic (m : ModuleEntry) (v : ModuleTableVersion)
    (hv : v = .LEGACY ∨ v = .V2) (h : fieldsConsistent m v = true) :
    m.containing_id = none ∧ m.offset = none := by
  rcases hv with rfl | rfl <;>
  · unfold fieldsConsistent at h
    rw [Bool.and_eq_true] at h
    exact ⟨beq_iff_eq.mp h.1, beq_iff_eq.mp h.2⟩

theorem fieldsConsistent_v3 (m : ModuleEntry) (h : fieldsConsistent m .V3 = true) :
    ∃ c, m.containing_id = some c ∧ c ≠ 0 ∧ m.offset = none := by
  unfold fieldsConsistent at h
  rw [Bool.and_eq_true] at h
  obtain ⟨h1, h2⟩ := h
  cases hc : m.containing_id with
  | none =>
    rw [hc] at h1
    simp at h1
  | some c =>
    rw [hc] at h1
    refine ⟨c, rfl, by simpa using h1, beq_iff_eq.mp h2⟩

theorem fieldsConsistent_v4 (m : ModuleEntry) (h : fieldsConsistent m .V4 = true) :
    ∃ c o, m.containing_id = some c ∧ c ≠ 0 ∧ m.offset = some o := by
  unfold fieldsConsistent at h
  rw [Bool.and_eq_true] at h
  obtain ⟨h1, h2⟩ := h
  cases hc : m.containing_id with
  | none =>
    rw [hc] at h1
    simp at h1
  | some c =>
    rw [hc] at h1
    cases ho : m.offset with
    | none =>
      rw [ho] at h2
      simp at h2
    | some o => exact ⟨c, o, rfl, by simpa using h1, rfl⟩

theorem windowsFields_false_all (d : CoverageData) (hwf : windowsFields d = false) :
    ∀ m ∈ d.modules, m.checksum = none ∧ m.timestamp = none := by
  intro m hm
  unfold windowsFields at hwf
  rw [List.any_eq_false] at hwf
  have h2 := hwf m hm
  simp only [Bool.not_eq_true, Bool.or_eq_false_iff] at h2
  exact ⟨Option.not_isSome_iff_eq_none.mp (by simp [h2.1]),
    Option.not_isSome_iff_eq_none.mp (by simp [h2.2])⟩

theorem windowsConsistent_true_all (d : CoverageData)
    (hwin : windowsConsistent d = true) (hwf : windowsFields d = true) :
    d.module_version ≠ .LEGACY ∧
      ∀ m ∈ d.modules, (∃ ck, m.checksum = some ck) ∧ ∃ ts, m.timestamp = some ts := by
  unfold windowsConsistent at hwin
  rw [Bool.or_eq_true] at hwin
  rcases hwin with hwin | hwin
  · exfalso
    rw [List.all_eq_true] at hwin
    unfold windowsFields at hwf
    rw [List.any_eq_true] at hwf
    obtain ⟨m, hm, hms⟩ := hwf
    have := hwin m hm
    rw [Bool.and_eq_true] at this
    rw [beq_iff_eq.mp this.1, beq_iff_eq.mp this.2] at hms
    simp at hms
  · rw [Bool.and_eq_true] at hwin
    refine ⟨by simpa using hwin.1, ?_⟩
    intro m hm
    have := List.all_eq_true.mp hwin.2 m hm
    rw [Bool.and_eq_true] at this
    exact ⟨Option.isSome_iff_exists.mp this.1, Option.isSome_iff_exists.mp this.2⟩
theorem parseModuleTableB_render (d : CoverageData)
    (hmods : ∀ m ∈ d.modules, cleanStr m.path = true ∧ m.path ≠ [] ∧
      fieldsConsistent m d.module_version = true)
    (hwin : windowsConsistent d = true) :
    parseModuleTableB (modTableSection d ++ [10]) =
      some (d.modules, d.module_version, []) := by
  unfold modTableSection
  dsimp only
  by_cases hwf : windowsFields d = true
  · obtain ⟨hnleg, hall⟩ := windowsConsistent_true_all d hwin hwf
    rw [hwf]
    cases hv : d.module_version with
    | LEGACY => exact absurd hv hnleg
    | V2 =>
      rw [hv] at hmods
      rw [if_neg (by decide)]
      have hcolseq : writerColumns .V2 true = [strBytes "id", strBytes "base",
          strBytes "end", strBytes "entry", strBytes "checksum",
          strBytes "timestamp", strBytes "path"] := by decide
      refine parseModuleTableB_versioned .V2 true (by decide) d.modules ?_
      rw [hcolseq]
      refine parseModRowsB_render _ d.modules [10] ?_
      intro m hm
      obtain ⟨hcl, hpne, hf⟩ := hmods m hm
      obtain ⟨hcid, hoff⟩ := fieldsConsistent_basic m .V2 (Or.inr rfl) hf
      obtain ⟨⟨ck, hck⟩, ⟨ts, hts⟩⟩ := hall m hm
      exact rowOK_v2w m ck ts hcl hpne hcid hoff hck hts
    | V3 =>
      rw [hv] at hmods
      rw [if_neg (by decide)]
      have hcolseq : writerColumns .V3 true = [strBytes "id",
          strBytes "containing_id", strBytes "start", strBytes "end",
          strBytes "entry", strBytes "checksum", strBytes "timestamp",
          strBytes "path"] := by decide
      refine parseModuleTableB_versioned .V3 true (by decide) d.modules ?_
      rw [hcolseq]
      refine parseModRowsB_render _ d.modules [10] ?_
      intro m hm
      obtain ⟨hcl, hpne, hf⟩ := hmods m hm
      obtain ⟨c, hcid, hc0, hoff⟩ := fieldsConsistent_v3 m hf
      obtain ⟨⟨ck, hck⟩, ⟨ts, hts⟩⟩ := hall m hm
      exact rowOK_v3w m c hc0 ck ts hcl hpne hcid hoff hck hts
    | V4 =>
      rw [hv] at hmods
      rw [if_neg (by decide)]
      have hcolseq : writerColumns .V4 true = [strBytes "id",
          strBytes "containing_id", strBytes "start", strBytes "end",
          strBytes "entry", strBytes "offset", strBytes "checksum",
          strBytes "timestamp", strBytes "path"] := by decide
      refine parseModuleTableB_versioned .V4 true (by decide) d.modules ?_
      rw [hcolseq]
      refine parseModRowsB_render _ d.modules [10] ?_
      intro m hm
      obtain ⟨hcl, hpne, hf⟩ := hmods m hm
      obtain ⟨c, o, hcid, hc0, hoff⟩ := fieldsConsistent_v4 m hf
      obtain ⟨⟨ck, hck⟩, ⟨ts, hts⟩⟩ := hall m hm
      exact rowOK_v4w m c hc0 o ck ts hcl hpne hcid hoff hck hts
  · have hwf0 : windowsFields d = false := by
      cases hq : windowsFields d
      · rfl
      · exact absurd hq hwf
    have hnone := windowsFields_false_all d hwf0
    rw [hwf0]
    cases hv : d.module_version with
    | LEGACY =>
      rw [hv] at hmods
      rw [if_pos rfl]
      have hcolseq : writerColumns .LEGACY false = [strBytes "id", strBytes "base",
          strBytes "end", strBytes "entry", strBytes "path"] := by decide
      rw [hcolseq]
      refine parseModuleTableB_legacy d.modules ?_
      refine parseModRowsB_render _ d.modules [10] ?_
      intro m hm
      obtain ⟨hcl, hpne, hf⟩ := hmods m hm
      obtain ⟨hcid, hoff⟩ := fieldsConsistent_basic m .LEGACY (Or.inl rfl) hf
      obtain ⟨hck, hts⟩ := hnone m hm
      exact rowOK_v2 m hcl hpne hcid hoff hck hts
    | V2 =>
      rw [hv] at hmods
      rw [if_neg (by decide)]
      have hcolseq : writerColumns .V2 false = [strBytes "id", strBytes "base",
          strBytes "end", strBytes "entry", strBytes "path"] := by decide
      refine parseModuleTableB_versioned .V2 false (by decide) d.modules ?_
      rw [hcolseq]
      refine parseModRowsB_render _ d.modules [10] ?_
      intro m hm
      obtain ⟨hcl, hpne, hf⟩ := hmods m hm
      obtain ⟨hcid, hoff⟩ := fieldsConsistent_basic m .V2 (Or.inr rfl) hf
      obtain ⟨hck, hts⟩ := hnone m hm
      exact rowOK_v2 m hcl hpne hcid hoff hck hts
    | V3 =>
      rw [hv] at hmods
      rw [if_neg (by decide)]
      have hcolseq : writerColumns .V3 false = [strBytes "id",
          strBytes "containing_id", strBytes "start", strBytes "end",
          strBytes "entry", strBytes "path"] := by decide
      refine parseModuleTableB_versioned .V3 false (by decide) d.modules ?_
      rw [hcolseq]
      refine parseModRowsB_render _ d.modules [10] ?_
      intro m hm
      obtain ⟨hcl, hpne, hf⟩ := hmods m hm
      obtain ⟨c, hcid, hc0, hoff⟩ := fieldsConsistent_v3 m hf
      obtain ⟨hck, hts⟩ := hnone m hm
      exact rowOK_v3 m c hc0 hcl hpne hcid hoff hck hts
    | V4 =>
      rw [hv] at hmods
      rw [if_neg (by decide)]
      have hcolseq : writerColumns .V4 false = [strBytes "id",
          strBytes "containing_id", strBytes "start", strBytes "end",
          strBytes "entry", strBytes "offset", strBytes "path"] := by decide
      refine parseModuleTableB_versioned .V4 false (by decide) d.modules ?_
      rw [hcolseq]
      refine parseModRowsB_render _ d.modules [10] ?_
      intro m hm
      obtain ⟨hcl, hpne, hf⟩ := hmods m hm
      obtain ⟨c, o, hcid, hc0, hoff⟩ := fieldsConsistent_v4 m hf
      obtain ⟨hck, hts⟩ := hnone m hm
      exact rowOK_v4 m c hc0 o hcl hpne hcid hoff hck hts
theorem parseHeaderB_render (d : CoverageData)
    (hflav : cleanStr d.header.flavor = true) :
    parseHeaderB (textSection d) = some (d.header, modTableSection d ++ [10]) := by
  have hflav10 := cleanStr_no10 _ hflav
  have harg : textSection d = (versionMarker ++ natToDec d.header.version) ++ 10 ::
      ((flavorMarker ++ d.header.flavor) ++ 10 ::
        (10 :: (modTableSection d ++ [10]))) := by
    unfold textSection
    simp [List.append_assoc]
  have hno10a : ∀ x ∈ versionMarker ++ natToDec d.header.version, x ≠ 10 := by
    intro x hx
    rcases List.mem_append.mp hx with hx | hx
    · have hall : ∀ y ∈ versionMarker, y ≠ 10 := by decide
      exact hall x hx
    · exact (decPart_facts _ x hx).2.2
  have hno10b : ∀ x ∈ flavorMarker ++ d.header.flavor, x ≠ 10 := by
    intro x hx
    rcases List.mem_append.mp hx with hx | hx
    · have hall : ∀ y ∈ flavorMarker, y ≠ 10 := by decide
      exact hall x hx
    · exact hflav10 x hx
  have hrl1 := readLineB_append (versionMarker ++ natToDec d.header.version)
    ((flavorMarker ++ d.header.flavor) ++ 10 :: (10 :: (modTableSection d ++ [10])))
    hno10a
  have hsw1 : startsWithB versionMarker
      ((versionMarker ++ natToDec d.header.version) ++ [10]) = true := by
    rw [List.append_assoc]
    exact startsWithB_append _ _
  have hdrop1 : ((versionMarker ++ natToDec d.header.version) ++ [10]).drop
      versionMarker.length = natToDec d.header.version ++ [10] := by
    rw [List.append_assoc]
    exact List.drop_left _ _
  have hrl2 := readLineB_append (flavorMarker ++ d.header.flavor)
    (10 :: (modTableSection d ++ [10])) hno10b
  have hsw2 : startsWithB flavorMarker
      ((flavorMarker ++ d.header.flavor) ++ [10]) = true := by
    rw [List.append_assoc]
    exact startsWithB_append _ _
  have hdrop2 : ((flavorMarker ++ d.header.flavor) ++ [10]).drop
      flavorMarker.length = d.header.flavor ++ [10] := by
    rw [List.append_assoc]
    exact List.drop_left _ _
  have hstripf : stripWS (d.header.flavor ++ [10]) = d.header.flavor := by
    rw [stripWS_append_newline]
    exact cleanStr_strip _ hflav
  have hrl3 : readLineB (10 :: (modTableSection d ++ [10])) =
      ([10], modTableSection d ++ [10]) := rfl
  unfold parseHeaderB
  rw [harg]
  simp only [hrl1, hsw1, Bool.not_true, hdrop1, pyNatDec_natToDec_nl, hrl2,
    hsw2, hdrop2, hstripf, hrl3]
  simp
  decide
theorem hitMarker_no10 : ∀ x ∈ hitTableMarker ++ strBytes "version 1, count ", x ≠ 10 := by
  decide

theorem parseHitFromBinary_render (hs ph : List Nat)
    (hph : ph.length = 4 * hs.length) (hdec : decode4s hs.length ph = some hs) :
    parseHitFromBinary ((hitTableMarker ++ strBytes "version 1, count "
      ++ natToDec hs.length ++ [10]) ++ ph) hs.length = some hs := by
  obtain ⟨lb, hlb, hlbws⟩ := natToDec_getLast hs.length
  have hno10 : ∀ x ∈ hitTableMarker ++ strBytes "version 1, count "
      ++ natToDec hs.length, x ≠ 10 := by
    intro x hx
    rcases List.mem_append.mp hx with hx | hx
    · exact hitMarker_no10 x hx
    · exact (decPart_facts _ x hx).2.2
  have harg : (hitTableMarker ++ strBytes "version 1, count "
      ++ natToDec hs.length ++ [10]) ++ ph =
      (hitTableMarker ++ strBytes "version 1, count " ++ natToDec hs.length)
        ++ 10 :: ph := by
    simp [List.append_assoc]
  have hsplit : splitOnByte 10 ((hitTableMarker ++ strBytes "version 1, count "
      ++ natToDec hs.length) ++ 10 :: ph) =
      (hitTableMarker ++ strBytes "version 1, count " ++ natToDec hs.length)
        :: splitOnByte 10 ph :=
    splitOnByte_append _ _ _ hno10
  have hstriph : stripWS (hitTableMarker ++ strBytes "version 1, count "
      ++ natToDec hs.length) = hitTableMarker ++ strBytes "version 1, count "
      ++ natToDec hs.length := by
    apply stripWS_eq_self_ends
    · intro b hb
      rw [show hitTableMarker ++ strBytes "version 1, count "
        ++ natToDec hs.length = hitTableMarker ++ (strBytes "version 1, count "
        ++ natToDec hs.length) from by simp [List.append_assoc]] at hb
      rw [List.head?_append_of_ne_nil _ (by decide : hitTableMarker ≠ []),
        show hitTableMarker.head? = some 72 from rfl] at hb
      injection hb with hb
      rw [← hb]
      rfl
    · intro b hb
      rw [getLast?_append_right _ _ _ hlb] at hb
      injection hb with hb
      rw [← hb]
      exact hlbws
  have hswh : startsWithB hitTableMarker (hitTableMarker
      ++ strBytes "version 1, count " ++ natToDec hs.length) = true := by
    rw [show hitTableMarker ++ strBytes "version 1, count "
      ++ natToDec hs.length = hitTableMarker ++ (strBytes "version 1, count "
      ++ natToDec hs.length) from by simp [List.append_assoc]]
    exact startsWithB_append _ _
  have hdroph : (hitTableMarker ++ strBytes "version 1, count "
      ++ natToDec hs.length).drop hitTableMarker.length =
      strBytes "version 1, count " ++ natToDec hs.length := by
    rw [show hitTableMarker ++ strBytes "version 1, count "
      ++ natToDec hs.length = hitTableMarker ++ (strBytes "version 1, count "
      ++ natToDec hs.length) from by simp [List.append_assoc]]
    exact List.drop_left _ _
  have hstrips : stripWS (strBytes "version 1, count " ++ natToDec hs.length) =
      strBytes "version 1, count " ++ natToDec hs.length := by
    apply stripWS_eq_self_ends
    · intro b hb
      rw [List.head?_append_of_ne_nil _ (by decide : strBytes "version 1, count " ≠ []),
        show (strBytes "version 1, count ").head? = some 118 from rfl] at hb
      injection hb with hb
      rw [← hb]
      rfl
    · intro b hb
      rw [getLast?_append_right _ _ _ hlb] at hb
      injection hb with hb
      rw [← hb]
      exact hlbws
  have hsplit44 : splitOnByte 44 (strBytes "version 1, count "
      ++ natToDec hs.length) =
      [strBytes "version 1", strBytes " count " ++ natToDec hs.length] := by
    have he : strBytes "version 1, count " ++ natToDec hs.length =
        strBytes "version 1" ++ 44 :: (strBytes " count " ++ natToDec hs.length) := by
      simp [strBytes, List.append_assoc]
    rw [he, splitOnByte_append]
    · rw [splitOnByte_notin]
      intro x hx
      rcases List.mem_append.mp hx with hx | hx
      · have hall : ∀ y ∈ strBytes " count ", y ≠ 44 := by decide
        exact hall x hx
      · have := natToDec_digits _ x hx
        omega
    · have hall : ∀ y ∈ strBytes "version 1", y ≠ 44 := by decide
      exact hall
  have hswc : startsWithB (strBytes "count ")
      (strBytes "count " ++ natToDec hs.length) = true := startsWithB_append _ _
  have hdrop6 : (strBytes "count " ++ natToDec hs.length).drop 6 =
      natToDec hs.length := List.drop_left' (by decide)
  have hdropPos : (((hitTableMarker ++ strBytes "version 1, count "
      ++ natToDec hs.length) ++ 10 :: ph)).drop
      ((hitTableMarker ++ strBytes "version 1, count "
        ++ natToDec hs.length).length + 1) = ph := by
    rw [show (hitTableMarker ++ strBytes "version 1, count "
      ++ natToDec hs.length) ++ 10 :: ph = ((hitTableMarker
      ++ strBytes "version 1, count " ++ natToDec hs.length) ++ [10]) ++ ph from by
      simp [List.append_assoc]]
    apply List.drop_left'
    simp
    omega
  unfold parseHitFromBinary
  rw [harg, hsplit]
  unfold findHitHeaderLine
  rw [hstriph]
  simp only [hswh, if_true, hdroph, hstrips, hsplit44]
  rw [if_neg (by simp)]
  simp only [List.getElem?_cons_zero, List.getElem?_cons_succ, stripWS_countPart,
    hswc, hdrop6, pyNatDec_natToDec]
  by_cases h0 : hs.length = 0
  · have h00 : hs = [] := List.length_eq_zero.mp h0
    subst h00
    simp
  · rw [if_neg (show ¬ hs.length ≠ hs.length from by omega), if_neg h0, hdropPos]
    rw [show hs.length * 4 = ph.length from by omega, List.take_length]
    rw [if_neg (show ¬ ph.length ≠ ph.length from by omega)]
    exact hdec
theorem dropInvalidBlocks_strict (d : CoverageData) (ids : List Nat)
    (invalid : List BasicBlock) :
    dropInvalidBlocks false d ids invalid = some (d.basic_blocks, d.hit_counts) := by
  unfold dropInvalidBlocks
  rw [if_neg (by simp)]

theorem validate_strict_hits (d : CoverageData) (hv : validate d false = some d) :
    ∀ hs, d.hit_counts = some hs → hs.length = d.basic_blocks.length := by
  intro hs hhs
  unfold validate at hv
  dsimp only at hv
  split at hv
  · cases hv
  · split at hv
    · cases hv
    · split at hv
      · cases hv
      · rename_i blocks2 hcur hdrop
        rw [dropInvalidBlocks_strict] at hdrop
        injection hdrop with hdrop
        injection hdrop with h1 h2
        subst h1
        subst h2
        split at hv
        · cases hv
        · rename_i hfinal halign
          rw [hhs] at halign
          unfold alignHitCounts at halign
          dsimp only at halign
          by_cases h3 : hs.length = d.basic_blocks.length
          · exact h3
          · rw [if_neg h3, if_neg (by simp)] at halign
            cases halign
set_option maxHeartbeats 3200000 in
theorem parseWithBinary_assemble (d : CoverageData) (pb hitBody : List Nat)
    (hv : validate d false = some d)
    (hflav : cleanStr d.header.flavor = true)
    (hver2 : d.header.version = 2)
    (hmods : ∀ m ∈ d.modules, cleanStr m.path = true ∧ m.path ≠ [] ∧
      fieldsConsistent m d.module_version = true)
    (hwin : windowsConsistent d = true)
    (hpblen : pb.length = 8 * d.basic_blocks.length)
    (hpbdec : decodeBBs d.basic_blocks.length pb = some d.basic_blocks)
    (hhit : (if hitBody ≠ [] ∧ containsSub hitTableMarker hitBody then
        parseHitFromBinary hitBody d.basic_blocks.length else none) = d.hit_counts) :
    parseWithBinary (textSection d)
      ((bbTableMarker ++ natToDec d.basic_blocks.length ++ strBytes " bbs" ++ [10] ++ pb)
        ++ hitBody) false = some d := by
  obtain ⟨lb, hlb, hlbws⟩ := natToDec_getLast d.basic_blocks.length
  have hno10bb : ∀ x ∈ bbTableMarker ++ natToDec d.basic_blocks.length
      ++ strBytes " bbs", x ≠ 10 := by
    intro x hx
    simp only [List.mem_append] at hx
    rcases hx with (hx | hx) | hx
    · have hall : ∀ y ∈ bbTableMarker, y ≠ 10 := by decide
      exact hall x hx
    · exact (decPart_facts _ x hx).2.2
    · have hall : ∀ y ∈ strBytes " bbs", y ≠ 10 := by decide
      exact hall x hx
  have harg2 : (bbTableMarker ++ natToDec d.basic_blocks.length ++ strBytes " bbs"
      ++ [10] ++ pb) ++ hitBody =
      (bbTableMarker ++ natToDec d.basic_blocks.length ++ strBytes " bbs") ++
        10 :: (pb ++ hitBody) := by
    simp [List.append_assoc]
  have hrlbb := readLineB_append
    (bbTableMarker ++ natToDec d.basic_blocks.length ++ strBytes " bbs")
    (pb ++ hitBody) hno10bb
  have hstripbb : stripWS ((bbTableMarker ++ natToDec d.basic_blocks.length
      ++ strBytes " bbs") ++ [10]) =
      bbTableMarker ++ natToDec d.basic_blocks.length ++ strBytes " bbs" := by
    rw [stripWS_append_newline]
    apply stripWS_eq_self_ends
    · intro b hb
      rw [show bbTableMarker ++ natToDec d.basic_blocks.length ++ strBytes " bbs" =
        bbTableMarker ++ (natToDec d.basic_blocks.length ++ strBytes " bbs") from by
          simp [List.append_assoc]] at hb
      rw [List.head?_append_of_ne_nil _ (by decide : bbTableMarker ≠ []),
        show bbTableMarker.head? = some 66 from rfl] at hb
      injection hb with hb
      rw [← hb]
      rfl
    · intro b hb
      rw [getLast?_append_right _ _ _
        (show (strBytes " bbs").getLast? = some 115 from rfl)] at hb
      injection hb with hb
      rw [← hb]
      rfl
  have hswbb : startsWithB bbTableMarker (bbTableMarker
      ++ natToDec d.basic_blocks.length ++ strBytes " bbs") = true := by
    rw [show bbTableMarker ++ natToDec d.basic_blocks.length ++ strBytes " bbs" =
      bbTableMarker ++ (natToDec d.basic_blocks.length ++ strBytes " bbs") from by
        simp [List.append_assoc]]
    exact startsWithB_append _ _
  have hdropbb : (bbTableMarker ++ natToDec d.basic_blocks.length
      ++ strBytes " bbs").drop bbTableMarker.length =
      natToDec d.basic_blocks.length ++ strBytes " bbs" := by
    rw [show bbTableMarker ++ natToDec d.basic_blocks.length ++ strBytes " bbs" =
      bbTableMarker ++ (natToDec d.basic_blocks.length ++ strBytes " bbs") from by
        simp [List.append_assoc]]
    exact List.drop_left _ _
  have hsplitbb : splitOnByte 32 (natToDec d.basic_blocks.length ++ strBytes " bbs") =
      [natToDec d.basic_blocks.length, strBytes "bbs"] := by
    rw [show natToDec d.basic_blocks.length ++ strBytes " bbs" =
      natToDec d.basic_blocks.length ++ 32 :: strBytes "bbs" from rfl]
    rw [splitOnByte_append]
    · rw [splitOnByte_notin]
      have hall : ∀ y ∈ strBytes "bbs", y ≠ 32 := by decide
      exact hall
    · intro x hx
      have := natToDec_digits _ x hx
      omega
  unfold parseWithBinary
  simp only [parseHeaderB_render d hflav, Option.bind_eq_bind, Option.some_bind]
  rw [if_neg (by rw [hver2]; simp)]
  simp only [parseModuleTableB_render d hmods hwin, Option.some_bind]
  rw [harg2]
  simp only [hrlbb]
  rw [if_neg (by simp)]
  rw [hstripbb]
  rw [if_neg (by rw [hswbb]; simp)]
  rw [hdropbb, hsplitbb]
  simp only [List.getElem?_cons_zero, pyNatDec_natToDec]
  by_cases hM : d.basic_blocks.length = 0
  · rw [if_pos hM]
    have hbbnil : d.basic_blocks = [] := List.length_eq_zero.mp hM
    have hpbnil : pb = [] := List.length_eq_zero.mp (by omega)
    subst hpbnil
    simp only [List.nil_append, Option.some_bind]
    rw [hbbnil] at hhit
    rw [hhit]
    rw [show ([] : List BasicBlock) = d.basic_blocks from hbbnil.symm]
    exact hv
  · rw [if_neg hM]
    rw [show d.basic_blocks.length * 8 = pb.length from by omega]
    rw [List.take_left]
    rw [if_neg (by omega)]
    rw [hpbdec]
    simp only [Option.map_some', Option.some_bind]
    rw [List.drop_left]
    rw [hhit]
    have heta : (⟨d.header, d.modules, d.basic_blocks, d.module_version,
        d.hit_counts⟩ : CoverageData) = d := rfl
    rw [heta]
    exact hv
set_option maxHeartbeats 1600000 in
theorem writeBytes_readBytes (d : CoverageData)
    (hw : writerFriendly d = true) (hv : validate d false = some d) :
    ∃ bs, writeBytes d = some bs ∧ readBytes bs false = some d := by
  unfold writerFriendly at hw
  simp only [Bool.and_eq_true] at hw
  obtain ⟨⟨⟨⟨⟨⟨hver, hflav⟩, hmods⟩, hwin⟩, hbbs⟩, hhits⟩, hnomark⟩ := hw
  have hver2 : d.header.version = 2 := by simpa using hver
  have hmods' : ∀ m ∈ d.modules, cleanStr m.path = true ∧ m.path ≠ [] ∧
      fieldsConsistent m d.module_version = true := by
    intro m hm
    have h2 := List.all_eq_true.mp hmods m hm
    simp only [Bool.and_eq_true] at h2
    obtain ⟨⟨hc, hp⟩, hf⟩ := h2
    exact ⟨hc, by simpa using hp, hf⟩
  have hnomark' : containsSub bbFindMarker (textSection d) = false := by
    simpa using hnomark
  have hbbs' : ∀ b ∈ d.basic_blocks, b.start < 4294967296 ∧ b.size < 65536 ∧
      b.module_id < 65536 := by
    intro b hb
    have h2 := List.all_eq_true.mp hbbs b hb
    simp only [Bool.and_eq_true] at h2
    obtain ⟨⟨h1, h2'⟩, h3⟩ := h2
    exact ⟨by simpa using h1, by simpa using h2', by simpa using h3⟩
  obtain ⟨pb, hpb, hpblen, hpbdec⟩ := packBlocks_decode d.basic_blocks hbbs'
  have hbbsec : bbSection d = some (bbTableMarker ++ natToDec d.basic_blocks.length
      ++ strBytes " bbs" ++ [10] ++ pb) := by
    unfold bbSection
    rw [hpb]
    rfl
  have hmain : ∀ hitBody : List Nat,
      hitSection d = some hitBody →
      ((if hitBody ≠ [] ∧ containsSub hitTableMarker hitBody then
        parseHitFromBinary hitBody d.basic_blocks.length else none) = d.hit_counts) →
      ∃ bs, writeBytes d = some bs ∧ readBytes bs false = some d := by
    intro hitBody hhitsec hhit
    have hcore : coreBytes d = some (textSection d ++ (bbTableMarker
        ++ natToDec d.basic_blocks.length ++ strBytes " bbs" ++ [10] ++ pb)) := by
      unfold coreBytes
      rw [hbbsec]
      rfl
    have hser : serializeBytes d = some ((textSection d ++ (bbTableMarker
        ++ natToDec d.basic_blocks.length ++ strBytes " bbs" ++ [10] ++ pb))
        ++ hitBody) := by
      unfold serializeBytes
      rw [hcore, hhitsec]
    have hwrite : writeBytes d = some ((textSection d ++ (bbTableMarker
        ++ natToDec d.basic_blocks.length ++ strBytes " bbs" ++ [10] ++ pb))
        ++ hitBody) := by
      unfold writeBytes
      rw [hv, hser]
    refine ⟨_, hwrite, ?_⟩
    have hfile : (textSection d ++ (bbTableMarker
        ++ natToDec d.basic_blocks.length ++ strBytes " bbs" ++ [10] ++ pb))
        ++ hitBody = textSection d ++ ((bbTableMarker
        ++ natToDec d.basic_blocks.length ++ strBytes " bbs" ++ [10] ++ pb)
        ++ hitBody) := by
      rw [List.append_assoc]
    have hstart : startsWithB bbFindMarker ((bbTableMarker
        ++ natToDec d.basic_blocks.length ++ strBytes " bbs" ++ [10] ++ pb)
        ++ hitBody) = true := by
      rw [show (bbTableMarker ++ natToDec d.basic_blocks.length ++ strBytes " bbs"
        ++ [10] ++ pb) ++ hitBody = bbFindMarker ++ (32 ::
          (natToDec d.basic_blocks.length ++ (strBytes " bbs" ++ ([10] ++ (pb
            ++ hitBody))))) from by
        rw [show bbTableMarker = bbFindMarker ++ [32] from by decide]
        simp [List.append_assoc]]
      exact startsWithB_append _ _
    have hlast : textSection d = [] ∨ (textSection d).getLast? = some 10 := by
      right
      unfold textSection
      exact getLast?_append_right _ _ _ rfl
    have hfind : findSub bbFindMarker (textSection d ++ ((bbTableMarker
        ++ natToDec d.basic_blocks.length ++ strBytes " bbs" ++ [10] ++ pb)
        ++ hitBody)) = some (textSection d).length :=
      findSub_boundary bbFindMarker (textSection d) _ hstart (by decide)
        hnomark' (by decide) hlast
    rw [hfile]
    unfold readBytes
    rw [hfind]
    dsimp only
    rw [List.take_left, List.drop_left]
    exact parseWithBinary_assemble d pb hitBody hv hflav hver2 hmods' hwin
      hpblen hpbdec hhit
  cases hhc : d.hit_counts with
  | none =>
    refine hmain [] ?_ ?_
    · unfold hitSection
      rw [hhc]
    · rw [if_neg (by simp), hhc]
  | some hs =>
    rw [hhc] at hhits
    have hsb : ∀ h ∈ hs, h < 4294967296 := by
      intro h hh
      have := List.all_eq_true.mp hhits h hh
      simpa using this
    obtain ⟨ph, hph, hphlen, hphdec⟩ := packHits_decode hs hsb
    have hlen : hs.length = d.basic_blocks.length := validate_strict_hits d hv hs hhc
    refine hmain (hitTableMarker ++ strBytes "version 1, count "
      ++ natToDec hs.length ++ [10] ++ ph) ?_ ?_
    · unfold hitSection
      rw [hhc]
      dsimp only
      rw [hph]
      rfl
    · rw [if_pos ?_, ← hlen]
      · have harr : hitTableMarker ++ strBytes "version 1, count "
            ++ natToDec hs.length ++ [10] ++ ph =
            (hitTableMarker ++ strBytes "version 1, count "
              ++ natToDec hs.length ++ [10]) ++ ph := by
          simp [List.append_assoc]
        rw [harr, parseHitFromBinary_render hs ph hphlen hphdec, hhc]
      · constructor
        · intro hEq
          have := congrArg List.length hEq
          simp [List.length_append] at this
        · have harr2 : hitTableMarker ++ strBytes "version 1, count "
              ++ natToDec hs.length ++ [10] ++ ph =
              hitTableMarker ++ (strBytes "version 1, count "
                ++ (natToDec hs.length ++ ([10] ++ ph))) := by
            simp [List.append_assoc]
          rw [harr2]
          have h3 := containsSub_append_middle hitTableMarker []
            (strBytes "version 1, count " ++ (natToDec hs.length ++ ([10] ++ ph)))
          rw [List.nil_append] at h3
          exact h3

/-- C1 counterexample: a strictly valid V3 document whose single module has
`containing_id = None` does not round-trip: the writer's Python-truthiness
fallback (`mod.containing_id or -1`) emits `-1`, and the reader parses it
back as `containing_id = -1 ≠ None`, so the modules differ. -/
theorem c1_counterexample :
    validate cexV3Doc false = some cexV3Doc ∧ roundTripUpToPerm cexV3Doc = false :=
  ⟨by decide, by decide⟩

/-- **C1** (amended): `read(write(doc)) == doc` holds up to list order for
strictly valid documents that are also writer-friendly: header version 2,
flavor and module paths clean one-line strings (no newline, no surrounding
whitespace, paths nonempty), the optional module fields version-consistent
(`containing_id` present and nonzero exactly for v3/v4, `offset` present
exactly for v4, checksum/timestamp all-or-nothing and never in legacy),
block and hit-count fields within their fixed-width ranges, and the byte
string `BB Table:` not occurring in the text region.  For such documents the
writer succeeds and the reader reproduces the document exactly. -/
theorem c1_round_trip (d : CoverageData)
    (hw : writerFriendly d = true) (hv : validate d false = some d) :
    roundTripUpToPerm d = true := by
  obtain ⟨bs, hwb, hrb⟩ := writeBytes_readBytes d hw hv
  unfold roundTripUpToPerm
  rw [hwb]
  dsimp only
  rw [hrb]
  exact docEquivUpToPerm_refl d

/-- C1 witness: the amended round trip at a concrete one-module, one-block
V2 document. -/
theorem c1_witness : roundTripUpToPerm cexC3Base = true :=
  c1_round_trip cexC3Base (by decide) (by decide)
